import Mathlib

/-!
# The Math Council: turn rotation and session lifecycle

A shallow embedding of the debate orchestrator (`debate-manager.js`), the
relational store it writes to (`database.js`), the personality catalog
(`ai-personalities.js`) and the response generator (`ai-service.js`).

* JavaScript objects become structures; a field that only some objects carry is
  an `Option`.
* The process state is a pair: the SQLite database and the `activeSessions` map.
  Every method of `DebateManager` becomes a function from that state to the
  state after the call together with the value the method returns. A method that
  can throw returns an `Except`. The store failures that are modelled are the
  violation of a foreign key, which the schema enforces, and the refusal of
  `undefined` as the content of a message; such a throw comes
  before the method's first write, so it leaves the state as it was
  (`createSession`, whose loop writes several rows, is shown never to throw).
* A call runs to its end before the next call starts: the single `await` of
  `generateNextResponse` is not a point where another call gets in.
* Randomness, the wall clock and the remote backend are inputs of the functions
  that consult them. Times are natural numbers, so `ORDER BY created_at` is the
  order of numbers; the time a message object carries and the time of its row
  are the same input `now`.
* `Math.random()` is a double `k / 2^53`, and its product with a length is the
  double nearest to the exact product.
* `currentSpeakerIndex` is a JavaScript number that the code computes with `%`;
  it is a natural number or `NaN`.
* The orchestrator is called by the routes of `server.js`. `Reachable` lets any
  method be called with any arguments; `Served` keeps to calls whose
  personalities are entries of the catalog, which is all the routes pass.
-/

namespace MathCouncil

/-! ## Catalog (`ai-personalities.js`) -/

/-- One entry of the `personalities` array. -/
structure Personality where
  name : String
  personality : String
  specialty : String
  description : String
  traits : List String
deriving DecidableEq, Repr, Inhabited

/-- The `personalities` array. -/
def personalities : List Personality :=
  [ { name := "Professor Euclid"
      personality := "Rigorous and methodical"
      specialty := "Geometry and formal proofs"
      description := "A classical mathematician who values rigorous proofs and geometric intuition. Always insists on formal mathematical reasoning."
      traits := ["precise", "systematic", "geometric-thinking", "proof-oriented"] },
    { name := "Dr. Chaos"
      personality := "Intuitive and probabilistic"
      specialty := "Probability and statistics"
      description := "A mathematician who sees patterns in randomness and approaches problems through probability theory and statistical analysis."
      traits := ["intuitive", "probabilistic", "pattern-recognition", "statistical-thinking"] },
    { name := "Ms. Approximation"
      personality := "Practical and estimation-focused"
      specialty := "Numerical methods and estimation"
      description := "A practical mathematician who values quick approximations and real-world applications. Often suggests estimation techniques."
      traits := ["practical", "estimation-focused", "numerical", "real-world-oriented"] },
    { name := "The Trickster"
      personality := "Playful and deliberately challenging"
      specialty := "Counterintuitive solutions"
      description := "A mischievous mathematician who often presents deliberately wrong or controversial solutions to spark debate and critical thinking."
      traits := ["playful", "controversial", "debate-provoking", "counterintuitive"] },
    { name := "The Philosopher"
      personality := "Deep and contemplative"
      specialty := "Mathematical philosophy and foundations"
      description := "A thoughtful mathematician who questions the fundamental nature of mathematical concepts and explores philosophical implications."
      traits := ["philosophical", "contemplative", "foundational", "abstract-thinking"] },
    { name := "Dr. Algorithm"
      personality := "Systematic and computational"
      specialty := "Algorithms and computational methods"
      description := "A computational mathematician who thinks in terms of algorithms, efficiency, and step-by-step procedures."
      traits := ["algorithmic", "computational", "efficiency-focused", "step-by-step"] },
    { name := "Professor Infinity"
      personality := "Abstract and theoretical"
      specialty := "Abstract algebra and set theory"
      description := "A theoretical mathematician who deals with abstract concepts, infinite processes, and pure mathematical structures."
      traits := ["abstract", "theoretical", "infinite-thinking", "pure-mathematics"] } ]

/-- The call `xs.slice(0, e)` of JavaScript for an integer `e`: a negative end
counts from the end of the array, and the result never runs past the array. -/
def sliceFromZero {α : Type} (xs : List α) (e : Int) : List α :=
  if e < 0 then xs.take (Int.toNat ((xs.length : Int) + e)) else xs.take e.toNat

/-- The function `getRandomPersonalities(count)`.  The argument `shuffled` is the
array that `[...personalities].sort(() => 0.5 - Math.random())` produced: a sort
with a random comparator returns some rearrangement of the copy it sorts, and
which one is the random outcome. -/
def getRandomPersonalities (shuffled : List Personality) (count : Int) : List Personality :=
  sliceFromZero shuffled (min count (personalities.length : Int))

/-- The function `getPersonalityByName(name)`. -/
def getPersonalityByName (name : String) : Option Personality :=
  personalities.find? (fun p => p.name == name)

/-! ## Store (`database.js`) -/

/-- A row of table `sessions`. -/
structure SessionRow where
  id : Nat
  problem : String
  difficulty : String
  created_at : Nat
deriving DecidableEq, Repr

/-- A row of table `participants`. -/
structure ParticipantRow where
  id : Nat
  session_id : Nat
  name : String
  personality : String
  specialty : String
  is_active : Bool
deriving DecidableEq, Repr

/-- A row of table `messages`. -/
structure MessageRow where
  id : Nat
  session_id : Nat
  participant_id : Nat
  content : String
  created_at : Nat
deriving DecidableEq, Repr

/-- The database file: the three tables in rowid order and, for each table, the
largest rowid it ever handed out (the `sqlite_sequence` entry that
`AUTOINCREMENT` maintains). -/
structure Database where
  sessions : List SessionRow
  participants : List ParticipantRow
  messages : List MessageRow
  seqSessions : Nat
  seqParticipants : Nat
  seqMessages : Nat
deriving DecidableEq, Repr

/-- What a method of the orchestrator can throw: the error of `getSession`, the
violation of a foreign key, and the refusal of the store to take `undefined` as
the content of a message (better-sqlite3 does not bind it as a text, and the
column is `content TEXT NOT NULL`). -/
inductive Failure where
  | sessionNotFound
  | foreignKey
  | undefinedContent
deriving DecidableEq, Repr

/-- The rowid an `INTEGER PRIMARY KEY AUTOINCREMENT` column gives the next row:
one more than the largest rowid the table holds or ever held. -/
def nextRowid (seq : Nat) (ids : List Nat) : Nat :=
  max seq (ids.foldr max 0) + 1

namespace sessionOps

/-- The statement `INSERT INTO sessions (problem, difficulty) VALUES (?, ?)`;
returns the database after it and `lastInsertRowid`. -/
def create (db : Database) (problem difficulty : String) (now : Nat) : Database × Nat :=
  let rowid := nextRowid db.seqSessions (db.sessions.map (fun r => r.id))
  ({ db with
      sessions := db.sessions ++ [{ id := rowid, problem := problem, difficulty := difficulty, created_at := now }]
      seqSessions := rowid }, rowid)

/-- The statement `SELECT * FROM sessions WHERE id = ?`, first row. -/
def getById (db : Database) (id : Nat) : Option SessionRow :=
  db.sessions.find? (fun r => r.id == id)

/-- The statement `DELETE FROM sessions WHERE id = ?`, with the cascades the
schema declares: participants and messages of the session go with it, and so do
messages written by a participant that goes. -/
def delete (db : Database) (id : Nat) : Database :=
  { db with
      sessions := db.sessions.filter (fun r => r.id != id)
      participants := db.participants.filter (fun p => p.session_id != id)
      messages := db.messages.filter (fun m =>
        m.session_id != id &&
          !(db.participants.any (fun p => p.id == m.participant_id && p.session_id == id))) }

end sessionOps

namespace participantOps

/-- The statement `INSERT INTO participants (session_id, name, personality,
specialty) VALUES (?, ?, ?, ?)`; the foreign key on `session_id` is enforced. -/
def create (db : Database) (session_id : Nat) (name personality specialty : String) :
    Except Failure (Database × Nat) :=
  if db.sessions.any (fun r => r.id == session_id) then
    let rowid := nextRowid db.seqParticipants (db.participants.map (fun r => r.id))
    .ok ({ db with
            participants := db.participants ++
              [{ id := rowid, session_id := session_id, name := name, personality := personality,
                 specialty := specialty, is_active := true }]
            seqParticipants := rowid }, rowid)
  else
    .error .foreignKey

/-- The statement `SELECT * FROM participants WHERE session_id = ? AND is_active = 1`. -/
def getBySessionId (db : Database) (session_id : Nat) : List ParticipantRow :=
  db.participants.filter (fun p => p.session_id == session_id && p.is_active)

/-- The statement `UPDATE participants SET is_active = 0 WHERE id = ?`. -/
def deactivate (db : Database) (id : Nat) : Database :=
  { db with
      participants := db.participants.map (fun p => if p.id = id then { p with is_active := false } else p) }

/-- The statement `SELECT * FROM participants WHERE id = ?`, first row. -/
def getById (db : Database) (id : Nat) : Option ParticipantRow :=
  db.participants.find? (fun p => p.id == id)

/-- The statement `DELETE FROM participants WHERE session_id = ?`; messages
written by a deleted participant are deleted by the cascade on
`messages.participant_id`. -/
def deleteBySessionId (db : Database) (session_id : Nat) : Database :=
  { db with
      participants := db.participants.filter (fun p => p.session_id != session_id)
      messages := db.messages.filter (fun m =>
        !(db.participants.any (fun p => p.id == m.participant_id && p.session_id == session_id))) }

end participantOps

/-- A message as the orchestrator holds it: the row of `messages` joined with
the name, personality and specialty of its author. -/
structure Message where
  id : Nat
  session_id : Nat
  participant_id : Nat
  content : String
  name : String
  personality : String
  specialty : String
  created_at : Nat
deriving DecidableEq, Repr

namespace messageOps

/-- The statement `INSERT INTO messages (session_id, participant_id, content)
VALUES (?, ?, ?)`; both foreign keys are enforced. -/
def create (db : Database) (session_id participant_id : Nat) (content : String) (now : Nat) :
    Except Failure (Database × Nat) :=
  if db.sessions.any (fun r => r.id == session_id) &&
      db.participants.any (fun p => p.id == participant_id) then
    let rowid := nextRowid db.seqMessages (db.messages.map (fun r => r.id))
    .ok ({ db with
            messages := db.messages ++
              [{ id := rowid, session_id := session_id, participant_id := participant_id,
                 content := content, created_at := now }]
            seqMessages := rowid }, rowid)
  else
    .error .foreignKey

/-- The rows of `messages m JOIN participants p ON m.participant_id = p.id` that
message row `m` contributes. -/
def joinAuthor (db : Database) (m : MessageRow) : List Message :=
  (db.participants.filter (fun p => p.id == m.participant_id)).map (fun p =>
    { id := m.id, session_id := m.session_id, participant_id := m.participant_id,
      content := m.content, name := p.name, personality := p.personality,
      specialty := p.specialty, created_at := m.created_at })

/-- The statement `SELECT m.*, p.name, p.personality, p.specialty FROM messages m
JOIN participants p ON m.participant_id = p.id WHERE m.session_id = ?
ORDER BY m.created_at ASC`. -/
def getBySessionId (db : Database) (session_id : Nat) : List Message :=
  List.insertionSort (fun a b => a.created_at ≤ b.created_at)
    ((db.messages.filter (fun m => m.session_id == session_id)).flatMap (joinAuthor db))

/-- The statement `SELECT COUNT(*) as count FROM messages WHERE session_id = ?`. -/
def getCountBySessionId (db : Database) (session_id : Nat) : Nat :=
  (db.messages.filter (fun m => m.session_id == session_id)).length

/-- The statement `DELETE FROM messages WHERE session_id = ?`. -/
def deleteBySessionId (db : Database) (session_id : Nat) : Database :=
  { db with messages := db.messages.filter (fun m => m.session_id != session_id) }

end messageOps

/-! ## Session mirror (`debate-manager.js`) -/

/-- An entry of a mirror's `participants` array.  `createSession` and
`addParticipant` build it as `{ id, ...personality }`, which carries
`description` and `traits`; `getSession` takes it from a row of table
`participants`, which carries `session_id` and `is_active`. -/
structure Participant where
  id : Nat
  name : String
  personality : String
  specialty : String
  description : Option String
  traits : Option (List String)
  session_id : Option Nat
  is_active : Option Bool
deriving DecidableEq, Repr

/-- The object `{ id, ...personality }`. -/
def Participant.ofPersonality (id : Nat) (p : Personality) : Participant :=
  { id := id, name := p.name, personality := p.personality, specialty := p.specialty,
    description := some p.description, traits := some p.traits,
    session_id := none, is_active := none }

/-- A row of table `participants` as a JavaScript object. -/
def Participant.ofRow (r : ParticipantRow) : Participant :=
  { id := r.id, name := r.name, personality := r.personality, specialty := r.specialty,
    description := none, traits := none,
    session_id := some r.session_id, is_active := some r.is_active }

/-- The value of `currentSpeakerIndex`: a JavaScript number, which here is a
natural number or `NaN`. -/
inductive SpeakerIndex where
  | num (n : Nat)
  | nan
deriving DecidableEq, Repr

namespace SpeakerIndex

/-- The expression `a % b` on array lengths: `NaN` when `b` is zero. -/
def ofMod (a b : Nat) : SpeakerIndex :=
  if b = 0 then nan else num (a % b)

/-- The expression `(i + 1) % len`. -/
def advance (i : SpeakerIndex) (len : Nat) : SpeakerIndex :=
  match i with
  | num n => ofMod (n + 1) len
  | nan => nan

/-- The test `i >= len`, false for `NaN`. -/
def ge (i : SpeakerIndex) (len : Nat) : Bool :=
  match i with
  | num n => decide (len ≤ n)
  | nan => false

/-- The element `xs[i]`, `undefined` being `none`. -/
def lookup {α : Type} (xs : List α) (i : SpeakerIndex) : Option α :=
  match i with
  | num n => xs.get? n
  | nan => none

end SpeakerIndex

/-- The session state object held in `activeSessions`. -/
structure SessionState where
  id : Nat
  problem : String
  difficulty : String
  participants : List Participant
  currentSpeakerIndex : SpeakerIndex
  isPaused : Bool
  isComplete : Bool
  roundCount : Nat
  maxRounds : Int
  debateHistory : List Message
  created_at : Option Nat
deriving DecidableEq, Repr

/-- The `Map` of session id to session state, in insertion order. -/
abbrev SessionMap := List (Nat × SessionState)

namespace SessionMap

/-- The call `map.get(key)`, `undefined` being `none`. -/
def get (m : SessionMap) (key : Nat) : Option SessionState :=
  (m.find? (fun e => e.1 == key)).map (fun e => e.2)

/-- The call `map.has(key)`. -/
def has (m : SessionMap) (key : Nat) : Bool :=
  (get m key).isSome

/-- The call `map.set(key, value)`: an existing entry keeps its place. -/
def set (m : SessionMap) (key : Nat) (value : SessionState) : SessionMap :=
  if has m key then m.map (fun e => if e.1 = key then (key, value) else e)
  else m ++ [(key, value)]

/-- The call `map.delete(key)`. -/
def delete (m : SessionMap) (key : Nat) : SessionMap :=
  m.filter (fun e => e.1 != key)

end SessionMap

/-- The process state: the database and the `activeSessions` map of the one
`DebateManager` instance. -/
structure System where
  db : Database
  activeSessions : SessionMap
deriving DecidableEq, Repr

/-! ## Response generator (`ai-service.js`) -/

/-- What one call of `generateResponse` gets from outside: the outcome of the
`try` block around the HTTP request (`none` when anything in it throws, else the
trimmed reply) and the 53 random bits behind `Math.random()`. -/
structure GeneratorOracle where
  backendReply : Option String
  randomBits : Nat
deriving DecidableEq, Repr

/-- The `AIService` instance: its `apiKey` field. -/
structure AIService where
  apiKey : Option String
deriving DecidableEq, Repr

namespace AIService

/-- The `responses` table of `generateSimulatedResponse`. -/
def responses : List (String × List String) :=
  [ ("Professor Euclid",
      [ "From a geometric perspective, I believe we should approach this systematically with rigorous proof.",
        "Let me construct a formal argument using classical mathematical principles.",
        "The geometric intuition here suggests we need to establish clear axioms first." ]),
    ("Dr. Chaos",
      [ "Looking at this probabilistically, I see interesting patterns emerging.",
        "From a statistical viewpoint, we should consider the distribution of possible outcomes.",
        "The randomness in this problem reveals some fascinating underlying structures." ]),
    ("Ms. Approximation",
      [ "For practical purposes, let's start with a reasonable estimation.",
        "I'd suggest we approximate this first, then refine our approach.",
        "In real-world terms, we can get a good approximation quickly." ]),
    ("The Trickster",
      [ "Hmm, but what if we consider the opposite approach?",
        "I'm going to challenge the conventional wisdom here...",
        "Wait, I think everyone is missing something obvious!" ]),
    ("The Philosopher",
      [ "This raises deeper questions about the nature of mathematical truth.",
        "Let's contemplate the fundamental assumptions underlying this problem.",
        "What does this tell us about the relationship between form and content?" ]),
    ("Dr. Algorithm",
      [ "Let me break this down into clear computational steps.",
        "We can solve this efficiently using a systematic algorithm.",
        "The computational complexity here is quite interesting." ]),
    ("Professor Infinity",
      [ "In the abstract realm, this problem takes on infinite dimensions.",
        "Let's consider the theoretical implications of this mathematical structure.",
        "The infinite possibilities here are quite fascinating." ]) ]

/-- The number of halvings that bring `n` below `2^53`, counted up to `fuel`: by
how many bits `n` is longer than the 53 bits of the significand of a double. -/
def excessBits (n : Nat) : Nat → Nat
  | 0 => 0
  | fuel + 1 => if n < 2 ^ 53 then 0 else excessBits (n / 2) fuel + 1

/-- The double nearest to `n / 2^53`, as a numerator over `2^53`: the leading 53
bits of `n` are kept and the rest is rounded to nearest, a tie going to the even
significand, which is how the product of two doubles is rounded. `fuel` bounds
the number of bits of `n` beyond 53. -/
def roundToDouble (n fuel : Nat) : Nat :=
  let shift := excessBits n fuel
  let q := n / 2 ^ shift
  let r := n % 2 ^ shift
  if 2 ^ shift < 2 * r ∨ (2 * r = 2 ^ shift ∧ q % 2 = 1) then (q + 1) * 2 ^ shift
  else q * 2 ^ shift

/-- The expression `Math.floor(Math.random() * len)`, the random number being the
double `randomBits / 2^53` with `randomBits` taken below `2^53`, and the product
the double nearest to the exact product. -/
def randomIndex (randomBits len : Nat) : Nat :=
  roundToDouble ((randomBits % 2 ^ 53) * len) len / 2 ^ 53

/-- The names of the properties that the object `responses`, like every object
written as a literal, inherits from `Object.prototype`. For such a name
`responses[name]` is a function (for `__proto__` the prototype object): it is
truthy, so `||` does not go on to Professor Euclid, and what it holds under a
numeric index is `undefined`. -/
def inheritedKeys : List String :=
  [ "constructor", "__defineGetter__", "__defineSetter__", "hasOwnProperty",
    "__lookupGetter__", "__lookupSetter__", "isPrototypeOf", "propertyIsEnumerable",
    "toString", "valueOf", "__proto__", "toLocaleString" ]

/-- The method `generateSimulatedResponse(personality, problem, debateHistory)`;
`undefined` is `none`. -/
def generateSimulatedResponse (randomBits : Nat) (personality : Participant) : Option String :=
  match responses.lookup personality.name with
  | some texts => texts.get? (randomIndex randomBits texts.length)
  | none =>
    if personality.name ∈ inheritedKeys then none
    else
      let personalityResponses := (responses.lookup "Professor Euclid").getD []
      personalityResponses.get? (randomIndex randomBits personalityResponses.length)

/-- The method `generateResponse(personality, problem, debateHistory, difficulty)`:
without an API key, or when the request fails, the simulated response. -/
def generateResponse (ai : AIService) (o : GeneratorOracle) (personality : Participant)
    (_problem : String) (_debateHistory : List Message) (_difficulty : String) :
    Option String :=
  if ai.apiKey.getD "" = "" then
    generateSimulatedResponse o.randomBits personality
  else
    match o.backendReply with
    | some text => some text
    | none => generateSimulatedResponse o.randomBits personality

end AIService

/-! ## Orchestrator (`debate-manager.js`) -/

namespace DebateManager

/-- The loop `for (const personality of personalities)` of `createSession`:
one row per personality, and one entry pushed to `participants`. -/
def createParticipants (db : Database) (sessionId : Nat) :
    List Personality → List Participant → Except Failure (Database × List Participant)
  | [], participants => .ok (db, participants)
  | personality :: rest, participants =>
    match participantOps.create db sessionId personality.name personality.personality
        personality.specialty with
    | .error e => .error e
    | .ok (db1, rowid) =>
      createParticipants db1 sessionId rest
        (participants ++ [Participant.ofPersonality rowid personality])

/-- The object `createSession` returns. -/
structure CreateSessionResult where
  sessionId : Nat
  participants : List Participant
  sessionState : SessionState
deriving DecidableEq, Repr

/-- The method `createSession(problem, difficulty, memberCount)`; `shuffled` is
the outcome of the shuffle in `getRandomPersonalities`, `now` the clock. -/
def createSession (sys : System) (shuffled : List Personality) (problem difficulty : String)
    (memberCount : Int) (now : Nat) : Except Failure (System × CreateSessionResult) :=
  let created := sessionOps.create sys.db problem difficulty now
  let sessionId := created.2
  let personalities := getRandomPersonalities shuffled memberCount
  match createParticipants created.1 sessionId personalities [] with
  | .error e => .error e
  | .ok (db, participants) =>
    let sessionState : SessionState :=
      { id := sessionId
        problem := problem
        difficulty := difficulty
        participants := participants
        currentSpeakerIndex := .num 0
        isPaused := false
        isComplete := false
        roundCount := 0
        maxRounds := memberCount * 2
        debateHistory := []
        created_at := none }
    .ok ({ db := db, activeSessions := sys.activeSessions.set sessionId sessionState },
         { sessionId := sessionId, participants := participants, sessionState := sessionState })

/-- The state object `getSession` rebuilds from the store. -/
def rehydrate (db : Database) (sessionId : Nat) (session : SessionRow) : SessionState :=
  let participants := (participantOps.getBySessionId db sessionId).map Participant.ofRow
  let messages := messageOps.getBySessionId db sessionId
  { id := sessionId
    problem := session.problem
    difficulty := session.difficulty
    participants := participants
    currentSpeakerIndex := SpeakerIndex.ofMod messages.length participants.length
    isPaused := false
    isComplete := decide (participants.length * 2 ≤ messages.length)
    roundCount := messages.length
    maxRounds := ((participants.length * 2 : Nat) : Int)
    debateHistory := messages
    created_at := some session.created_at }

/-- The method `getSession(sessionId)`. -/
def getSession (sys : System) (sessionId : Nat) : Except Failure (System × SessionState) :=
  match sys.activeSessions.get sessionId with
  | some session => .ok (sys, session)
  | none =>
    match sessionOps.getById sys.db sessionId with
    | none => .error .sessionNotFound
    | some session =>
      let sessionState := rehydrate sys.db sessionId session
      .ok ({ sys with activeSessions := sys.activeSessions.set sessionId sessionState },
           sessionState)

/-- What a call of `generateNextResponse` did: the state after it, the value it
returned (`null` being `none`) and how often it called the response generator. -/
structure TurnResult where
  system : System
  message : Option Message
  generatorCalls : Nat
deriving DecidableEq, Repr

/-- The method `generateNextResponse(sessionId)`; `o` is what the generator gets
from outside during the call, `now` the clock. When the generator returns
`undefined`, `messageOps.create.run` throws and nothing is written. -/
def generateNextResponse (ai : AIService) (o : GeneratorOracle) (now : Nat) (sys : System)
    (sessionId : Nat) : Except Failure TurnResult :=
  match sys.activeSessions.get sessionId with
  | none => .ok { system := sys, message := none, generatorCalls := 0 }
  | some session =>
    if session.isComplete || session.isPaused then
      .ok { system := sys, message := none, generatorCalls := 0 }
    else
      match SpeakerIndex.lookup session.participants session.currentSpeakerIndex with
      | none => .ok { system := sys, message := none, generatorCalls := 0 }
      | some currentParticipant =>
        match AIService.generateResponse ai o currentParticipant session.problem
            session.debateHistory session.difficulty with
        | none => .error .undefinedContent
        | some response =>
        match messageOps.create sys.db sessionId currentParticipant.id response now with
        | .error e => .error e
        | .ok (db, rowid) =>
          let message : Message :=
            { id := rowid
              session_id := sessionId
              participant_id := currentParticipant.id
              content := response
              name := currentParticipant.name
              personality := currentParticipant.personality
              specialty := currentParticipant.specialty
              created_at := now }
          let roundCount := session.roundCount + 1
          let updated : SessionState :=
            { session with
                debateHistory := session.debateHistory ++ [message]
                roundCount := roundCount
                currentSpeakerIndex :=
                  session.currentSpeakerIndex.advance session.participants.length
                isComplete :=
                  if session.maxRounds ≤ (roundCount : Int) then true else session.isComplete }
          .ok { system := { db := db, activeSessions := sys.activeSessions.set sessionId updated }
                message := some message
                generatorCalls := 1 }

/-- The method `pauseSession(sessionId)`. -/
def pauseSession (sys : System) (sessionId : Nat) : System :=
  match sys.activeSessions.get sessionId with
  | some session =>
    { sys with activeSessions := sys.activeSessions.set sessionId { session with isPaused := true } }
  | none => sys

/-- The method `resumeSession(sessionId)`. -/
def resumeSession (sys : System) (sessionId : Nat) : System :=
  match sys.activeSessions.get sessionId with
  | some session =>
    { sys with activeSessions := sys.activeSessions.set sessionId { session with isPaused := false } }
  | none => sys

/-- The update `kickParticipant` makes to a resident session state. -/
def kickFromState (session : SessionState) (participantId : Nat) : SessionState :=
  let participants := session.participants.filter (fun p => p.id != participantId)
  { session with
      participants := participants
      currentSpeakerIndex :=
        if session.currentSpeakerIndex.ge participants.length then .num 0
        else session.currentSpeakerIndex
      maxRounds := ((participants.length * 2 : Nat) : Int) }

/-- The method `kickParticipant(sessionId, participantId)`. -/
def kickParticipant (sys : System) (sessionId participantId : Nat) : System × Bool :=
  let db := participantOps.deactivate sys.db participantId
  match sys.activeSessions.get sessionId with
  | some session =>
    ({ db := db
       activeSessions := sys.activeSessions.set sessionId (kickFromState session participantId) },
     true)
  | none => ({ sys with db := db }, true)

/-- The update `addParticipant` makes to a resident session state. -/
def addToState (session : SessionState) (newParticipant : Participant) : SessionState :=
  let participants := session.participants ++ [newParticipant]
  { session with
      participants := participants
      maxRounds := ((participants.length * 2 : Nat) : Int) }

/-- The method `addParticipant(sessionId, personality)`. -/
def addParticipant (sys : System) (sessionId : Nat) (personality : Personality) :
    Except Failure (System × Participant) :=
  match participantOps.create sys.db sessionId personality.name personality.personality
      personality.specialty with
  | .error e => .error e
  | .ok (db, rowid) =>
    let newParticipant := Participant.ofPersonality rowid personality
    match sys.activeSessions.get sessionId with
    | some session =>
      .ok ({ db := db
             activeSessions := sys.activeSessions.set sessionId (addToState session newParticipant) },
           newParticipant)
    | none => .ok ({ sys with db := db }, newParticipant)

/-- The method `forceVote(sessionId)`. -/
def forceVote (sys : System) (sessionId : Nat) : System :=
  match sys.activeSessions.get sessionId with
  | some session =>
    { sys with activeSessions := sys.activeSessions.set sessionId { session with isComplete := true } }
  | none => sys

/-- The method `deleteSession(sessionId)`. -/
def deleteSession (sys : System) (sessionId : Nat) : System × Bool :=
  let activeSessions := sys.activeSessions.delete sessionId
  let db1 := messageOps.deleteBySessionId sys.db sessionId
  let db2 := participantOps.deleteBySessionId db1 sessionId
  let db3 := sessionOps.delete db2 sessionId
  ({ db := db3, activeSessions := activeSessions }, true)

end DebateManager

/-! ## Runs of the process -/

/-- One call of a method of the orchestrator, with everything the call takes from
its caller and from outside. -/
inductive Action where
  | createSession (shuffled : List Personality) (problem difficulty : String)
      (memberCount : Int) (now : Nat)
  | getSession (sessionId : Nat)
  | generateNextResponse (o : GeneratorOracle) (now : Nat) (sessionId : Nat)
  | pauseSession (sessionId : Nat)
  | resumeSession (sessionId : Nat)
  | kickParticipant (sessionId participantId : Nat)
  | addParticipant (sessionId : Nat) (personality : Personality)
  | forceVote (sessionId : Nat)
  | deleteSession (sessionId : Nat)
deriving DecidableEq, Repr

/-- The state after a call; a call that throws leaves the state as it was. -/
def Action.run (ai : AIService) (a : Action) (sys : System) : System :=
  match a with
  | .createSession shuffled problem difficulty memberCount now =>
    match DebateManager.createSession sys shuffled problem difficulty memberCount now with
    | .ok r => r.1
    | .error _ => sys
  | .getSession sessionId =>
    match DebateManager.getSession sys sessionId with
    | .ok r => r.1
    | .error _ => sys
  | .generateNextResponse o now sessionId =>
    match DebateManager.generateNextResponse ai o now sys sessionId with
    | .ok r => r.system
    | .error _ => sys
  | .pauseSession sessionId => DebateManager.pauseSession sys sessionId
  | .resumeSession sessionId => DebateManager.resumeSession sys sessionId
  | .kickParticipant sessionId participantId =>
    (DebateManager.kickParticipant sys sessionId participantId).1
  | .addParticipant sessionId personality =>
    match DebateManager.addParticipant sys sessionId personality with
    | .ok r => r.1
    | .error _ => sys
  | .forceVote sessionId => DebateManager.forceVote sys sessionId
  | .deleteSession sessionId => (DebateManager.deleteSession sys sessionId).1

/-- The calls that neither edit a roster nor touch the map's keys nor force
completion: `generateNextResponse`, `pauseSession` and `resumeSession`. -/
def Action.isTurnOrPause : Action → Bool
  | .generateNextResponse _ _ _ => true
  | .pauseSession _ => true
  | .resumeSession _ => true
  | _ => false

/-- The calls that keep every resident session resident: all but `createSession`
and `deleteSession`. -/
def Action.keepsSessions : Action → Bool
  | .createSession _ _ _ _ _ => false
  | .deleteSession _ => false
  | _ => true

/-- The calls on session `k` that produce a turn or edit the roster:
`generateNextResponse`, `addParticipant` and `kickParticipant` with session id `k`. -/
def Action.isTurnOrEditOf (k : Nat) : Action → Bool
  | .generateNextResponse _ _ sessionId => sessionId == k
  | .addParticipant sessionId _ => sessionId == k
  | .kickParticipant sessionId _ => sessionId == k
  | _ => false

/-- The calls of `generateNextResponse` with session id `k`. -/
def Action.isTurnOf (k : Nat) : Action → Bool
  | .generateNextResponse _ _ sessionId => sessionId == k
  | _ => false

/-- The state after a sequence of calls, first call first. -/
def runAll (ai : AIService) (actions : List Action) (sys : System) : System :=
  actions.foldl (fun s a => a.run ai s) sys

/-- The database `initializeDatabase` creates in a fresh file. -/
def Database.empty : Database :=
  { sessions := [], participants := [], messages := [],
    seqSessions := 0, seqParticipants := 0, seqMessages := 0 }

/-- The states the process can be in: it first starts on a fresh database file
with no session in memory, any method can be called with any arguments, and the
process can stop and start again, which keeps the database and loses the map.
This is wider than what `server.js` asks of the orchestrator, which `Served`
describes. -/
inductive Reachable (ai : AIService) : System → Prop where
  | boot : Reachable ai { db := Database.empty, activeSessions := [] }
  | restart {sys : System} : Reachable ai sys → Reachable ai { db := sys.db, activeSessions := [] }
  | step {sys : System} (a : Action) : Reachable ai sys → Reachable ai (a.run ai sys)

/-- The turn-pointer invariant of a session state: a pointer that is a number is
an index into a non-empty roster and is 0 on an empty one. -/
def PointerValid (s : SessionState) : Prop :=
  match s.currentSpeakerIndex with
  | .num i => if s.participants = [] then i = 0 else i < s.participants.length
  | .nan => False

instance (s : SessionState) : Decidable (PointerValid s) := by
  unfold PointerValid
  cases s.currentSpeakerIndex <;> infer_instance

/-- The weaker pointer condition that also holds after a rehydration from a
store with no active participant: the pointer is valid, or it is `NaN` on a
session that is complete. -/
def PointerSafe (s : SessionState) : Prop :=
  PointerValid s ∨ (s.currentSpeakerIndex = .nan ∧ s.isComplete = true)

/-- The rowid the next `sessionOps.create` returns. -/
def freshSessionId (db : Database) : Nat :=
  nextRowid db.seqSessions (db.sessions.map (fun r => r.id))

/-- The rowid the next `participantOps.create` returns. -/
def freshParticipantId (db : Database) : Nat :=
  nextRowid db.seqParticipants (db.participants.map (fun r => r.id))

/-- The rows that the loop of `createSession` inserts for the personalities `ps`
when the first of them gets rowid `base`. -/
def newRows (sid base : Nat) (ps : List Personality) : List ParticipantRow :=
  List.zipWith (fun i (p : Personality) =>
    { id := i, session_id := sid, name := p.name, personality := p.personality,
      specialty := p.specialty, is_active := true }) (List.range' base ps.length) ps

/-- The roster that the loop of `createSession` builds for the personalities
`ps` when the first of them gets rowid `base`. -/
def newRoster (base : Nat) (ps : List Personality) : List Participant :=
  List.zipWith Participant.ofPersonality (List.range' base ps.length) ps

/-- The state object that `createSession` registers. -/
def initialState (sessionId : Nat) (problem difficulty : String) (participants : List Participant)
    (memberCount : Int) : SessionState :=
  { id := sessionId
    problem := problem
    difficulty := difficulty
    participants := participants
    currentSpeakerIndex := .num 0
    isPaused := false
    isComplete := false
    roundCount := 0
    maxRounds := memberCount * 2
    debateHistory := []
    created_at := none }

/-- The message object that `generateNextResponse` builds for the speaker
`currentParticipant`. -/
def turnMessage (rowid sessionId : Nat) (currentParticipant : Participant) (response : String)
    (now : Nat) : Message :=
  { id := rowid
    session_id := sessionId
    participant_id := currentParticipant.id
    content := response
    name := currentParticipant.name
    personality := currentParticipant.personality
    specialty := currentParticipant.specialty
    created_at := now }

/-- The session state after `generateNextResponse` has recorded `message`. -/
def afterTurn (session : SessionState) (message : Message) : SessionState :=
  { session with
      debateHistory := session.debateHistory ++ [message]
      roundCount := session.roundCount + 1
      currentSpeakerIndex := session.currentSpeakerIndex.advance session.participants.length
      isComplete :=
        if session.maxRounds ≤ ((session.roundCount + 1 : Nat) : Int) then true
        else session.isComplete }

/-- Integrity of the tables: rowids of `participants` are distinct, and the
author of every message is a participant row of the message's own session. -/
structure Database.Coherent (db : Database) : Prop where
  participant_ids : (db.participants.map (fun p => p.id)).Nodup
  authors : ∀ m ∈ db.messages,
    ∃ p ∈ db.participants, p.id = m.participant_id ∧ p.session_id = m.session_id

/-- How a resident session state under key `k` relates to the tables: the
session's record exists, every roster entry is a participant row of session `k`,
roster entries have distinct ids, and the pointer is safe. -/
structure MirrorLinked (db : Database) (k : Nat) (s : SessionState) : Prop where
  session_row : ∃ r ∈ db.sessions, r.id = k
  roster_rows : ∀ q ∈ s.participants, ∃ p ∈ db.participants, p.id = q.id ∧ p.session_id = k
  roster_ids : (s.participants.map (fun q => q.id)).Nodup
  pointer : PointerSafe s

/-- The invariant of the process state. -/
def System.Sound (sys : System) : Prop :=
  sys.db.Coherent ∧ ∀ k s, sys.activeSessions.get k = some s → MirrorLinked sys.db k s


/-- The database after `messageOps.create` has inserted a message of participant
`pid` in session `k`. -/
def appendMessage (db : Database) (k pid : Nat) (text : String) (now : Nat) : Database :=
  { db with
      messages := db.messages ++
        [{ id := nextRowid db.seqMessages (db.messages.map (fun r => r.id)),
           session_id := k, participant_id := pid, content := text, created_at := now }]
      seqMessages := nextRowid db.seqMessages (db.messages.map (fun r => r.id)) }

/-- The database after `participantOps.create` has inserted a participant of
session `k`. -/
def appendParticipant (db : Database) (k : Nat) (personality : Personality) : Database :=
  { db with
      participants := db.participants ++
        [{ id := freshParticipantId db, session_id := k,
           name := personality.name, personality := personality.personality,
           specialty := personality.specialty, is_active := true }]
      seqParticipants := freshParticipantId db }

/-- The foreign keys on `session_id`: every participant row and every message
row belongs to a session that has a record. -/
structure Database.ForeignKeys (db : Database) : Prop where
  participants : ∀ p ∈ db.participants, ∃ r ∈ db.sessions, r.id = p.session_id
  messages : ∀ m ∈ db.messages, ∃ r ∈ db.sessions, r.id = m.session_id

/-- A resident session state under key `k` that agrees with the store: its
roster is the active participant rows of the session, in their order, its round
counter is the number of message rows of the session, and its ceiling is twice
the length of its roster. -/
structure Synced (sys : System) (k : Nat) (s : SessionState) : Prop where
  resident : sys.activeSessions.get k = some s
  roster : s.participants.map (fun q => q.id) =
    (participantOps.getBySessionId sys.db k).map (fun r => r.id)
  counter : s.roundCount = messageOps.getCountBySessionId sys.db k
  ceiling : s.maxRounds = 2 * (s.participants.length : Int)

/-- A run of `generateNextResponse` calls on one session, one call per entry of
`calls`; returns the state after the last call and what each call returned. -/
def generateTurns (ai : AIService) (sessionId : Nat) :
    List (GeneratorOracle × Nat) → System → Except Failure (System × List (Option Message))
  | [], sys => .ok (sys, [])
  | call :: rest, sys =>
    match DebateManager.generateNextResponse ai call.1 call.2 sys sessionId with
    | .error e => .error e
    | .ok r =>
      match generateTurns ai sessionId rest r.system with
      | .error e => .error e
      | .ok out => .ok (out.1, r.message :: out.2)

/-- A session whose roster and pointer rotate: `c` turns in, `k` is resident with roster `R`
of length `n`, pointer `c mod n`, counter `c`, ceiling `2n`, not paused, complete exactly
from `2n` turns on, and the store holds its record and a row for each roster entry. -/
structure Rotating (sys : System) (k : Nat) (R : List Participant) (n c : Nat)
    (s : SessionState) : Prop where
  resident : sys.activeSessions.get k = some s
  roster : s.participants = R
  pointer : s.currentSpeakerIndex = .num (c % n)
  counter : s.roundCount = c
  ceiling : s.maxRounds = 2 * (n : Int)
  running : s.isPaused = false
  complete : s.isComplete = decide (2 * n ≤ c)
  session_row : ∃ r ∈ sys.db.sessions, r.id = k
  roster_rows : ∀ q ∈ R, ∃ p ∈ sys.db.participants, p.id = q.id

/-- The calls that hand the orchestrator entries of the catalog only. `createSession` draws
its roster with `getRandomPersonalities`, which sorts a copy of the catalog, so the sorted
array is a rearrangement of the catalog; and the only caller of `addParticipant`, the route
`/api/session/:id/add-participant` of `server.js`, looks the requested name up in the catalog
and answers 400 without calling the orchestrator when it is not there. -/
def Action.fromCatalog : Action → Prop
  | .createSession shuffled _ _ _ _ => shuffled.Perm personalities
  | .addParticipant _ personality => personality ∈ personalities
  | _ => True

/-- The states the process can be in when the orchestrator is driven by `server.js`: as
`Reachable`, with every call taking its personalities from the catalog. -/
inductive Served (ai : AIService) : System → Prop where
  | boot : Served ai { db := Database.empty, activeSessions := [] }
  | restart {sys : System} : Served ai sys → Served ai { db := sys.db, activeSessions := [] }
  | step {sys : System} (a : Action) : a.fromCatalog → Served ai sys → Served ai (a.run ai sys)

/-- Every participant name in the store and in the resident rosters is the name of an entry
of the catalog. -/
structure CatalogNames (sys : System) : Prop where
  rows : ∀ r ∈ sys.db.participants, ∃ p ∈ personalities, p.name = r.name
  rosters : ∀ k s, sys.activeSessions.get k = some s →
    ∀ q ∈ s.participants, ∃ p ∈ personalities, p.name = q.name

/-! ## Concrete runs -/

/-- A service without API key. -/
def demoService : AIService := { apiKey := none }

/-- A generator call whose backend is down. -/
def demoOracle : GeneratorOracle := { backendReply := none, randomBits := 0 }

/-- The catalog entry "Professor Euclid". -/
def professorEuclid : Personality := personalities.headD default

/-- Six generator calls. -/
def sixCalls : List (GeneratorOracle × Nat) := List.replicate 6 (demoOracle, 0)

/-- The process at its first start. -/
def bootSystem : System := { db := Database.empty, activeSessions := [] }

/-- A session of three is created, all three participants are kicked, and the
process is started again. -/
def emptiedSystem : System :=
  { db := (runAll demoService
      [ .createSession personalities "Is 0.999...=1?" "medium" 3 0,
        .kickParticipant 1 1, .kickParticipant 1 2, .kickParticipant 1 3 ] bootSystem).db
    activeSessions := [] }

/-- A session of four is created, five turns are produced and the session is
paused. -/
def fourThenFiveTurnsThenPause : List Action :=
  [ .createSession personalities "Is 0.999...=1?" "medium" 4 0,
    .generateNextResponse demoOracle 1 1, .generateNextResponse demoOracle 2 1,
    .generateNextResponse demoOracle 3 1, .generateNextResponse demoOracle 4 1,
    .generateNextResponse demoOracle 5 1, .pauseSession 1 ]

/-- The process after `fourThenFiveTurnsThenPause` and a restart. -/
def pausedThenRestarted : System :=
  { db := (runAll demoService fourThenFiveTurnsThenPause bootSystem).db
    activeSessions := [] }

/-- A session of three is created, two turns are produced, and the participants
with ids 1 and 2 are kicked. -/
def twoTurnsThenTwoKicks : List Action :=
  [ .createSession personalities "Is 0.999...=1?" "medium" 3 0,
    .generateNextResponse demoOracle 1 1, .generateNextResponse demoOracle 2 1,
    .kickParticipant 1 1, .kickParticipant 1 2 ]

/-- A session of three is created and six turns are produced. -/
def sixTurns : List Action :=
  [ .createSession personalities "Is 0.999...=1?" "medium" 3 0,
    .generateNextResponse demoOracle 1 1, .generateNextResponse demoOracle 2 1,
    .generateNextResponse demoOracle 3 1, .generateNextResponse demoOracle 4 1,
    .generateNextResponse demoOracle 5 1, .generateNextResponse demoOracle 6 1 ]

/-- A session of three is created, six turns are produced, and a fourth
participant is added. -/
def sixTurnsThenAdd : List Action :=
  sixTurns ++ [ .addParticipant 1 professorEuclid ]

/-- A session of three is created and two turns are produced. -/
def twoTurns : List Action :=
  [ .createSession personalities "Is 0.999...=1?" "medium" 3 0,
    .generateNextResponse demoOracle 1 1, .generateNextResponse demoOracle 2 1 ]

/-- A turn, a pause, a resume and a turn on session 1. -/
def turnPauseResumeTurn : List Action :=
  [ .generateNextResponse demoOracle 1 1, .pauseSession 1, .resumeSession 1,
    .generateNextResponse demoOracle 2 1 ]

/-- The session state resident under key `k`, for use where one is resident. -/
def stateOf (sys : System) (k : Nat) : SessionState :=
  (sys.activeSessions.get k).getD (initialState 0 "" "" [] 0)

/-- Two sessions of three are created and one turn is produced in each. -/
def twoSessions : List Action :=
  [ .createSession personalities "Is 0.999...=1?" "medium" 3 0,
    .generateNextResponse demoOracle 1 1,
    .createSession personalities "Is every bounded sequence convergent?" "hard" 3 2,
    .generateNextResponse demoOracle 3 2 ]

/-- A database this program cannot have written: the one message of session 2
names as its author the participant of session 1. -/
def foreignAuthorSystem : System :=
  { db :=
      { sessions :=
          [ { id := 1, problem := "a", difficulty := "easy", created_at := 0 },
            { id := 2, problem := "b", difficulty := "easy", created_at := 0 } ]
        participants :=
          [ { id := 1, session_id := 1, name := "Dr. Chaos",
              personality := "Intuitive and probabilistic",
              specialty := "Probability and statistics", is_active := true } ]
        messages :=
          [ { id := 1, session_id := 2, participant_id := 1, content := "c", created_at := 0 } ]
        seqSessions := 2
        seqParticipants := 1
        seqMessages := 1 }
    activeSessions := [] }

/-- The map after `twoTurns` next to an empty database: session 1 is resident
and the store has no record of it. -/
def residentWithoutRecord : System :=
  { db := Database.empty
    activeSessions := (runAll demoService twoTurns bootSystem).activeSessions }

/-- A profile outside the catalog whose name is the name of a property every object
inherits; only a direct caller of the orchestrator can pass it. -/
def constructorProfile : Personality :=
  { name := "constructor"
    personality := "Rigorous and methodical"
    specialty := "Geometry and formal proofs"
    description := "A profile that is not in the catalog."
    traits := [] }

/-- Calls of a direct caller of the orchestrator: a session of three is created,
the profile named "constructor" is added as fourth participant, and three turns
are produced, which brings the pointer to the fourth participant. -/
def inheritedNameRun : List Action :=
  [ .createSession personalities "Is 0.999...=1?" "medium" 3 0,
    .addParticipant 1 constructorProfile,
    .generateNextResponse demoOracle 1 1, .generateNextResponse demoOracle 2 1,
    .generateNextResponse demoOracle 3 1 ]

/-- A session of four is created and two turns are produced. -/
def fourTwoTurns : List Action :=
  [ .createSession personalities "Is 0.999...=1?" "medium" 4 0,
    .generateNextResponse demoOracle 1 1, .generateNextResponse demoOracle 2 1 ]

/-- A session of three is created, three turns are produced, which brings the
pointer back to 0, and a fourth participant is added. -/
def threeTurnsThenAdd : List Action :=
  [ .createSession personalities "Is 0.999...=1?" "medium" 3 0,
    .generateNextResponse demoOracle 1 1, .generateNextResponse demoOracle 2 1,
    .generateNextResponse demoOracle 3 1, .addParticipant 1 professorEuclid ]

/-- A session of three is created, four turns are produced, which brings the
pointer to 1, and the participant with id 3 is kicked. -/
def fourTurnsThenKick : List Action :=
  [ .createSession personalities "Is 0.999...=1?" "medium" 3 0,
    .generateNextResponse demoOracle 1 1, .generateNextResponse demoOracle 2 1,
    .generateNextResponse demoOracle 3 1, .generateNextResponse demoOracle 4 1,
    .kickParticipant 1 3 ]

/-- The process after the calls `actions` from its first start, stopped and
started again. -/
def restartedAfter (actions : List Action) : System :=
  { db := (runAll demoService actions bootSystem).db, activeSessions := [] }

/-- A turn, an add, a turn and a kick on session 1. -/
def turnAddTurnKick : List Action :=
  [ .generateNextResponse demoOracle 1 1, .addParticipant 1 professorEuclid,
    .generateNextResponse demoOracle 2 1, .kickParticipant 1 2 ]

open DebateManager

/-! ## The session map -/

theorem SessionMap.get_nil (k : Nat) : SessionMap.get [] k = none := rfl

theorem SessionMap.get_cons (e : Nat × SessionState) (m : SessionMap) (k : Nat) :
    SessionMap.get (e :: m) k = if e.1 = k then some e.2 else SessionMap.get m k := by
  unfold SessionMap.get
  rw [List.find?_cons]
  by_cases h : e.1 = k
  · have hb : (e.1 == k) = true := by simpa using h
    simp [hb, h]
  · have hb : (e.1 == k) = false := by simpa using h
    simp [hb, h]

theorem SessionMap.get_append_single (m : SessionMap) (k k2 : Nat) (v : SessionState) :
    SessionMap.get (m ++ [(k, v)]) k2 =
      match SessionMap.get m k2 with
      | some s => some s
      | none => if k = k2 then some v else none := by
  induction m with
  | nil => simp [SessionMap.get_cons, SessionMap.get_nil]
  | cons e m ih =>
    rw [List.cons_append, SessionMap.get_cons, SessionMap.get_cons, ih]
    by_cases h : e.1 = k2 <;> simp [h]

theorem SessionMap.get_map_replace (m : SessionMap) (k k2 : Nat) (v : SessionState) :
    SessionMap.get (List.map (fun e => if e.1 = k then (k, v) else e) m) k2 =
      if k2 = k then (SessionMap.get m k).map (fun _ => v) else SessionMap.get m k2 := by
  induction m with
  | nil => simp [SessionMap.get_nil]
  | cons e m ih =>
    rw [List.map_cons, SessionMap.get_cons, SessionMap.get_cons e m k2, SessionMap.get_cons e m k, ih]
    by_cases h1 : e.1 = k
    · by_cases h2 : k2 = k
      · subst h2; simp [h1]
      · have : ¬ e.1 = k2 := fun h => h2 (h ▸ h1 ▸ rfl)
        have h3 : ¬ k = k2 := fun h => h2 h.symm
        simp [h1, h2, this, h3]
    · by_cases h2 : k2 = k
      · subst h2; simp [h1]
      · simp [h1, h2]

theorem SessionMap.get_set_self (m : SessionMap) (k : Nat) (v : SessionState) :
    SessionMap.get (SessionMap.set m k v) k = some v := by
  unfold SessionMap.set SessionMap.has
  cases h : SessionMap.get m k with
  | none => simp [SessionMap.get_append_single, h]
  | some s => simp [SessionMap.get_map_replace, h]

theorem SessionMap.get_set_ne (m : SessionMap) (k k2 : Nat) (v : SessionState) (hne : k2 ≠ k) :
    SessionMap.get (SessionMap.set m k v) k2 = SessionMap.get m k2 := by
  unfold SessionMap.set SessionMap.has
  cases h : SessionMap.get m k with
  | none =>
    have : ¬ k = k2 := fun h => hne h.symm
    simp [SessionMap.get_append_single, this]
    cases SessionMap.get m k2 <;> rfl
  | some s => simp [SessionMap.get_map_replace, hne]

theorem SessionMap.get_set (m : SessionMap) (k k2 : Nat) (v : SessionState) :
    SessionMap.get (SessionMap.set m k v) k2 = if k2 = k then some v else SessionMap.get m k2 := by
  by_cases h : k2 = k
  · subst h; simp [SessionMap.get_set_self]
  · simp [h, SessionMap.get_set_ne m k k2 v h]

theorem SessionMap.get_delete (m : SessionMap) (k k2 : Nat) :
    SessionMap.get (SessionMap.delete m k) k2 = if k2 = k then none else SessionMap.get m k2 := by
  unfold SessionMap.delete
  induction m with
  | nil => simp [SessionMap.get_nil]
  | cons e m ih =>
    by_cases h1 : e.1 = k
    · have : (e.1 != k) = false := by simp [h1]
      rw [List.filter_cons_of_neg (by simp [h1]), ih, SessionMap.get_cons]
      by_cases h2 : k2 = k
      · simp [h2]
      · have : ¬ e.1 = k2 := fun h => h2 (h ▸ h1 ▸ rfl)
        simp [h2, this]
    · rw [List.filter_cons_of_pos (by simp [h1]), SessionMap.get_cons, ih, SessionMap.get_cons]
      by_cases h2 : k2 = k
      · subst h2; simp [h1]
      · simp [h2]


/-! ## The store -/

theorem le_foldr_max (ids : List Nat) (i : Nat) (h : i ∈ ids) : i ≤ ids.foldr max 0 := by
  induction ids with
  | nil => cases h
  | cons a t ih =>
    rw [List.foldr_cons]
    rcases List.mem_cons.mp h with h | h
    · subst h; exact le_max_left _ _
    · exact le_trans (ih h) (le_max_right _ _)

theorem lt_nextRowid (seq : Nat) (ids : List Nat) (i : Nat) (h : i ∈ ids) :
    i < nextRowid seq ids := by
  unfold nextRowid
  have := le_foldr_max ids i h
  omega

theorem foldr_max_append_single (ids : List Nat) (a : Nat) :
    (ids ++ [a]).foldr max 0 = max (ids.foldr max 0) a := by
  induction ids with
  | nil => simp
  | cons b t ih => simp [ih, max_assoc]

theorem nextRowid_succ (seq : Nat) (ids : List Nat) :
    nextRowid (nextRowid seq ids) (ids ++ [nextRowid seq ids]) = nextRowid seq ids + 1 := by
  have h : ids.foldr max 0 ≤ nextRowid seq ids := by unfold nextRowid; omega
  show max (nextRowid seq ids) ((ids ++ [nextRowid seq ids]).foldr max 0) + 1 = _
  rw [foldr_max_append_single]
  omega

/-- The row that `participantOps.create` inserts. -/
theorem participant_create_ok (db : Database) (sid : Nat) (n p s : String)
    (h : ∃ r ∈ db.sessions, r.id = sid) :
    participantOps.create db sid n p s =
      .ok ({ db with
              participants := db.participants ++
                [{ id := nextRowid db.seqParticipants (db.participants.map (fun r => r.id)),
                   session_id := sid, name := n, personality := p, specialty := s,
                   is_active := true }]
              seqParticipants := nextRowid db.seqParticipants (db.participants.map (fun r => r.id)) },
           nextRowid db.seqParticipants (db.participants.map (fun r => r.id))) := by
  unfold participantOps.create
  have : db.sessions.any (fun r => r.id == sid) = true := by
    obtain ⟨r, hr, hid⟩ := h
    exact List.any_eq_true.mpr ⟨r, hr, by simpa using hid⟩
  simp [this]

theorem participant_create_error (db : Database) (sid : Nat) (n p s : String)
    (h : ¬ ∃ r ∈ db.sessions, r.id = sid) :
    participantOps.create db sid n p s = .error .foreignKey := by
  unfold participantOps.create
  have : db.sessions.any (fun r => r.id == sid) = false := by
    rw [Bool.eq_false_iff]
    intro hc
    obtain ⟨r, hr, hid⟩ := List.any_eq_true.mp hc
    exact h ⟨r, hr, by simpa using hid⟩
  simp [this]

theorem message_create_ok (db : Database) (sid pid : Nat) (c : String) (now : Nat)
    (h1 : ∃ r ∈ db.sessions, r.id = sid) (h2 : ∃ p ∈ db.participants, p.id = pid) :
    messageOps.create db sid pid c now =
      .ok ({ db with
              messages := db.messages ++
                [{ id := nextRowid db.seqMessages (db.messages.map (fun r => r.id)),
                   session_id := sid, participant_id := pid, content := c, created_at := now }]
              seqMessages := nextRowid db.seqMessages (db.messages.map (fun r => r.id)) },
           nextRowid db.seqMessages (db.messages.map (fun r => r.id))) := by
  unfold messageOps.create
  have a1 : db.sessions.any (fun r => r.id == sid) = true := by
    obtain ⟨r, hr, hid⟩ := h1
    exact List.any_eq_true.mpr ⟨r, hr, by simpa using hid⟩
  have a2 : db.participants.any (fun p => p.id == pid) = true := by
    obtain ⟨r, hr, hid⟩ := h2
    exact List.any_eq_true.mpr ⟨r, hr, by simpa using hid⟩
  simp [a1, a2]

theorem createParticipants_ok (sid : Nat) (ps : List Personality) :
    ∀ (db : Database) (acc : List Participant), (∃ r ∈ db.sessions, r.id = sid) →
    ∃ db1, createParticipants db sid ps acc =
        .ok (db1, acc ++ newRoster (freshParticipantId db) ps)
      ∧ db1.sessions = db.sessions ∧ db1.messages = db.messages
      ∧ db1.participants = db.participants ++ newRows sid (freshParticipantId db) ps := by
  induction ps with
  | nil =>
    intro db acc _
    exact ⟨db, by simp [createParticipants, newRoster], rfl, rfl, by simp [newRows]⟩
  | cons p ps ih =>
    intro db acc h
    rw [createParticipants, participant_create_ok db sid _ _ _ h]
    simp only [freshParticipantId, newRoster]
    obtain ⟨db1, h1, h2, h3, h4⟩ := ih
      { db with
          participants := db.participants ++
            [{ id := nextRowid db.seqParticipants (db.participants.map (fun r => r.id)),
               session_id := sid, name := p.name, personality := p.personality,
               specialty := p.specialty, is_active := true }]
          seqParticipants := nextRowid db.seqParticipants (db.participants.map (fun r => r.id)) }
      (acc ++ [Participant.ofPersonality
        (nextRowid db.seqParticipants (db.participants.map (fun r => r.id))) p]) h
    simp only [freshParticipantId, newRoster, List.map_append, List.map_cons, List.map_nil,
      nextRowid_succ] at h1 h4
    refine ⟨db1, ?_, h2, h3, ?_⟩
    · rw [h1]
      simp only [List.length_cons, List.range'_succ, List.zipWith_cons_cons, List.append_assoc,
        List.singleton_append]
    · rw [h4]
      simp only [List.length_cons, List.range'_succ, List.zipWith_cons_cons, List.append_assoc,
        List.singleton_append, newRows]


/-! ## Effect of `createSession` -/

theorem newRoster_map_id (base : Nat) (ps : List Personality) :
    (newRoster base ps).map (fun q => q.id) = List.range' base ps.length := by
  induction ps generalizing base with
  | nil => simp [newRoster]
  | cons p ps ih =>
    have := ih (base + 1)
    simp only [newRoster, List.length_cons, List.range'_succ, List.zipWith_cons_cons,
      List.map_cons] at this ⊢
    rw [this]
    rfl

theorem newRows_map_id (sid base : Nat) (ps : List Personality) :
    (newRows sid base ps).map (fun q => q.id) = List.range' base ps.length := by
  induction ps generalizing base with
  | nil => simp [newRows]
  | cons p ps ih =>
    have := ih (base + 1)
    simp only [newRows, List.length_cons, List.range'_succ, List.zipWith_cons_cons,
      List.map_cons] at this ⊢
    rw [this]

theorem newRows_session_id (sid base : Nat) (ps : List Personality) :
    ∀ r ∈ newRows sid base ps, r.session_id = sid := by
  induction ps generalizing base with
  | nil => simp [newRows]
  | cons p ps ih =>
    intro r hr
    simp only [newRows, List.length_cons, List.range'_succ, List.zipWith_cons_cons,
      List.mem_cons] at hr
    rcases hr with hr | hr
    · rw [hr]
    · exact ih (base + 1) r hr

theorem newRoster_length (base : Nat) (ps : List Personality) :
    (newRoster base ps).length = ps.length := by
  simp [newRoster]

theorem newRoster_map_name (base : Nat) (ps : List Personality) :
    (newRoster base ps).map (fun q => q.name) = ps.map (fun p => p.name) := by
  induction ps generalizing base with
  | nil => simp [newRoster]
  | cons p ps ih =>
    have := ih (base + 1)
    simp only [newRoster, List.length_cons, List.range'_succ, List.zipWith_cons_cons,
      List.map_cons] at this ⊢
    rw [this]
    rfl

/-- Every roster entry made by `createSession` has a row of the new session. -/
theorem newRoster_rows (sid base : Nat) (ps : List Personality) :
    ∀ q ∈ newRoster base ps, ∃ r ∈ newRows sid base ps, r.id = q.id ∧ r.session_id = sid := by
  intro q hq
  have h1 : q.id ∈ (newRoster base ps).map (fun q => q.id) := List.mem_map_of_mem _ hq
  rw [newRoster_map_id, ← newRows_map_id sid] at h1
  obtain ⟨r, hr, hid⟩ := List.mem_map.mp h1
  exact ⟨r, hr, hid, newRows_session_id sid base ps r hr⟩

theorem createSession_ok (sys : System) (shuffled : List Personality) (problem difficulty : String)
    (memberCount : Int) (now : Nat) :
    ∃ db1, createSession sys shuffled problem difficulty memberCount now =
        .ok ({ db := db1,
               activeSessions := sys.activeSessions.set (freshSessionId sys.db)
                 (initialState (freshSessionId sys.db) problem difficulty
                   (newRoster (freshParticipantId sys.db)
                     (getRandomPersonalities shuffled memberCount)) memberCount) },
             { sessionId := freshSessionId sys.db,
               participants := newRoster (freshParticipantId sys.db)
                 (getRandomPersonalities shuffled memberCount),
               sessionState := initialState (freshSessionId sys.db) problem difficulty
                 (newRoster (freshParticipantId sys.db)
                   (getRandomPersonalities shuffled memberCount)) memberCount })
      ∧ db1.sessions = sys.db.sessions ++
          [{ id := freshSessionId sys.db, problem := problem, difficulty := difficulty,
             created_at := now }]
      ∧ db1.messages = sys.db.messages
      ∧ db1.participants = sys.db.participants ++
          newRows (freshSessionId sys.db) (freshParticipantId sys.db)
            (getRandomPersonalities shuffled memberCount) := by
  have hrow : ∃ r ∈ (sessionOps.create sys.db problem difficulty now).1.sessions,
      r.id = freshSessionId sys.db := by
    refine ⟨{ id := freshSessionId sys.db, problem := problem, difficulty := difficulty,
              created_at := now }, ?_, rfl⟩
    simp [sessionOps.create, freshSessionId]
  obtain ⟨db1, h1, h2, h3, h4⟩ := createParticipants_ok (freshSessionId sys.db)
    (getRandomPersonalities shuffled memberCount) _ [] hrow
  refine ⟨db1, ?_, ?_, ?_, ?_⟩
  · unfold createSession
    have hid : (sessionOps.create sys.db problem difficulty now).2 = freshSessionId sys.db := rfl
    simp only [hid, h1]
    rfl
  · rw [h2]; rfl
  · rw [h3]; rfl
  · rw [h4]; rfl


/-! ## The response generator -/

/-- A positive count of `excessBits` has found `n` at least that long. -/
theorem excessBits_le (fuel : Nat) :
    ∀ n, 0 < AIService.excessBits n fuel → 2 ^ (52 + AIService.excessBits n fuel) ≤ n := by
  induction fuel with
  | zero => intro n h; simp [AIService.excessBits] at h
  | succ fuel ih =>
    intro n h
    unfold AIService.excessBits at h ⊢
    by_cases hn : n < 2 ^ 53
    · rw [if_pos hn] at h
      exact absurd h (Nat.lt_irrefl 0)
    · rw [if_neg hn] at h ⊢
      by_cases h0 : AIService.excessBits (n / 2) fuel = 0
      · rw [h0]
        show 2 ^ 53 ≤ n
        omega
      · have h1 := ih (n / 2) (Nat.pos_of_ne_zero h0)
        have h2 : 2 ^ (52 + (AIService.excessBits (n / 2) fuel + 1)) =
            2 * 2 ^ (52 + AIService.excessBits (n / 2) fuel) := by
          rw [← Nat.add_assoc, Nat.pow_succ, Nat.mul_comm]
        rw [h2]
        omega

/-- Rounding moves `n` up by at most half a unit of the last kept bit, and not at all when
no bit is dropped. -/
theorem two_roundToDouble_le (n fuel : Nat) :
    2 * AIService.roundToDouble n fuel ≤ 2 * n + 2 ^ AIService.excessBits n fuel ∧
    (AIService.roundToDouble n fuel ≤ n ∨ 0 < AIService.excessBits n fuel) := by
  have hdm := Nat.div_add_mod n (2 ^ AIService.excessBits n fuel)
  have hpos : 0 < 2 ^ AIService.excessBits n fuel := Nat.two_pow_pos _
  have hr := Nat.mod_lt n hpos
  unfold AIService.roundToDouble
  simp only
  split
  · next hup =>
    refine ⟨?_, ?_⟩
    · have : 2 ^ AIService.excessBits n fuel ≤ 2 * (n % 2 ^ AIService.excessBits n fuel) := by
        rcases hup with h | ⟨h, -⟩
        · exact Nat.le_of_lt h
        · exact Nat.le_of_eq h.symm
      have hmul : (n / 2 ^ AIService.excessBits n fuel + 1) * 2 ^ AIService.excessBits n fuel =
          2 ^ AIService.excessBits n fuel * (n / 2 ^ AIService.excessBits n fuel) + 2 ^ AIService.excessBits n fuel := by ring
      rw [hmul]
      omega
    · right
      by_contra h0
      have h0 : AIService.excessBits n fuel = 0 := by omega
      rw [h0] at hup
      simp only [pow_zero, Nat.mod_one, Nat.mul_zero] at hup
      omega
  · refine ⟨?_, Or.inl ?_⟩
    · have hmul : n / 2 ^ AIService.excessBits n fuel * 2 ^ AIService.excessBits n fuel =
          2 ^ AIService.excessBits n fuel * (n / 2 ^ AIService.excessBits n fuel) := by ring
      rw [hmul]
      omega
    · have hmul : n / 2 ^ AIService.excessBits n fuel * 2 ^ AIService.excessBits n fuel =
          2 ^ AIService.excessBits n fuel * (n / 2 ^ AIService.excessBits n fuel) := by ring
      rw [hmul]
      omega

/-- The index `Math.floor(Math.random() * len)` is below `len`. -/
theorem randomIndex_lt (randomBits len : Nat) (h : 0 < len) :
    AIService.randomIndex randomBits len < len := by
  unfold AIService.randomIndex
  apply Nat.div_lt_of_lt_mul
  have hk : randomBits % 2 ^ 53 < 2 ^ 53 := Nat.mod_lt _ (by decide)
  generalize randomBits % 2 ^ 53 = k at hk
  have hn : k * len + len ≤ 2 ^ 53 * len := by
    have : (k + 1) * len ≤ 2 ^ 53 * len := Nat.mul_le_mul_right len hk
    calc k * len + len = (k + 1) * len := by ring
      _ ≤ 2 ^ 53 * len := this
  obtain ⟨h2, hcase⟩ := two_roundToDouble_le (k * len) len
  rcases hcase with hle | hpos
  · omega
  · have hlow := excessBits_le len (k * len) hpos
    have hpow : 2 ^ (52 + AIService.excessBits (k * len) len) = 2 ^ 52 * 2 ^ AIService.excessBits (k * len) len :=
      Nat.pow_add 2 52 _
    rw [hpow] at hlow
    generalize 2 ^ AIService.excessBits (k * len) len = e at *
    generalize AIService.roundToDouble (k * len) len = R at *
    generalize k * len = n at *
    omega

/-- The search of `AIService.excessBits` does not run out: with `n` below `2^(53 + fuel)` what is left
of `n` after the shift fits the 53 bits of a significand. -/
theorem excessBits_enough (fuel : Nat) :
    ∀ n, n < 2 ^ (53 + fuel) → n / 2 ^ AIService.excessBits n fuel < 2 ^ 53 := by
  induction fuel with
  | zero =>
    intro n h
    simpa [AIService.excessBits] using h
  | succ fuel ih =>
    intro n h
    unfold AIService.excessBits
    by_cases hn : n < 2 ^ 53
    · rw [if_pos hn]
      simpa using hn
    · rw [if_neg hn]
      have h2 : n / 2 < 2 ^ (53 + fuel) := by
        have : 2 ^ (53 + (fuel + 1)) = 2 * 2 ^ (53 + fuel) := by
          rw [← Nat.add_assoc, Nat.pow_succ, Nat.mul_comm]
        rw [this] at h
        omega
      have h3 := ih (n / 2) h2
      rw [Nat.pow_succ, Nat.mul_comm, ← Nat.div_div_eq_div_mul]
      exact h3

/-- The roster length is fuel enough for the product in `AIService.randomIndex`. -/
theorem randomIndex_fuel (randomBits len : Nat) :
    (randomBits % 2 ^ 53) * len < 2 ^ (53 + len) := by
  have hk : randomBits % 2 ^ 53 < 2 ^ 53 := Nat.mod_lt _ (by decide)
  have hl : len < 2 ^ len := Nat.lt_two_pow len
  rw [Nat.pow_add]
  exact Nat.mul_lt_mul_of_lt_of_le hk (Nat.le_of_lt hl) (Nat.two_pow_pos _)

/-- At the random number `6004799503160661 / 2^53` and three texts the exact product is
`2 - 2^-53`, which as a double is 2: the index is 2. -/
theorem randomIndex_rounds_up : AIService.randomIndex 6004799503160661 3 = 2 := by decide

theorem lookup_mem_of_eq_some (name : String) (texts : List String) :
    ∀ (table : List (String × List String)), table.lookup name = some texts →
      (name, texts) ∈ table := by
  intro table
  induction table with
  | nil => intro h; cases h
  | cons e rest ih =>
    intro h
    obtain ⟨key, value⟩ := e
    rw [List.lookup_cons] at h
    by_cases hk : name = key
    · subst hk
      simp only [beq_self_eq_true, Option.some.injEq] at h
      subst h
      exact List.mem_cons_self _ _
    · have hb : (name == key) = false := by simpa using hk
      rw [hb] at h
      exact List.mem_cons_of_mem _ (ih h)

theorem responses_three_texts : ∀ e ∈ AIService.responses, e.2.length = 3 := by decide

theorem inheritedKeys_not_in_table :
    ∀ key ∈ AIService.inheritedKeys, AIService.responses.lookup key = none := by decide

/-- The texts of Professor Euclid in the table. -/
theorem responses_euclid : ∃ texts, AIService.responses.lookup "Professor Euclid" = some texts ∧
    texts.length = 3 := ⟨_, rfl, rfl⟩

/-- For a name in the table the simulated response is one of the texts of that name. -/
theorem generateSimulatedResponse_of_table (randomBits : Nat) (q : Participant)
    (texts : List String) (h : AIService.responses.lookup q.name = some texts) :
    ∃ text, AIService.generateSimulatedResponse randomBits q = some text ∧ text ∈ texts := by
  have hlen : texts.length = 3 :=
    responses_three_texts _ (lookup_mem_of_eq_some q.name texts _ h)
  have hlt : AIService.randomIndex randomBits texts.length < texts.length :=
    randomIndex_lt _ _ (by omega)
  refine ⟨texts.get ⟨_, hlt⟩, ?_, List.get_mem _ _ _⟩
  unfold AIService.generateSimulatedResponse
  rw [h]
  exact List.get?_eq_get hlt

/-- For a name that is neither in the table nor inherited the simulated response is one of
the texts of Professor Euclid. -/
theorem generateSimulatedResponse_of_unknown (randomBits : Nat) (q : Participant)
    (h : AIService.responses.lookup q.name = none) (hin : q.name ∉ AIService.inheritedKeys) :
    ∃ text, AIService.generateSimulatedResponse randomBits q = some text ∧
      text ∈ (AIService.responses.lookup "Professor Euclid").getD [] := by
  obtain ⟨texts, he, hlen⟩ := responses_euclid
  have hlt : AIService.randomIndex randomBits texts.length < texts.length :=
    randomIndex_lt _ _ (by omega)
  refine ⟨texts.get ⟨_, hlt⟩, ?_, ?_⟩
  · unfold AIService.generateSimulatedResponse
    rw [h]
    simp only [hin, if_false, he, Option.getD_some]
    exact List.get?_eq_get hlt
  · rw [he]
    exact List.get_mem _ _ _

/-- For an inherited name the simulated response is `undefined`. -/
theorem generateSimulatedResponse_of_inherited (randomBits : Nat) (q : Participant)
    (hin : q.name ∈ AIService.inheritedKeys) :
    AIService.generateSimulatedResponse randomBits q = none := by
  unfold AIService.generateSimulatedResponse
  rw [inheritedKeys_not_in_table q.name hin]
  simp only [hin, if_true]

/-- Without an API key, or when the request fails, `generateResponse` is the simulated
response. -/
theorem generateResponse_fallback (ai : AIService) (o : GeneratorOracle) (q : Participant)
    (problem : String) (history : List Message) (difficulty : String)
    (h : ai.apiKey.getD "" = "" ∨ o.backendReply = none) :
    AIService.generateResponse ai o q problem history difficulty =
      AIService.generateSimulatedResponse o.randomBits q := by
  unfold AIService.generateResponse
  by_cases hk : ai.apiKey.getD "" = ""
  · rw [if_pos hk]
  · rw [if_neg hk]
    rcases h with h | h
    · exact absurd h hk
    · rw [h]

/-- The generator returns a text for every speaker whose name is in the table. -/
theorem generateResponse_of_table (ai : AIService) (o : GeneratorOracle) (q : Participant)
    (problem : String) (history : List Message) (difficulty : String)
    (h : (AIService.responses.lookup q.name).isSome = true) :
    ∃ text, AIService.generateResponse ai o q problem history difficulty = some text := by
  obtain ⟨texts, htexts⟩ := Option.isSome_iff_exists.mp h
  obtain ⟨text, hsim, -⟩ := generateSimulatedResponse_of_table o.randomBits q texts htexts
  unfold AIService.generateResponse
  by_cases hk : ai.apiKey.getD "" = ""
  · rw [if_pos hk]
    exact ⟨text, hsim⟩
  · rw [if_neg hk]
    cases o.backendReply with
    | none => exact ⟨text, hsim⟩
    | some reply => exact ⟨reply, rfl⟩

/-- Every catalog name is in the table. -/
theorem catalog_names_in_table :
    ∀ p ∈ personalities, (AIService.responses.lookup p.name).isSome = true := by decide

/-! ## Effect of `generateNextResponse` -/

theorem SpeakerIndex.lookup_eq_some {α : Type} (xs : List α) (i : SpeakerIndex) (x : α)
    (h : SpeakerIndex.lookup xs i = some x) :
    ∃ n, i = .num n ∧ n < xs.length ∧ xs.get? n = some x := by
  cases i with
  | nan => simp [SpeakerIndex.lookup] at h
  | num n =>
    refine ⟨n, rfl, ?_, h⟩
    simp only [SpeakerIndex.lookup] at h
    exact (List.get?_eq_some.mp h).1

theorem SpeakerIndex.lookup_mem {α : Type} (xs : List α) (i : SpeakerIndex) (x : α)
    (h : SpeakerIndex.lookup xs i = some x) : x ∈ xs := by
  obtain ⟨n, _, _, hn⟩ := SpeakerIndex.lookup_eq_some xs i x h
  exact List.get?_mem hn

theorem pointerValid_lookup_isSome (s : SessionState) (h : PointerValid s)
    (hne : s.participants ≠ []) :
    ∃ cp, SpeakerIndex.lookup s.participants s.currentSpeakerIndex = some cp := by
  unfold PointerValid at h
  cases hi : s.currentSpeakerIndex with
  | nan => simp [hi] at h
  | num n =>
    simp only [hi, hne, if_false] at h
    exact ⟨s.participants.get ⟨n, h⟩, by simp [SpeakerIndex.lookup, List.get?_eq_get h]⟩

/-- The result of `generateNextResponse` when a speaker is found, the generator returns a
text and the insert succeeds. -/
theorem generateNextResponse_active (ai : AIService) (o : GeneratorOracle) (now : Nat)
    (sys : System) (k : Nat) (s : SessionState) (cp : Participant) (text : String)
    (hget : sys.activeSessions.get k = some s)
    (hc : s.isComplete = false) (hp : s.isPaused = false)
    (hcp : SpeakerIndex.lookup s.participants s.currentSpeakerIndex = some cp)
    (htext : AIService.generateResponse ai o cp s.problem s.debateHistory s.difficulty =
      some text)
    (hs : ∃ r ∈ sys.db.sessions, r.id = k) (hr : ∃ p ∈ sys.db.participants, p.id = cp.id) :
    generateNextResponse ai o now sys k =
      .ok { system :=
              { db := { sys.db with
                          messages := sys.db.messages ++
                            [{ id := nextRowid sys.db.seqMessages (sys.db.messages.map (fun r => r.id)),
                               session_id := k, participant_id := cp.id,
                               content := text,
                               created_at := now }]
                          seqMessages := nextRowid sys.db.seqMessages
                            (sys.db.messages.map (fun r => r.id)) },
                activeSessions := sys.activeSessions.set k
                  (afterTurn s (turnMessage
                    (nextRowid sys.db.seqMessages (sys.db.messages.map (fun r => r.id))) k cp
                    text now)) },
            message := some (turnMessage
              (nextRowid sys.db.seqMessages (sys.db.messages.map (fun r => r.id))) k cp
              text now),
            generatorCalls := 1 } := by
  have hg : ¬ ((s.isComplete || s.isPaused) = true) := by simp [hc, hp]
  unfold generateNextResponse
  rw [hget]
  simp only
  rw [if_neg hg, hcp]
  simp only
  rw [htext]
  simp only
  rw [message_create_ok _ _ _ _ _ hs hr]
  rfl

/-- The result of `generateNextResponse` when a speaker is found and the generator returns
`undefined`: the call throws. -/
theorem generateNextResponse_undefined (ai : AIService) (o : GeneratorOracle) (now : Nat)
    (sys : System) (k : Nat) (s : SessionState) (cp : Participant)
    (hget : sys.activeSessions.get k = some s)
    (hc : s.isComplete = false) (hp : s.isPaused = false)
    (hcp : SpeakerIndex.lookup s.participants s.currentSpeakerIndex = some cp)
    (htext : AIService.generateResponse ai o cp s.problem s.debateHistory s.difficulty = none) :
    generateNextResponse ai o now sys k = .error .undefinedContent := by
  have hg : ¬ ((s.isComplete || s.isPaused) = true) := by simp [hc, hp]
  unfold generateNextResponse
  rw [hget]
  simp only
  rw [if_neg hg, hcp]
  simp only
  rw [htext]

/-- The result of `generateNextResponse` when the guard at its head fails. -/
theorem generateNextResponse_inactive (ai : AIService) (o : GeneratorOracle) (now : Nat)
    (sys : System) (k : Nat)
    (h : ∀ s, sys.activeSessions.get k = some s →
      s.isComplete = true ∨ s.isPaused = true ∨
        SpeakerIndex.lookup s.participants s.currentSpeakerIndex = none) :
    generateNextResponse ai o now sys k =
      .ok { system := sys, message := none, generatorCalls := 0 } := by
  unfold generateNextResponse
  cases hget : sys.activeSessions.get k with
  | none => rfl
  | some s =>
    simp only
    rcases h s hget with h | h | h
    · simp [h]
    · simp [h]
    · by_cases hcp : (s.isComplete || s.isPaused) = true
      · simp [hcp]
      · simp [hcp, h]


/-- The three ways a call of `generateNextResponse` can end: it throws (the insert failed), it
returns `null` and changes nothing, or it records a turn of a resident session that is neither
complete nor paused. -/
theorem generateNextResponse_cases (ai : AIService) (o : GeneratorOracle) (now : Nat)
    (sys : System) (k : Nat) :
    (∃ e, generateNextResponse ai o now sys k = .error e) ∨
    generateNextResponse ai o now sys k =
      .ok { system := sys, message := none, generatorCalls := 0 } ∨
    (∃ (s : SessionState) (cp : Participant) (db : Database) (m : Message),
      sys.activeSessions.get k = some s ∧ s.isComplete = false ∧ s.isPaused = false ∧
      SpeakerIndex.lookup s.participants s.currentSpeakerIndex = some cp ∧
      db.sessions = sys.db.sessions ∧ db.participants = sys.db.participants ∧
      m.participant_id = cp.id ∧
      generateNextResponse ai o now sys k =
        .ok { system := { db := db, activeSessions := sys.activeSessions.set k (afterTurn s m) },
              message := some m, generatorCalls := 1 }) := by
  cases hget : sys.activeSessions.get k with
  | none =>
    right; left
    exact generateNextResponse_inactive ai o now sys k (by intro s hs; rw [hget] at hs; cases hs)
  | some s =>
    by_cases hact : s.isComplete = true ∨ s.isPaused = true ∨
        SpeakerIndex.lookup s.participants s.currentSpeakerIndex = none
    · right; left
      exact generateNextResponse_inactive ai o now sys k (by
        intro s2 hs2
        rw [hget] at hs2
        cases hs2
        exact hact)
    · have hc : s.isComplete = false := by
        cases hx : s.isComplete
        · rfl
        · exact absurd (Or.inl hx) hact
      have hp : s.isPaused = false := by
        cases hx : s.isPaused
        · rfl
        · exact absurd (Or.inr (Or.inl hx)) hact
      obtain ⟨cp, hcp⟩ : ∃ cp, SpeakerIndex.lookup s.participants s.currentSpeakerIndex = some cp := by
        cases hx : SpeakerIndex.lookup s.participants s.currentSpeakerIndex with
        | none => exact absurd (Or.inr (Or.inr hx)) hact
        | some cp => exact ⟨cp, rfl⟩
      cases htext : AIService.generateResponse ai o cp s.problem s.debateHistory s.difficulty with
      | none =>
        left
        exact ⟨.undefinedContent, generateNextResponse_undefined ai o now sys k s cp hget hc hp hcp htext⟩
      | some text =>
        by_cases hrows : (∃ r ∈ sys.db.sessions, r.id = k) ∧
            (∃ p ∈ sys.db.participants, p.id = cp.id)
        · right; right
          refine ⟨s, cp, _, _, rfl, hc, hp, hcp, ?_, ?_, ?_,
            generateNextResponse_active ai o now sys k s cp text hget hc hp hcp htext
              hrows.1 hrows.2⟩
          · rfl
          · rfl
          · rfl
        · left
          refine ⟨.foreignKey, ?_⟩
          have hg : ¬ ((s.isComplete || s.isPaused) = true) := by simp [hc, hp]
          unfold generateNextResponse
          rw [hget]
          simp only
          rw [if_neg hg, hcp]
          simp only
          rw [htext]
          simp only
          have : messageOps.create sys.db k cp.id text now = .error .foreignKey := by
            unfold messageOps.create
            have hb : (sys.db.sessions.any (fun r => r.id == k) &&
                sys.db.participants.any (fun p => p.id == cp.id)) = false := by
              rw [Bool.eq_false_iff]
              intro hc2
              simp only [Bool.and_eq_true, List.any_eq_true, beq_iff_eq] at hc2
              exact hrows hc2
            rw [hb]
            rfl
          rw [this]

/-- After a recorded turn the session is complete exactly when the counter has reached the
ceiling. -/
theorem afterTurn_complete_iff (s : SessionState) (m : Message) (hc : s.isComplete = false) :
    (afterTurn s m).isComplete = true ↔ (afterTurn s m).maxRounds ≤ ((afterTurn s m).roundCount : Int) := by
  show (if s.maxRounds ≤ ((s.roundCount + 1 : Nat) : Int) then true else s.isComplete) = true ↔
    s.maxRounds ≤ ((s.roundCount + 1 : Nat) : Int)
  rw [hc]
  by_cases h : s.maxRounds ≤ ((s.roundCount + 1 : Nat) : Int)
  · simp [h]
  · simp [h]


/-! ## The invariant of the process state -/

theorem mirrorLinked_mono {db db1 : Database} {k : Nat} {s : SessionState}
    (h : MirrorLinked db k s)
    (hs : ∀ r ∈ db.sessions, r.id = k → ∃ r1 ∈ db1.sessions, r1.id = k)
    (hp : ∀ p ∈ db.participants, p.session_id = k →
      ∃ p1 ∈ db1.participants, p1.id = p.id ∧ p1.session_id = k) :
    MirrorLinked db1 k s := by
  refine ⟨?_, ?_, h.roster_ids, h.pointer⟩
  · obtain ⟨r, hr, hid⟩ := h.session_row
    exact hs r hr hid
  · intro q hq
    obtain ⟨p, hp1, hid, hsid⟩ := h.roster_rows q hq
    obtain ⟨p1, hp2, hid1, hsid1⟩ := hp p hp1 hsid
    exact ⟨p1, hp2, hid1.trans hid, hsid1⟩

theorem mirrorLinked_of_superset {db db1 : Database} {k : Nat} {s : SessionState}
    (h : MirrorLinked db k s)
    (hs : ∀ r ∈ db.sessions, r ∈ db1.sessions)
    (hp : ∀ p ∈ db.participants, p ∈ db1.participants) :
    MirrorLinked db1 k s :=
  mirrorLinked_mono h (fun r hr hid => ⟨r, hs r hr, hid⟩) (fun p hp1 hsid => ⟨p, hp p hp1, rfl, hsid⟩)

theorem pointerValid_initialState (sid : Nat) (pr d : String) (roster : List Participant)
    (n : Int) : PointerValid (initialState sid pr d roster n) := by
  unfold PointerValid MathCouncil.initialState
  simp only
  split
  · trivial
  · rename_i h
    exact List.length_pos.mpr h

theorem freshParticipantId_not_mem (db : Database) :
    ∀ p ∈ db.participants, p.id < freshParticipantId db := by
  intro p hp
  exact lt_nextRowid _ _ _ (List.mem_map_of_mem _ hp)

theorem nodup_append_newRows (db : Database) (hn : (db.participants.map (fun p => p.id)).Nodup)
    (sid : Nat) (ps : List Personality) :
    ((db.participants ++ newRows sid (freshParticipantId db) ps).map (fun p => p.id)).Nodup := by
  rw [List.map_append, newRows_map_id]
  refine List.Nodup.append hn (List.nodup_range' _ _) ?_
  intro i h1 h2
  obtain ⟨p, hp, hid⟩ := List.mem_map.mp h1
  have h3 := freshParticipantId_not_mem db p hp
  have h4 := (List.mem_range'_1.mp h2).1
  omega

theorem sound_after_createSession (ai : AIService) (sys : System) (h : sys.Sound) (shuffled : List Personality)
    (problem difficulty : String) (memberCount : Int) (now : Nat) :
    (Action.run ai (.createSession shuffled problem difficulty memberCount now) sys).Sound := by
  obtain ⟨db1, hres, hs, hm, hp⟩ := createSession_ok sys shuffled problem difficulty memberCount now
  simp only [Action.run, hres]
  refine ⟨⟨?_, ?_⟩, ?_⟩
  · show (db1.participants.map _).Nodup
    rw [hp]
    exact nodup_append_newRows sys.db h.1.participant_ids _ _
  · intro m hmem
    have hmem1 : m ∈ db1.messages := hmem
    rw [hm] at hmem1
    obtain ⟨p, hp1, hid⟩ := h.1.authors m hmem1
    refine ⟨p, ?_, hid⟩
    show p ∈ db1.participants
    rw [hp]
    exact List.mem_append_left _ hp1
  · intro k s hget
    simp only [SessionMap.get_set] at hget
    by_cases hk : k = freshSessionId sys.db
    · subst hk
      simp only [if_true, Option.some.injEq] at hget
      subst hget
      refine ⟨?_, ?_, ?_, Or.inl (pointerValid_initialState _ _ _ _ _)⟩
      · refine ⟨{ id := freshSessionId sys.db, problem := problem, difficulty := difficulty,
                  created_at := now }, ?_, rfl⟩
        show _ ∈ db1.sessions
        rw [hs]
        exact List.mem_append_right _ (List.mem_singleton_self _)
      · intro q hq
        obtain ⟨r, hr, hid⟩ := newRoster_rows (freshSessionId sys.db) _ _ q hq
        refine ⟨r, ?_, hid⟩
        show r ∈ db1.participants
        rw [hp]
        exact List.mem_append_right _ hr
      · show ((newRoster _ _).map _).Nodup
        rw [newRoster_map_id]
        exact List.nodup_range' _ _
    · simp only [hk, if_false] at hget
      refine mirrorLinked_of_superset (h.2 k s hget) ?_ ?_
      · intro r hr
        show r ∈ db1.sessions
        rw [hs]
        exact List.mem_append_left _ hr
      · intro p hp1
        show p ∈ db1.participants
        rw [hp]
        exact List.mem_append_left _ hp1


theorem sessionOps.getById_some (db : Database) (k : Nat) (row : SessionRow)
    (h : sessionOps.getById db k = some row) : row ∈ db.sessions ∧ row.id = k := by
  unfold sessionOps.getById at h
  exact ⟨List.mem_of_find?_eq_some h, by simpa using List.find?_some h⟩

theorem sessionOps.getById_none (db : Database) (k : Nat)
    (h : sessionOps.getById db k = none) : ¬ ∃ r ∈ db.sessions, r.id = k := by
  unfold sessionOps.getById at h
  rintro ⟨r, hr, hid⟩
  have := List.find?_eq_none.mp h r hr
  simp [hid] at this

theorem pointerSafe_rehydrate (db : Database) (k : Nat) (row : SessionRow) :
    PointerSafe (rehydrate db k row) := by
  unfold PointerSafe PointerValid DebateManager.rehydrate
  simp only
  cases hlen : ((participantOps.getBySessionId db k).map Participant.ofRow).length with
  | zero =>
    right
    simp [SpeakerIndex.ofMod]
  | succ n =>
    left
    have hne : (participantOps.getBySessionId db k).map Participant.ofRow ≠ [] := by
      intro hc
      rw [hc] at hlen
      simp at hlen
    simp only [SpeakerIndex.ofMod, Nat.succ_ne_zero, if_false, hne]
    exact Nat.mod_lt _ (Nat.succ_pos n)

theorem mirrorLinked_rehydrate (db : Database) (hn : (db.participants.map (fun p => p.id)).Nodup)
    (k : Nat) (row : SessionRow) (h : sessionOps.getById db k = some row) :
    MirrorLinked db k (rehydrate db k row) := by
  refine ⟨⟨row, (sessionOps.getById_some db k row h).1, (sessionOps.getById_some db k row h).2⟩,
    ?_, ?_, pointerSafe_rehydrate db k row⟩
  · intro q hq
    simp only [DebateManager.rehydrate, participantOps.getBySessionId, List.mem_map,
      List.mem_filter] at hq
    obtain ⟨r, ⟨hr, hcond⟩, rfl⟩ := hq
    refine ⟨r, hr, rfl, ?_⟩
    simp only [Bool.and_eq_true, beq_iff_eq] at hcond
    exact hcond.1
  · simp only [DebateManager.rehydrate, participantOps.getBySessionId, List.map_map]
    have : (fun q : Participant => q.id) ∘ Participant.ofRow = fun r : ParticipantRow => r.id := rfl
    rw [this]
    exact List.Nodup.sublist (List.Sublist.map _ (List.filter_sublist _)) hn

theorem sound_after_getSession (ai : AIService) (sys : System) (h : sys.Sound) (k : Nat) :
    (Action.run ai (.getSession k) sys).Sound := by
  simp only [Action.run, DebateManager.getSession]
  cases hget : sys.activeSessions.get k with
  | some s => exact h
  | none =>
    cases hrow : sessionOps.getById sys.db k with
    | none => exact h
    | some row =>
      refine ⟨h.1, ?_⟩
      intro k2 s2 hget2
      simp only [SessionMap.get_set] at hget2
      by_cases hk : k2 = k
      · subst hk
        simp only [if_true, Option.some.injEq] at hget2
        subst hget2
        exact mirrorLinked_rehydrate sys.db h.1.participant_ids k2 row hrow
      · simp only [hk, if_false] at hget2
        exact h.2 k2 s2 hget2

theorem pointerSafe_afterTurn (s : SessionState) (m : Message) (cp : Participant)
    (hcp : SpeakerIndex.lookup s.participants s.currentSpeakerIndex = some cp) :
    PointerSafe (afterTurn s m) := by
  obtain ⟨n, hn, hlt, _⟩ := SpeakerIndex.lookup_eq_some _ _ _ hcp
  left
  have hne : s.participants ≠ [] := by
    intro hc
    rw [hc] at hlt
    simp at hlt
  have hpos : s.participants.length ≠ 0 := by omega
  unfold PointerValid MathCouncil.afterTurn
  simp only [hn, SpeakerIndex.advance, SpeakerIndex.ofMod, hpos, if_false, hne]
  exact Nat.mod_lt _ (by omega)

theorem sound_after_generateNextResponse (ai : AIService) (sys : System) (h : sys.Sound)
    (o : GeneratorOracle) (now : Nat) (k : Nat) :
    (Action.run ai (.generateNextResponse o now k) sys).Sound := by
  simp only [Action.run]
  cases hget : sys.activeSessions.get k with
  | none =>
    rw [generateNextResponse_inactive ai o now sys k (by intro s hs; rw [hget] at hs; cases hs)]
    exact h
  | some s =>
    by_cases hact : s.isComplete = true ∨ s.isPaused = true ∨
        SpeakerIndex.lookup s.participants s.currentSpeakerIndex = none
    · rw [generateNextResponse_inactive ai o now sys k (by
        intro s2 hs2
        rw [hget] at hs2
        cases hs2
        exact hact)]
      exact h
    · have hc : s.isComplete = false := by
        cases hx : s.isComplete
        · rfl
        · exact absurd (Or.inl hx) hact
      have hp : s.isPaused = false := by
        cases hx : s.isPaused
        · rfl
        · exact absurd (Or.inr (Or.inl hx)) hact
      obtain ⟨cp, hcp⟩ : ∃ cp, SpeakerIndex.lookup s.participants s.currentSpeakerIndex = some cp := by
        cases hx : SpeakerIndex.lookup s.participants s.currentSpeakerIndex with
        | none => exact absurd (Or.inr (Or.inr hx)) hact
        | some cp => exact ⟨cp, rfl⟩
      have hl := h.2 k s hget
      obtain ⟨p, hp1, hid, hsid⟩ := hl.roster_rows cp (SpeakerIndex.lookup_mem _ _ _ hcp)
      cases htext : AIService.generateResponse ai o cp s.problem s.debateHistory s.difficulty with
      | none =>
        rw [generateNextResponse_undefined ai o now sys k s cp hget hc hp hcp htext]
        exact h
      | some text =>
        rw [generateNextResponse_active ai o now sys k s cp text hget hc hp hcp htext
          hl.session_row ⟨p, hp1, hid⟩]
        simp only
        refine ⟨⟨h.1.participant_ids, ?_⟩, ?_⟩
        · intro m hm
          simp only [List.mem_append, List.mem_singleton] at hm
          rcases hm with hm | hm
          · exact h.1.authors m hm
          · subst hm
            exact ⟨p, hp1, hid, hsid⟩
        · intro k2 s2 hget2
          simp only [SessionMap.get_set] at hget2
          by_cases hk : k2 = k
          · subst hk
            simp only [if_true, Option.some.injEq] at hget2
            subst hget2
            exact ⟨hl.session_row, hl.roster_rows, hl.roster_ids, pointerSafe_afterTurn s _ cp hcp⟩
          · simp only [hk, if_false] at hget2
            have hl2 := h.2 k2 s2 hget2
            exact ⟨hl2.session_row, hl2.roster_rows, hl2.roster_ids, hl2.pointer⟩

/-- Replacing a resident state by one with the same roster and a safe pointer keeps the
invariant when the tables do not change. -/
theorem sound_update_flags (sys : System) (h : sys.Sound) (k : Nat) (s s1 : SessionState)
    (hget : sys.activeSessions.get k = some s)
    (hroster : s1.participants = s.participants) (hptr : PointerSafe s1) :
    System.Sound { sys with activeSessions := sys.activeSessions.set k s1 } := by
  refine ⟨h.1, ?_⟩
  intro k2 s2 hget2
  simp only [SessionMap.get_set] at hget2
  by_cases hk : k2 = k
  · subst hk
    simp only [if_true, Option.some.injEq] at hget2
    subst hget2
    have hl := h.2 k2 s hget
    exact ⟨hl.session_row, by rw [hroster]; exact hl.roster_rows,
      by rw [hroster]; exact hl.roster_ids, hptr⟩
  · simp only [hk, if_false] at hget2
    exact h.2 k2 s2 hget2

theorem pointerSafe_of_same_pointer (s s1 : SessionState) (h : PointerSafe s)
    (hroster : s1.participants = s.participants)
    (hidx : s1.currentSpeakerIndex = s.currentSpeakerIndex)
    (hc : s.isComplete = true → s1.isComplete = true) : PointerSafe s1 := by
  rcases h with h | ⟨h1, h2⟩
  · left
    unfold PointerValid at h ⊢
    rw [hidx, hroster]
    exact h
  · right
    exact ⟨hidx.trans h1, hc h2⟩

theorem sound_after_pauseSession (ai : AIService) (sys : System) (h : sys.Sound) (k : Nat) :
    (Action.run ai (.pauseSession k) sys).Sound := by
  simp only [Action.run, DebateManager.pauseSession]
  cases hget : sys.activeSessions.get k with
  | none => exact h
  | some s =>
    exact sound_update_flags sys h k s _ hget rfl
      (pointerSafe_of_same_pointer s _ (h.2 k s hget).pointer rfl rfl (fun hc => hc))

theorem sound_after_resumeSession (ai : AIService) (sys : System) (h : sys.Sound) (k : Nat) :
    (Action.run ai (.resumeSession k) sys).Sound := by
  simp only [Action.run, DebateManager.resumeSession]
  cases hget : sys.activeSessions.get k with
  | none => exact h
  | some s =>
    exact sound_update_flags sys h k s _ hget rfl
      (pointerSafe_of_same_pointer s _ (h.2 k s hget).pointer rfl rfl (fun hc => hc))

theorem sound_after_forceVote (ai : AIService) (sys : System) (h : sys.Sound) (k : Nat) :
    (Action.run ai (.forceVote k) sys).Sound := by
  simp only [Action.run, DebateManager.forceVote]
  cases hget : sys.activeSessions.get k with
  | none => exact h
  | some s =>
    exact sound_update_flags sys h k s _ hget rfl
      (pointerSafe_of_same_pointer s _ (h.2 k s hget).pointer rfl rfl (fun _ => rfl))

theorem pointerSafe_kickFromState (s : SessionState) (pid : Nat) (h : PointerSafe s) :
    PointerSafe (kickFromState s pid) := by
  rcases h with h | ⟨h1, h2⟩
  · left
    unfold PointerValid at h ⊢
    unfold DebateManager.kickFromState
    cases hi : s.currentSpeakerIndex with
    | nan => simp [hi] at h
    | num n =>
      simp only [SpeakerIndex.ge]
      by_cases hge : (s.participants.filter (fun p => p.id != pid)).length ≤ n
      · simp only [hge, decide_True, if_true]
        split
        · trivial
        · rename_i hne
          exact List.length_pos.mpr hne
      · simp only [hge, decide_False, Bool.false_eq_true, if_false]
        have hne : s.participants.filter (fun p => p.id != pid) ≠ [] := by
          intro hc
          rw [hc] at hge
          simp at hge
        simp only [hne, if_false]
        omega
  · right
    unfold DebateManager.kickFromState
    simp [h1, h2, SpeakerIndex.ge]

theorem participantOps.deactivate_mem (db : Database) (pid : Nat) (p : ParticipantRow)
    (hp : p ∈ db.participants) :
    ∃ p1 ∈ (participantOps.deactivate db pid).participants,
      p1.id = p.id ∧ p1.session_id = p.session_id := by
  refine ⟨if p.id = pid then { p with is_active := false } else p, ?_, ?_, ?_⟩
  · simp only [participantOps.deactivate, List.mem_map]
    exact ⟨p, hp, rfl⟩
  · split <;> rfl
  · split <;> rfl

theorem participantOps.deactivate_map_id (db : Database) (pid : Nat) :
    (participantOps.deactivate db pid).participants.map (fun p => p.id) =
      db.participants.map (fun p => p.id) := by
  simp only [participantOps.deactivate, List.map_map]
  apply List.map_congr_left
  intro p _
  simp only [Function.comp]
  split <;> rfl

theorem coherent_deactivate (db : Database) (h : db.Coherent) (pid : Nat) :
    (participantOps.deactivate db pid).Coherent := by
  refine ⟨?_, ?_⟩
  · rw [participantOps.deactivate_map_id]
    exact h.participant_ids
  · intro m hm
    obtain ⟨p, hp, hid, hsid⟩ := h.authors m hm
    obtain ⟨p1, hp1, hid1, hsid1⟩ := participantOps.deactivate_mem db pid p hp
    exact ⟨p1, hp1, hid1.trans hid, hsid1.trans hsid⟩

theorem mirrorLinked_deactivate {db : Database} {k : Nat} {s : SessionState}
    (h : MirrorLinked db k s) (pid : Nat) : MirrorLinked (participantOps.deactivate db pid) k s := by
  refine mirrorLinked_mono h (fun r hr hid => ⟨r, hr, hid⟩) ?_
  intro p hp hsid
  obtain ⟨p1, hp1, hid1, hsid1⟩ := participantOps.deactivate_mem db pid p hp
  exact ⟨p1, hp1, hid1, hsid1.trans hsid⟩

theorem sound_after_kickParticipant (ai : AIService) (sys : System) (h : sys.Sound) (k pid : Nat) :
    (Action.run ai (.kickParticipant k pid) sys).Sound := by
  simp only [Action.run, DebateManager.kickParticipant]
  cases hget : sys.activeSessions.get k with
  | none =>
    exact ⟨coherent_deactivate sys.db h.1 pid,
      fun k2 s2 hget2 => mirrorLinked_deactivate (h.2 k2 s2 hget2) pid⟩
  | some s =>
    refine ⟨coherent_deactivate sys.db h.1 pid, ?_⟩
    intro k2 s2 hget2
    simp only [SessionMap.get_set] at hget2
    by_cases hk : k2 = k
    · subst hk
      simp only [if_true, Option.some.injEq] at hget2
      subst hget2
      have hl := mirrorLinked_deactivate (h.2 k2 s hget) pid
      refine ⟨hl.session_row, ?_, ?_, pointerSafe_kickFromState s pid hl.pointer⟩
      · intro q hq
        exact hl.roster_rows q (List.mem_of_mem_filter hq)
      · exact List.Nodup.sublist (List.Sublist.map _ (List.filter_sublist _)) hl.roster_ids
    · simp only [hk, if_false] at hget2
      exact mirrorLinked_deactivate (h.2 k2 s2 hget2) pid


theorem pointerSafe_addToState (s : SessionState) (q : Participant) (h : PointerSafe s) :
    PointerSafe (addToState s q) := by
  rcases h with h | ⟨h1, h2⟩
  · left
    unfold PointerValid at h ⊢
    unfold DebateManager.addToState
    cases hi : s.currentSpeakerIndex with
    | nan => simp [hi] at h
    | num n =>
      simp only [hi] at h
      have hne : s.participants ++ [q] ≠ [] := by simp
      simp only [hne, if_false, List.length_append, List.length_singleton]
      split at h
      · omega
      · omega
  · right
    exact ⟨h1, h2⟩

/-- The result of `addParticipant` on a resident session whose record is in the store. -/
theorem addParticipant_resident (sys : System) (k : Nat) (personality : Personality)
    (s : SessionState) (hget : sys.activeSessions.get k = some s)
    (hs : ∃ r ∈ sys.db.sessions, r.id = k) :
    addParticipant sys k personality =
      .ok ({ db := { sys.db with
                       participants := sys.db.participants ++
                         [{ id := freshParticipantId sys.db, session_id := k,
                            name := personality.name, personality := personality.personality,
                            specialty := personality.specialty, is_active := true }]
                       seqParticipants := freshParticipantId sys.db },
             activeSessions := sys.activeSessions.set k
               (addToState s (Participant.ofPersonality (freshParticipantId sys.db) personality)) },
           Participant.ofPersonality (freshParticipantId sys.db) personality) := by
  unfold addParticipant
  rw [participant_create_ok _ _ _ _ _ hs]
  simp only [hget]
  rfl

theorem coherent_addRow (db : Database) (h : db.Coherent) (k : Nat) (n p s : String) :
    Database.Coherent { db with
      participants := db.participants ++
        [{ id := freshParticipantId db, session_id := k, name := n, personality := p,
           specialty := s, is_active := true }]
      seqParticipants := freshParticipantId db } := by
  refine ⟨?_, ?_⟩
  · simp only [List.map_append, List.map_cons, List.map_nil]
    refine List.Nodup.append h.participant_ids (List.nodup_singleton _) ?_
    intro i h1 h2
    obtain ⟨r, hr, hid⟩ := List.mem_map.mp h1
    have h3 := freshParticipantId_not_mem db r hr
    simp only [List.mem_singleton] at h2
    omega
  · intro m hm
    obtain ⟨r, hr, hid⟩ := h.authors m hm
    exact ⟨r, List.mem_append_left _ hr, hid⟩

theorem sound_after_addParticipant (ai : AIService) (sys : System) (h : sys.Sound) (k : Nat)
    (personality : Personality) :
    (Action.run ai (.addParticipant k personality) sys).Sound := by
  simp only [Action.run]
  by_cases hs : ∃ r ∈ sys.db.sessions, r.id = k
  · cases hget : sys.activeSessions.get k with
    | none =>
      simp only [DebateManager.addParticipant, participant_create_ok _ _ _ _ _ hs, hget]
      refine ⟨coherent_addRow sys.db h.1 k _ _ _, ?_⟩
      intro k2 s2 hget2
      exact mirrorLinked_of_superset (h.2 k2 s2 hget2) (fun r hr => hr)
        (fun p hp => List.mem_append_left _ hp)
    | some s =>
      rw [addParticipant_resident sys k personality s hget hs]
      refine ⟨coherent_addRow sys.db h.1 k _ _ _, ?_⟩
      intro k2 s2 hget2
      simp only [SessionMap.get_set] at hget2
      by_cases hk : k2 = k
      · subst hk
        simp only [if_true, Option.some.injEq] at hget2
        subst hget2
        have hl := h.2 k2 s hget
        refine ⟨hl.session_row, ?_, ?_, pointerSafe_addToState s _ hl.pointer⟩
        · intro q hq
          simp only [DebateManager.addToState, List.mem_append, List.mem_singleton] at hq
          rcases hq with hq | hq
          · obtain ⟨p, hp, hid⟩ := hl.roster_rows q hq
            exact ⟨p, List.mem_append_left _ hp, hid⟩
          · subst hq
            exact ⟨_, List.mem_append_right _ (List.mem_singleton_self _), rfl, rfl⟩
        · simp only [DebateManager.addToState, List.map_append, List.map_cons, List.map_nil]
          refine List.Nodup.append hl.roster_ids (List.nodup_singleton _) ?_
          intro i h1 h2
          obtain ⟨q, hq, hid⟩ := List.mem_map.mp h1
          obtain ⟨p, hp, hpid, _⟩ := hl.roster_rows q hq
          have h3 := freshParticipantId_not_mem sys.db p hp
          simp only [List.mem_singleton, Participant.ofPersonality] at h2
          omega
      · simp only [hk, if_false] at hget2
        exact mirrorLinked_of_superset (h.2 k2 s2 hget2) (fun r hr => hr)
          (fun p hp => List.mem_append_left _ hp)
  · simp only [DebateManager.addParticipant, participant_create_error _ _ _ _ _ hs]
    exact h

/-- The tables after `deleteSession`. -/
theorem deleteSession_db (sys : System) (k : Nat) :
    (deleteSession sys k).1.db.sessions = sys.db.sessions.filter (fun r => r.id != k) ∧
    (deleteSession sys k).1.db.participants =
      sys.db.participants.filter (fun p => p.session_id != k) ∧
    (∀ m, m ∈ (deleteSession sys k).1.db.messages →
      m ∈ sys.db.messages ∧ m.session_id ≠ k) ∧
    (deleteSession sys k).1.activeSessions = sys.activeSessions.delete k ∧
    (deleteSession sys k).2 = true := by
  refine ⟨?_, ?_, ?_, rfl, rfl⟩
  · rfl
  · simp only [deleteSession, sessionOps.delete, participantOps.deleteBySessionId,
      messageOps.deleteBySessionId, List.filter_filter, Bool.and_self]
  · intro m hm
    simp only [deleteSession, sessionOps.delete, participantOps.deleteBySessionId,
      messageOps.deleteBySessionId, List.mem_filter] at hm
    exact ⟨hm.1.1.1, by simpa using hm.1.1.2⟩

/-- Under integrity of the tables, `deleteSession` removes exactly the messages of the session. -/
theorem deleteSession_messages (sys : System) (h : sys.db.Coherent) (k : Nat) :
    (deleteSession sys k).1.db.messages = sys.db.messages.filter (fun m => m.session_id != k) := by
  simp only [deleteSession, sessionOps.delete, participantOps.deleteBySessionId,
    messageOps.deleteBySessionId, List.filter_filter]
  apply List.filter_congr
  intro m hm
  by_cases hk : m.session_id = k
  · simp [hk]
  · obtain ⟨p, hp, hid, hsid⟩ := h.authors m hm
    have h1 : (sys.db.participants.any
        (fun p => p.id == m.participant_id && p.session_id == k)) = false := by
      rw [Bool.eq_false_iff]
      intro hc
      obtain ⟨p2, hp2, hcond⟩ := List.any_eq_true.mp hc
      simp only [Bool.and_eq_true, beq_iff_eq] at hcond
      have hnd := h.participant_ids
      have : p2 = p := by
        apply List.inj_on_of_nodup_map hnd hp2 hp
        rw [hcond.1, hid]
      rw [this, hsid] at hcond
      exact hk hcond.2
    have h2 : ((sys.db.participants.filter (fun p => p.session_id != k)).any
        (fun p => p.id == m.participant_id && p.session_id == k)) = false := by
      rw [Bool.eq_false_iff]
      intro hc
      obtain ⟨p2, hp2, hcond⟩ := List.any_eq_true.mp hc
      have := (List.mem_filter.mp hp2).2
      simp only [Bool.and_eq_true, beq_iff_eq] at hcond
      simp [hcond.2] at this
    simp [hk, h1, h2]

theorem sound_after_deleteSession (ai : AIService) (sys : System) (h : sys.Sound) (k : Nat) :
    (Action.run ai (.deleteSession k) sys).Sound := by
  simp only [Action.run]
  obtain ⟨hs, hp, _, hmap, _⟩ := deleteSession_db sys k
  have hm := deleteSession_messages sys h.1 k
  refine ⟨⟨?_, ?_⟩, ?_⟩
  · rw [hp]
    exact List.Nodup.sublist (List.Sublist.map _ (List.filter_sublist _)) h.1.participant_ids
  · intro m hmem
    rw [hm] at hmem
    obtain ⟨hmem1, hcond⟩ := List.mem_filter.mp hmem
    obtain ⟨p, hp1, hid, hsid⟩ := h.1.authors m hmem1
    refine ⟨p, ?_, hid, hsid⟩
    rw [hp]
    refine List.mem_filter.mpr ⟨hp1, ?_⟩
    rw [hsid]
    exact hcond
  · intro k2 s2 hget2
    rw [hmap, SessionMap.get_delete] at hget2
    by_cases hk : k2 = k
    · simp [hk] at hget2
    · simp only [hk, if_false] at hget2
      refine mirrorLinked_mono (h.2 k2 s2 hget2) ?_ ?_
      · intro r hr hid
        refine ⟨r, ?_, hid⟩
        rw [hs]
        exact List.mem_filter.mpr ⟨hr, by simpa [hid] using hk⟩
      · intro p hp1 hsid
        refine ⟨p, ?_, rfl, hsid⟩
        rw [hp]
        exact List.mem_filter.mpr ⟨hp1, by simpa [hsid] using hk⟩

theorem sound_after_run (ai : AIService) (a : Action) (sys : System) (h : sys.Sound) :
    (a.run ai sys).Sound := by
  cases a with
  | createSession shuffled problem difficulty memberCount now =>
    exact sound_after_createSession ai sys h _ _ _ _ _
  | getSession k => exact sound_after_getSession ai sys h k
  | generateNextResponse o now k => exact sound_after_generateNextResponse ai sys h o now k
  | pauseSession k => exact sound_after_pauseSession ai sys h k
  | resumeSession k => exact sound_after_resumeSession ai sys h k
  | kickParticipant k pid => exact sound_after_kickParticipant ai sys h k pid
  | addParticipant k p => exact sound_after_addParticipant ai sys h k p
  | forceVote k => exact sound_after_forceVote ai sys h k
  | deleteSession k => exact sound_after_deleteSession ai sys h k

/-- Every state the process can be in satisfies the invariant. -/
theorem reachable_sound (ai : AIService) (sys : System) (h : Reachable ai sys) : sys.Sound := by
  induction h with
  | boot =>
    refine ⟨⟨?_, ?_⟩, ?_⟩
    · simp [Database.empty]
    · intro m hm
      simp [Database.empty] at hm
    · intro k s hget
      simp [SessionMap.get_nil] at hget
  | restart _ ih =>
    refine ⟨ih.1, ?_⟩
    intro k s hget
    simp [SessionMap.get_nil] at hget
  | step a _ ih => exact sound_after_run ai a _ ih


/-! ## The turn pointer after a rehydration -/

theorem reachable_runAll (ai : AIService) (actions : List Action) :
    ∀ sys, Reachable ai sys → Reachable ai (runAll ai actions sys) := by
  induction actions with
  | nil => intro sys h; exact h
  | cons a rest ih =>
    intro sys h
    exact ih _ (Reachable.step a h)

/-- Claim C1, evaluated where the code leaves it: a session of three is created, its three
participants are kicked and the process starts again; this state is one the process can be in,
`getSession` then rebuilds a state with an empty roster whose `currentSpeakerIndex` is
`NaN`, not 0, and adding a participant to it gives a roster of one with the pointer still
`NaN`, which is no index into it. -/
theorem rehydrated_empty_roster_pointer_is_nan :
    Reachable demoService emptiedSystem ∧
    (getSession emptiedSystem 1).toOption.map
        (fun r => (r.2.participants, r.2.currentSpeakerIndex)) = some ([], SpeakerIndex.nan) ∧
    ((runAll demoService [.getSession 1, .addParticipant 1 professorEuclid]
        emptiedSystem).activeSessions.get 1).map
        (fun s => (s.participants.length, s.currentSpeakerIndex, decide (PointerValid s))) =
      some (1, SpeakerIndex.nan, false) := by
  refine ⟨Reachable.restart (reachable_runAll demoService _ _ Reachable.boot), ?_, ?_⟩
  · decide
  · decide


/-! ## Sampling and session creation -/

theorem getRandomPersonalities_of_le (shuffled : List Personality) (n : Nat)
    (hn : n ≤ personalities.length) :
    getRandomPersonalities shuffled (n : Int) = shuffled.take n := by
  unfold getRandomPersonalities sliceFromZero
  have h1 : min (n : Int) (personalities.length : Int) = (n : Int) := by
    apply min_eq_left
    exact_mod_cast hn
  rw [h1]
  have h2 : ¬ ((n : Int) < 0) := by omega
  simp [h2]

theorem personalities_length : personalities.length = 7 := rfl

theorem personalities_names_nodup : (personalities.map (fun p => p.name)).Nodup := by decide

theorem sample_length (shuffled : List Personality) (hperm : shuffled.Perm personalities)
    (n : Nat) (hn : n ≤ 7) : (getRandomPersonalities shuffled (n : Int)).length = n := by
  rw [getRandomPersonalities_of_le shuffled n (by rw [personalities_length]; exact hn),
    List.length_take, hperm.length_eq, personalities_length]
  exact min_eq_left hn

theorem sample_names_nodup (shuffled : List Personality) (hperm : shuffled.Perm personalities)
    (n : Nat) (hn : n ≤ 7) :
    ((getRandomPersonalities shuffled (n : Int)).map (fun p => p.name)).Nodup := by
  rw [getRandomPersonalities_of_le shuffled n (by rw [personalities_length]; exact hn)]
  have h1 : (shuffled.map (fun p => p.name)).Nodup :=
    ((hperm.map _).nodup_iff).mpr personalities_names_nodup
  exact List.Nodup.sublist (List.Sublist.map _ (List.take_sublist n shuffled)) h1

theorem sample_mem_catalog (shuffled : List Personality) (hperm : shuffled.Perm personalities)
    (n : Nat) (hn : n ≤ 7) :
    ∀ p ∈ getRandomPersonalities shuffled (n : Int), p ∈ personalities := by
  rw [getRandomPersonalities_of_le shuffled n (by rw [personalities_length]; exact hn)]
  intro p hp
  exact hperm.subset (List.mem_of_mem_take hp)

theorem freshSessionId_not_mem (db : Database) :
    ∀ r ∈ db.sessions, r.id ≠ freshSessionId db := by
  intro r hr
  have h : r.id < freshSessionId db :=
    lt_nextRowid db.seqSessions _ _ (List.mem_map_of_mem (fun r => r.id) hr)
  omega


/-! ## Turn rotation -/

/-- One turn of a rotating session that has not reached its ceiling. -/
theorem rotating_step (ai : AIService) (o : GeneratorOracle) (now : Nat) (k : Nat)
    (R : List Participant) (n : Nat) (hn : R.length = n) (hpos : 0 < n)
    (hnames : ∀ q ∈ R, (AIService.responses.lookup q.name).isSome = true)
    (sys : System) (s : SessionState) (c : Nat) (h : Rotating sys k R n c s) (hc2 : c < 2 * n) :
    ∃ (sys1 : System) (m : Message) (p : Participant) (s1 : SessionState),
      generateNextResponse ai o now sys k =
        .ok { system := sys1, message := some m, generatorCalls := 1 } ∧
      R.get? (c % n) = some p ∧
      m.participant_id = p.id ∧ m.name = p.name ∧ m.personality = p.personality ∧
      m.specialty = p.specialty ∧ m.session_id = k ∧
      Rotating sys1 k R n (c + 1) s1 := by
  have hlt : c % n < R.length := by rw [hn]; exact Nat.mod_lt _ hpos
  have hc : s.isComplete = false := by
    rw [h.complete]
    exact decide_eq_false (by omega)
  have hcp : SpeakerIndex.lookup s.participants s.currentSpeakerIndex =
      some (R.get ⟨c % n, hlt⟩) := by
    rw [h.roster, h.pointer]
    exact List.get?_eq_get hlt
  have hrow := h.roster_rows _ (List.get_mem R (c % n) hlt)
  obtain ⟨text, htext⟩ := generateResponse_of_table ai o (R.get ⟨c % n, hlt⟩) s.problem
    s.debateHistory s.difficulty (hnames _ (List.get_mem R (c % n) hlt))
  refine ⟨_, _, R.get ⟨c % n, hlt⟩,
    afterTurn s (turnMessage (nextRowid sys.db.seqMessages (sys.db.messages.map (fun r => r.id)))
      k (R.get ⟨c % n, hlt⟩) text now),
    generateNextResponse_active ai o now sys k s _ text h.resident hc h.running hcp htext
      h.session_row hrow,
    List.get?_eq_get hlt, rfl, rfl, rfl, rfl, rfl, ?_⟩
  refine ⟨SessionMap.get_set_self _ _ _, h.roster, ?_, ?_, h.ceiling, h.running, ?_,
    h.session_row, h.roster_rows⟩
  · show s.currentSpeakerIndex.advance s.participants.length = _
    rw [h.pointer, h.roster, hn]
    have hne : n ≠ 0 := by omega
    simp only [SpeakerIndex.advance, SpeakerIndex.ofMod, hne, if_false, Nat.mod_add_mod]
  · show s.roundCount + 1 = c + 1
    rw [h.counter]
  · show (if s.maxRounds ≤ ((s.roundCount + 1 : Nat) : Int) then true else s.isComplete) = _
    rw [h.ceiling, h.counter, hc]
    by_cases hx : 2 * n ≤ c + 1
    · have : 2 * (n : Int) ≤ ((c + 1 : Nat) : Int) := by exact_mod_cast hx
      rw [if_pos this]
      exact (decide_eq_true hx).symm
    · have : ¬ 2 * (n : Int) ≤ ((c + 1 : Nat) : Int) := by
        intro hc2
        exact hx (by exact_mod_cast hc2)
      rw [if_neg this]
      exact (decide_eq_false hx).symm

theorem rotating_turns (ai : AIService) (k : Nat) (R : List Participant) (n : Nat)
    (hn : R.length = n) (hpos : 0 < n)
    (hnames : ∀ q ∈ R, (AIService.responses.lookup q.name).isSome = true)
    (calls : List (GeneratorOracle × Nat)) :
    ∀ (sys : System) (s : SessionState) (c : Nat), Rotating sys k R n c s →
      c + calls.length ≤ 2 * n →
      ∃ (sys2 : System) (msgs : List Message) (s2 : SessionState),
        generateTurns ai k calls sys = .ok (sys2, msgs.map some) ∧
        msgs.length = calls.length ∧
        (∀ i, i < calls.length → ∃ m p, msgs.get? i = some m ∧ R.get? ((c + i) % n) = some p ∧
          m.participant_id = p.id ∧ m.name = p.name ∧ m.personality = p.personality ∧
          m.specialty = p.specialty ∧ m.session_id = k) ∧
        Rotating sys2 k R n (c + calls.length) s2 := by
  induction calls with
  | nil =>
    intro sys s c h _
    exact ⟨sys, [], s, rfl, rfl, fun i hi => absurd hi (Nat.not_lt_zero i), h⟩
  | cons call rest ih =>
    intro sys s c h hle
    simp only [List.length_cons] at hle
    obtain ⟨sys1, m0, p0, s1, hgen, hp0, hm1, hm2, hm3, hm4, hm5, hrot⟩ :=
      rotating_step ai call.1 call.2 k R n hn hpos hnames sys s c h (by omega)
    obtain ⟨sys2, msgs, s2, hrun, hlen, hmsgs, hrot2⟩ := ih sys1 s1 (c + 1) hrot (by omega)
    refine ⟨sys2, m0 :: msgs, s2, ?_, ?_, ?_, ?_⟩
    · rw [generateTurns, hgen]
      simp only [hrun, List.map_cons]
    · simp [hlen]
    · intro i hi
      cases i with
      | zero => exact ⟨m0, p0, rfl, hp0, hm1, hm2, hm3, hm4, hm5⟩
      | succ j =>
        obtain ⟨m, p, h1, h2, h3⟩ := hmsgs j (by simp only [List.length_cons] at hi; omega)
        refine ⟨m, p, h1, ?_, h3⟩
        rw [← h2]
        congr 2
        omega
    · have : c + (rest.length + 1) = c + 1 + rest.length := by omega
      rw [List.length_cons, this]
      exact hrot2

/-- The state `createSession` registers rotates from turn 0. -/
theorem rotating_createSession (sys : System) (shuffled : List Personality)
    (hperm : shuffled.Perm personalities) (problem difficulty : String) (n : Nat)
    (hpos : 0 < n) (h7 : n ≤ 7) (now : Nat) :
    ∃ sys1 res, createSession sys shuffled problem difficulty (n : Int) now = .ok (sys1, res) ∧
      res.participants.length = n ∧
      (∀ q ∈ res.participants, (AIService.responses.lookup q.name).isSome = true) ∧
      Rotating sys1 res.sessionId res.participants n 0 res.sessionState := by
  obtain ⟨db1, hres, hs, -, hp⟩ := createSession_ok sys shuffled problem difficulty (n : Int) now
  refine ⟨_, _, hres, ?_, ?_, ?_⟩
  · show (newRoster _ _).length = n
    rw [newRoster_length, sample_length shuffled hperm n h7]
  · intro q hq
    have h1 : q.name ∈ (newRoster (freshParticipantId sys.db)
        (getRandomPersonalities shuffled (n : Int))).map (fun q => q.name) :=
      List.mem_map_of_mem (fun q => q.name) hq
    rw [newRoster_map_name] at h1
    obtain ⟨p, hp1, hname⟩ := List.mem_map.mp h1
    rw [← hname]
    exact catalog_names_in_table p (sample_mem_catalog shuffled hperm n h7 p hp1)
  · refine ⟨SessionMap.get_set_self _ _ _, rfl, ?_, rfl, ?_, rfl, ?_, ?_, ?_⟩
    · show SpeakerIndex.num 0 = SpeakerIndex.num (0 % n)
      rw [Nat.zero_mod]
    · show (n : Int) * 2 = 2 * (n : Int)
      ring
    · show false = decide (2 * n ≤ 0)
      exact (decide_eq_false (by omega)).symm
    · refine ⟨{ id := freshSessionId sys.db, problem := problem, difficulty := difficulty,
                created_at := now }, ?_, rfl⟩
      show _ ∈ db1.sessions
      rw [hs]
      exact List.mem_append_right _ (List.mem_singleton_self _)
    · intro q hq
      obtain ⟨r, hr, hid, -⟩ := newRoster_rows (freshSessionId sys.db) _ _ q hq
      refine ⟨r, ?_, hid⟩
      show r ∈ db1.participants
      rw [hp]
      exact List.mem_append_right _ hr


/-- Claim C2: for every n from 3 to 7, every outcome of the shuffle and every run of k calls
of `generateNextResponse` with k at most 2n, made right after `createSession` with n
participants: every call returns a message, the message at position i (counted from 0, so the
(i+1)-th message) is authored by the roster entry at index i mod n, and afterwards the
session state has the same roster, pointer k mod n, round counter k and is complete exactly
when k is at least 2n. -/
theorem turns_rotate_through_roster (ai : AIService) (sys : System)
    (shuffled : List Personality) (hperm : shuffled.Perm personalities)
    (problem difficulty : String) (n : Nat) (h3 : 3 ≤ n) (h7 : n ≤ 7) (now : Nat)
    (calls : List (GeneratorOracle × Nat)) (hk : calls.length ≤ 2 * n) :
    ∃ (sys1 : System) (res : CreateSessionResult) (sys2 : System) (msgs : List Message)
      (s : SessionState),
      createSession sys shuffled problem difficulty (n : Int) now = .ok (sys1, res) ∧
      generateTurns ai res.sessionId calls sys1 = .ok (sys2, msgs.map some) ∧
      msgs.length = calls.length ∧
      (∀ i, i < calls.length → ∃ m p, msgs.get? i = some m ∧
        res.participants.get? (i % n) = some p ∧
        m.participant_id = p.id ∧ m.name = p.name ∧ m.personality = p.personality ∧
        m.specialty = p.specialty ∧ m.session_id = res.sessionId) ∧
      sys2.activeSessions.get res.sessionId = some s ∧
      s.participants = res.participants ∧
      s.currentSpeakerIndex = .num (calls.length % n) ∧
      s.roundCount = calls.length ∧
      s.isComplete = decide (2 * n ≤ calls.length) := by
  obtain ⟨sys1, res, hres, hlen, hnames, hrot⟩ :=
    rotating_createSession sys shuffled hperm problem difficulty n (by omega) h7 now
  obtain ⟨sys2, msgs, s, hrun, hmlen, hmsgs, hrot2⟩ :=
    rotating_turns ai res.sessionId res.participants n hlen (by omega) hnames calls sys1
      res.sessionState 0 hrot (by omega)
  simp only [Nat.zero_add] at hmsgs hrot2
  exact ⟨sys1, res, sys2, msgs, s, hres, hrun, hmlen, hmsgs, hrot2.resident, hrot2.roster,
    hrot2.pointer, hrot2.counter, hrot2.complete⟩


/-- Claim C2 at n = 3 with six calls: the six messages are authored by the participants with
ids 1, 2, 3, 1, 2, 3, the roster entries at indices 0, 1, 2, 0, 1, 2, and the session is
complete after the sixth. -/
theorem turns_rotate_through_roster_witness :
    (3 ≤ 3 ∧ 3 ≤ 7 ∧ sixCalls.length ≤ 2 * 3) ∧
    (∃ (sys1 : System) (res : CreateSessionResult) (sys2 : System) (msgs : List Message)
      (s : SessionState),
      createSession bootSystem personalities "Is 0.999...=1?" "medium" ((3 : Nat) : Int) 0 =
        .ok (sys1, res) ∧
      generateTurns demoService res.sessionId sixCalls sys1 = .ok (sys2, msgs.map some) ∧
      msgs.length = sixCalls.length ∧
      (∀ i, i < sixCalls.length → ∃ m p, msgs.get? i = some m ∧
        res.participants.get? (i % 3) = some p ∧
        m.participant_id = p.id ∧ m.name = p.name ∧ m.personality = p.personality ∧
        m.specialty = p.specialty ∧ m.session_id = res.sessionId) ∧
      sys2.activeSessions.get res.sessionId = some s ∧
      s.participants = res.participants ∧
      s.currentSpeakerIndex = .num (sixCalls.length % 3) ∧
      s.roundCount = sixCalls.length ∧
      s.isComplete = decide (2 * 3 ≤ sixCalls.length)) ∧
    (generateTurns demoService 1 sixCalls
        (Action.run demoService (.createSession personalities "Is 0.999...=1?" "medium" 3 0)
          bootSystem)).toOption.map
        (fun out => (out.2.map (fun m => m.map (fun x => x.participant_id)),
          (out.1.activeSessions.get 1).map (fun s => s.isComplete))) =
      some ([some 1, some 2, some 3, some 1, some 2, some 3], some true) :=
  ⟨⟨by decide, by decide, by decide⟩,
    turns_rotate_through_roster demoService bootSystem personalities (List.Perm.refl _)
      "Is 0.999...=1?" "medium" 3 (by decide) (by decide) 0 sixCalls (by decide),
    by decide⟩
/-- Claim C3: for every member count n up to 7, so for every n from 3 to 7, and every outcome of the shuffle,
`createSession` returns, under a session id that no session record had before, a state that
is registered in the map under that id, whose roster has n entries with pairwise distinct
names, the entries being the first n profiles of the shuffle, each a catalog profile, copied
in that order, and whose pointer is 0, round counter 0, ceiling 2n, flags false and
transcript empty. -/
theorem createSession_registers_fresh_mirror (sys : System) (shuffled : List Personality)
    (hperm : shuffled.Perm personalities) (problem difficulty : String) (n : Nat)
    (h7 : n ≤ 7) (now : Nat) :
    ∃ sys1 res, createSession sys shuffled problem difficulty (n : Int) now = .ok (sys1, res) ∧
      (∀ r ∈ sys.db.sessions, r.id ≠ res.sessionId) ∧
      sys1.activeSessions.get res.sessionId = some res.sessionState ∧
      res.participants = res.sessionState.participants ∧
      res.sessionState.participants.length = n ∧
      (res.sessionState.participants.map (fun q => q.name)).Nodup ∧
      (∃ ids : List Nat, ids.length = n ∧
        res.sessionState.participants =
          List.zipWith Participant.ofPersonality ids (shuffled.take n)) ∧
      (∀ p ∈ shuffled.take n, p ∈ personalities) ∧
      res.sessionState.currentSpeakerIndex = .num 0 ∧
      res.sessionState.roundCount = 0 ∧
      res.sessionState.maxRounds = 2 * (n : Int) ∧
      res.sessionState.isPaused = false ∧
      res.sessionState.isComplete = false ∧
      res.sessionState.debateHistory = [] := by
  obtain ⟨db1, hres, -, -, -⟩ := createSession_ok sys shuffled problem difficulty (n : Int) now
  have hlen := sample_length shuffled hperm n h7
  have htake := getRandomPersonalities_of_le shuffled n (by rw [personalities_length]; exact h7)
  refine ⟨_, _, hres, freshSessionId_not_mem sys.db, SessionMap.get_set_self _ _ _, rfl, ?_, ?_,
    ?_, ?_, rfl, rfl, ?_, rfl, rfl, rfl⟩
  · show (newRoster _ _).length = n
    rw [newRoster_length, hlen]
  · show ((newRoster _ _).map _).Nodup
    rw [newRoster_map_name]
    exact sample_names_nodup shuffled hperm n h7
  · refine ⟨List.range' (freshParticipantId sys.db) n, List.length_range' _ _ _, ?_⟩
    show newRoster _ _ = _
    unfold newRoster
    rw [hlen, htake]
  · rw [← htake]
    exact sample_mem_catalog shuffled hperm n h7
  · show (n : Int) * 2 = 2 * (n : Int)
    ring

/-- Claim C3 at n = 3 with the catalog left in its order. -/
theorem createSession_registers_fresh_mirror_witness :
    3 ≤ 7 ∧
    ∃ sys1 res, createSession bootSystem personalities "Is 0.999...=1?" "medium" ((3 : Nat) : Int) 0
        = .ok (sys1, res) ∧
      (∀ r ∈ bootSystem.db.sessions, r.id ≠ res.sessionId) ∧
      sys1.activeSessions.get res.sessionId = some res.sessionState ∧
      res.participants = res.sessionState.participants ∧
      res.sessionState.participants.length = 3 ∧
      (res.sessionState.participants.map (fun q => q.name)).Nodup ∧
      (∃ ids : List Nat, ids.length = 3 ∧
        res.sessionState.participants =
          List.zipWith Participant.ofPersonality ids (personalities.take 3)) ∧
      (∀ p ∈ personalities.take 3, p ∈ personalities) ∧
      res.sessionState.currentSpeakerIndex = .num 0 ∧
      res.sessionState.roundCount = 0 ∧
      res.sessionState.maxRounds = 2 * ((3 : Nat) : Int) ∧
      res.sessionState.isPaused = false ∧
      res.sessionState.isComplete = false ∧
      res.sessionState.debateHistory = [] :=
  ⟨by decide,
    createSession_registers_fresh_mirror bootSystem personalities (List.Perm.refl _)
      "Is 0.999...=1?" "medium" 3 (by decide) 0⟩


/-! ## Rehydration -/


theorem filter_id_length_one (l : List ParticipantRow) (hn : (l.map (fun p => p.id)).Nodup)
    (p : ParticipantRow) (hp : p ∈ l) :
    (l.filter (fun q => q.id == p.id)).length = 1 := by
  induction l with
  | nil => cases hp
  | cons a t ih =>
    rw [List.map_cons, List.nodup_cons] at hn
    by_cases ha : a.id = p.id
    · have h0 : t.filter (fun q => q.id == p.id) = [] := by
        rw [List.filter_eq_nil_iff]
        intro q hq hc
        apply hn.1
        rw [ha, ← (beq_iff_eq).mp hc]
        exact List.mem_map_of_mem (fun p => p.id) hq
      rw [List.filter_cons_of_pos (by simpa using ha), h0]
      rfl
    · rcases List.mem_cons.mp hp with h | h
      · exact absurd (h ▸ rfl) ha
      · rw [List.filter_cons_of_neg (by simpa using ha)]
        exact ih hn.2 h

theorem messageOps.joinAuthor_length (db : Database) (h : db.Coherent) (m : MessageRow)
    (hm : m ∈ db.messages) : (messageOps.joinAuthor db m).length = 1 := by
  obtain ⟨p, hp, hid, -⟩ := h.authors m hm
  unfold messageOps.joinAuthor
  rw [List.length_map, ← hid]
  exact filter_id_length_one db.participants h.participant_ids p hp

theorem flatMap_length_of_one {α β : Type} (f : α → List β) (l : List α)
    (h : ∀ a ∈ l, (f a).length = 1) : (l.flatMap f).length = l.length := by
  induction l with
  | nil => rfl
  | cons a t ih =>
    rw [List.flatMap_cons, List.length_append, h a (List.mem_cons_self _ _),
      ih (fun b hb => h b (List.mem_cons_of_mem _ hb)), List.length_cons]
    omega

/-- Under integrity of the tables the join of `messageOps.getBySessionId` returns one row per
message row of the session. -/
theorem messageOps.getBySessionId_length (db : Database) (h : db.Coherent) (k : Nat) :
    (messageOps.getBySessionId db k).length = messageOps.getCountBySessionId db k := by
  unfold messageOps.getBySessionId messageOps.getCountBySessionId
  rw [List.length_insertionSort]
  apply flatMap_length_of_one
  intro m hm
  exact messageOps.joinAuthor_length db h m (List.mem_of_mem_filter hm)

/-- Claim C4: in every state the process can be in, when no state is resident for a session
id and the store holds the session's record, p active participants with p at least 1 and m
message rows of the session, `getSession` returns a state and registers it under the id, with
a roster of p entries, pointer m mod p, round counter m, ceiling 2p, complete exactly when m
is at least 2p, and not paused. -/
theorem getSession_rehydrates (ai : AIService) (sys : System) (hreach : Reachable ai sys)
    (k : Nat) (row : SessionRow)
    (hnone : sys.activeSessions.get k = none)
    (hrow : sessionOps.getById sys.db k = some row)
    (hp : 1 ≤ (participantOps.getBySessionId sys.db k).length) :
    ∃ (s : SessionState) (sys1 : System), getSession sys k = .ok (sys1, s) ∧
      sys1.db = sys.db ∧
      sys1.activeSessions.get k = some s ∧
      s.participants.length = (participantOps.getBySessionId sys.db k).length ∧
      s.currentSpeakerIndex =
        .num (messageOps.getCountBySessionId sys.db k %
          (participantOps.getBySessionId sys.db k).length) ∧
      s.roundCount = messageOps.getCountBySessionId sys.db k ∧
      s.maxRounds = 2 * ((participantOps.getBySessionId sys.db k).length : Int) ∧
      s.isComplete = decide (2 * (participantOps.getBySessionId sys.db k).length ≤
        messageOps.getCountBySessionId sys.db k) ∧
      s.isPaused = false := by
  have hcoh := (reachable_sound ai sys hreach).1
  have hlen := messageOps.getBySessionId_length sys.db hcoh k
  have hne : (participantOps.getBySessionId sys.db k).length ≠ 0 := by omega
  refine ⟨rehydrate sys.db k row,
    { sys with activeSessions := sys.activeSessions.set k (rehydrate sys.db k row) },
    ?_, rfl, SessionMap.get_set_self _ _ _, ?_, ?_, ?_, ?_, ?_, rfl⟩
  · unfold getSession
    rw [hnone]
    simp only [hrow]
  · simp [DebateManager.rehydrate]
  · simp only [DebateManager.rehydrate, List.length_map, hlen, SpeakerIndex.ofMod, hne, if_false]
  · simp only [DebateManager.rehydrate, hlen]
  · simp only [DebateManager.rehydrate, List.length_map]
    push_cast
    ring
  · simp only [DebateManager.rehydrate, List.length_map, hlen]
    congr 1
    rw [Nat.mul_comm]


/-- Claim C4 at p = 4 and m = 5: a session of four is created, five turns are produced, the
session is paused and the process starts again; `getSession` then gives pointer 1, counter
5, ceiling 8, not complete, not paused. -/
theorem getSession_rehydrates_witness :
    (pausedThenRestarted.activeSessions.get 1 = none ∧
      sessionOps.getById pausedThenRestarted.db 1 =
        some { id := 1, problem := "Is 0.999...=1?", difficulty := "medium", created_at := 0 } ∧
      1 ≤ (participantOps.getBySessionId pausedThenRestarted.db 1).length) ∧
    (∃ (s : SessionState) (sys1 : System), getSession pausedThenRestarted 1 = .ok (sys1, s) ∧
      sys1.db = pausedThenRestarted.db ∧
      sys1.activeSessions.get 1 = some s ∧
      s.participants.length = (participantOps.getBySessionId pausedThenRestarted.db 1).length ∧
      s.currentSpeakerIndex =
        .num (messageOps.getCountBySessionId pausedThenRestarted.db 1 %
          (participantOps.getBySessionId pausedThenRestarted.db 1).length) ∧
      s.roundCount = messageOps.getCountBySessionId pausedThenRestarted.db 1 ∧
      s.maxRounds = 2 * ((participantOps.getBySessionId pausedThenRestarted.db 1).length : Int) ∧
      s.isComplete = decide (2 * (participantOps.getBySessionId pausedThenRestarted.db 1).length ≤
        messageOps.getCountBySessionId pausedThenRestarted.db 1) ∧
      s.isPaused = false) ∧
    ((runAll demoService fourThenFiveTurnsThenPause bootSystem).activeSessions.get 1).map
        (fun s => s.isPaused) = some true ∧
    (getSession pausedThenRestarted 1).toOption.map
        (fun r => (r.2.participants.length, r.2.currentSpeakerIndex, r.2.roundCount,
          r.2.maxRounds, r.2.isComplete, r.2.isPaused)) =
      some (4, SpeakerIndex.num 1, 5, 8, false, false) :=
  ⟨⟨by decide, by decide, by decide⟩,
    getSession_rehydrates demoService pausedThenRestarted
      (Reachable.restart (reachable_runAll demoService _ _ Reachable.boot)) 1
      { id := 1, problem := "Is 0.999...=1?", difficulty := "medium", created_at := 0 }
      (by decide) (by decide) (by decide),
    by decide, by decide⟩

/-! ## Completion -/


/-- Claim C5 as stated fails: after two turns of a session of three, kicking two participants
lowers the ceiling to 2 with the counter at 2 and the session is still not complete; and
after six turns the session is complete, and adding a participant raises the ceiling to 8
above the counter 6 while the session stays complete. -/
theorem complete_iff_ceiling_fails_after_roster_edit :
    ((runAll demoService twoTurnsThenTwoKicks bootSystem).activeSessions.get 1).map
        (fun s => (s.isComplete, s.roundCount, s.maxRounds)) = some (false, 2, 2) ∧
    ((runAll demoService sixTurnsThenAdd bootSystem).activeSessions.get 1).map
        (fun s => (s.isComplete, s.roundCount, s.maxRounds)) = some (true, 6, 8) := by
  constructor <;> decide

/-- The completion equivalence is kept by a turn, a pause and a resume. -/
theorem complete_iff_kept (ai : AIService) (k : Nat) (a : Action) (ha : a.isTurnOrPause = true)
    (sys : System)
    (h : ∃ s, sys.activeSessions.get k = some s ∧
      (s.isComplete = true ↔ s.maxRounds ≤ (s.roundCount : Int))) :
    ∃ s, (a.run ai sys).activeSessions.get k = some s ∧
      (s.isComplete = true ↔ s.maxRounds ≤ (s.roundCount : Int)) := by
  obtain ⟨s, hget, hiff⟩ := h
  cases a with
  | generateNextResponse o now k2 =>
    simp only [Action.run]
    rcases generateNextResponse_cases ai o now sys k2 with ⟨e, he⟩ | he | ⟨s2, cp, db, m, hget2, hc, -, -, -, -, -, he⟩
    · rw [he]; exact ⟨s, hget, hiff⟩
    · rw [he]; exact ⟨s, hget, hiff⟩
    · rw [he]
      simp only [SessionMap.get_set]
      by_cases hk : k = k2
      · subst hk
        exact ⟨afterTurn s2 m, by simp, afterTurn_complete_iff s2 m hc⟩
      · exact ⟨s, by simp [hk, hget], hiff⟩
  | pauseSession k2 =>
    simp only [Action.run, DebateManager.pauseSession]
    cases hget2 : sys.activeSessions.get k2 with
    | none => exact ⟨s, hget, hiff⟩
    | some s2 =>
      simp only [SessionMap.get_set]
      by_cases hk : k = k2
      · subst hk
        rw [hget] at hget2
        cases hget2
        exact ⟨{ s with isPaused := true }, by simp, hiff⟩
      · exact ⟨s, by simp [hk, hget], hiff⟩
  | resumeSession k2 =>
    simp only [Action.run, DebateManager.resumeSession]
    cases hget2 : sys.activeSessions.get k2 with
    | none => exact ⟨s, hget, hiff⟩
    | some s2 =>
      simp only [SessionMap.get_set]
      by_cases hk : k = k2
      · subst hk
        rw [hget] at hget2
        cases hget2
        exact ⟨{ s with isPaused := false }, by simp, hiff⟩
      · exact ⟨s, by simp [hk, hget], hiff⟩
  | createSession _ _ _ _ _ => simp [Action.isTurnOrPause] at ha
  | getSession _ => simp [Action.isTurnOrPause] at ha
  | kickParticipant _ _ => simp [Action.isTurnOrPause] at ha
  | addParticipant _ _ => simp [Action.isTurnOrPause] at ha
  | forceVote _ => simp [Action.isTurnOrPause] at ha
  | deleteSession _ => simp [Action.isTurnOrPause] at ha

theorem complete_iff_kept_runAll (ai : AIService) (k : Nat) (actions : List Action) :
    ∀ sys : System, (∀ a ∈ actions, a.isTurnOrPause = true) →
    (∃ s, sys.activeSessions.get k = some s ∧
      (s.isComplete = true ↔ s.maxRounds ≤ (s.roundCount : Int))) →
    ∃ s, (runAll ai actions sys).activeSessions.get k = some s ∧
      (s.isComplete = true ↔ s.maxRounds ≤ (s.roundCount : Int)) := by
  induction actions with
  | nil => intro sys _ h; exact h
  | cons a rest ih =>
    intro sys ha h
    exact ih (a.run ai sys) (fun b hb => ha b (List.mem_cons_of_mem _ hb))
      (complete_iff_kept ai k a (ha a (List.mem_cons_self _ _)) sys h)

/-- Claim C5, amended: `isComplete` is set only by `generateNextResponse`. In every state
reached from `createSession` with n at least 3 through calls of `generateNextResponse`,
`pauseSession` and `resumeSession`, the session is complete exactly when the round counter
has reached the ceiling; in any state at all, right after a call of `generateNextResponse`
that returns a message the same equivalence holds; and `kickParticipant` and `addParticipant`
leave `isComplete` and the round counter as they were. -/
theorem complete_flag_follows_turns (ai : AIService) (sys : System)
    (shuffled : List Personality) (problem difficulty : String) (n : Nat) (h3 : 3 ≤ n)
    (now : Nat) (actions : List Action) (hacts : ∀ a ∈ actions, a.isTurnOrPause = true) :
    (∃ s, (runAll ai actions
        (Action.run ai (.createSession shuffled problem difficulty (n : Int) now)
          sys)).activeSessions.get (freshSessionId sys.db) = some s ∧
      (s.isComplete = true ↔ s.maxRounds ≤ (s.roundCount : Int))) ∧
    (∀ (sys2 : System) (o : GeneratorOracle) (now2 k : Nat) (r : TurnResult) (m : Message),
      generateNextResponse ai o now2 sys2 k = .ok r → r.message = some m →
      ∃ s, r.system.activeSessions.get k = some s ∧
        (s.isComplete = true ↔ s.maxRounds ≤ (s.roundCount : Int))) ∧
    (∀ (sys2 : System) (k pid : Nat) (s : SessionState), sys2.activeSessions.get k = some s →
      ∃ s1, (kickParticipant sys2 k pid).1.activeSessions.get k = some s1 ∧
        s1.isComplete = s.isComplete ∧ s1.roundCount = s.roundCount) ∧
    (∀ (sys2 : System) (k : Nat) (p : Personality) (s : SessionState)
      (r : System × Participant), sys2.activeSessions.get k = some s →
      addParticipant sys2 k p = .ok r →
      ∃ s1, r.1.activeSessions.get k = some s1 ∧
        s1.isComplete = s.isComplete ∧ s1.roundCount = s.roundCount) := by
  refine ⟨?_, ?_, ?_, ?_⟩
  · apply complete_iff_kept_runAll ai _ actions _ hacts
    obtain ⟨db1, hres, -⟩ := createSession_ok sys shuffled problem difficulty (n : Int) now
    simp only [Action.run, hres]
    refine ⟨_, SessionMap.get_set_self _ _ _, ?_⟩
    show false = true ↔ (n : Int) * 2 ≤ ((0 : Nat) : Int)
    constructor
    · intro h; cases h
    · intro h
      exfalso
      have : (0 : Int) < (n : Int) := by exact_mod_cast (show 0 < n by omega)
      simp only [Nat.cast_zero] at h
      omega
  · intro sys2 o now2 k r m hgen hm
    rcases generateNextResponse_cases ai o now2 sys2 k with
      ⟨e, he⟩ | he | ⟨s2, cp, db, m2, -, hc, -, -, -, -, -, he⟩
    · rw [he] at hgen; cases hgen
    · rw [he] at hgen
      cases hgen
      cases hm
    · rw [he] at hgen
      cases hgen
      exact ⟨afterTurn s2 m2, SessionMap.get_set_self _ _ _, afterTurn_complete_iff s2 m2 hc⟩
  · intro sys2 k pid s hget
    simp only [DebateManager.kickParticipant, hget]
    exact ⟨kickFromState s pid, SessionMap.get_set_self _ _ _, rfl, rfl⟩
  · intro sys2 k p s r hget hadd
    by_cases hs : ∃ row ∈ sys2.db.sessions, row.id = k
    · rw [addParticipant_resident sys2 k p s hget hs] at hadd
      cases hadd
      exact ⟨_, SessionMap.get_set_self _ _ _, rfl, rfl⟩
    · simp only [DebateManager.addParticipant, participant_create_error _ _ _ _ _ hs] at hadd
      cases hadd

/-- Claim C5, amended, on a session of three with a turn, a pause, a resume and a turn. -/
theorem complete_flag_follows_turns_witness :
    (3 ≤ 3 ∧ ∀ a ∈ turnPauseResumeTurn, a.isTurnOrPause = true) ∧
    (∃ s, (runAll demoService turnPauseResumeTurn
        (Action.run demoService
          (.createSession personalities "Is 0.999...=1?" "medium" ((3 : Nat) : Int) 0)
          bootSystem)).activeSessions.get (freshSessionId bootSystem.db) = some s ∧
      (s.isComplete = true ↔ s.maxRounds ≤ (s.roundCount : Int))) :=
  ⟨⟨by decide, by decide⟩,
    (complete_flag_follows_turns demoService bootSystem personalities "Is 0.999...=1?" "medium"
      3 (by decide) 0 turnPauseResumeTurn (by decide)).1⟩


/-- Claim C6: when a session state is resident and complete, it is still resident and
complete after any call of `generateNextResponse`, `pauseSession`, `resumeSession`,
`kickParticipant`, `addParticipant`, `forceVote` or `getSession`, whatever the arguments of
the call and whether or not it throws. -/
theorem complete_is_monotonic (ai : AIService) (sys : System) (k : Nat) (s : SessionState)
    (hget : sys.activeSessions.get k = some s) (hc : s.isComplete = true)
    (a : Action) (ha : a.keepsSessions = true) :
    ∃ s1, (a.run ai sys).activeSessions.get k = some s1 ∧ s1.isComplete = true := by
  cases a with
  | createSession _ _ _ _ _ => simp [Action.keepsSessions] at ha
  | deleteSession _ => simp [Action.keepsSessions] at ha
  | getSession k2 =>
    simp only [Action.run, DebateManager.getSession]
    cases hget2 : sys.activeSessions.get k2 with
    | some s2 => exact ⟨s, hget, hc⟩
    | none =>
      cases hrow : sessionOps.getById sys.db k2 with
      | none => exact ⟨s, hget, hc⟩
      | some row =>
        have hk : k ≠ k2 := by
          intro h
          rw [h, hget2] at hget
          cases hget
        exact ⟨s, by simp [SessionMap.get_set, hk, hget], hc⟩
  | generateNextResponse o now k2 =>
    simp only [Action.run]
    rcases generateNextResponse_cases ai o now sys k2 with
      ⟨e, he⟩ | he | ⟨s2, cp, db, m, hget2, hc2, -, -, -, -, -, he⟩
    · rw [he]; exact ⟨s, hget, hc⟩
    · rw [he]; exact ⟨s, hget, hc⟩
    · rw [he]
      have hk : k ≠ k2 := by
        intro h
        rw [h, hget2] at hget
        cases hget
        rw [hc] at hc2
        cases hc2
      exact ⟨s, by simp [SessionMap.get_set, hk, hget], hc⟩
  | pauseSession k2 =>
    simp only [Action.run, DebateManager.pauseSession]
    cases hget2 : sys.activeSessions.get k2 with
    | none => exact ⟨s, hget, hc⟩
    | some s2 =>
      by_cases hk : k = k2
      · subst hk
        rw [hget] at hget2
        cases hget2
        exact ⟨{ s with isPaused := true }, SessionMap.get_set_self _ _ _, hc⟩
      · exact ⟨s, by simp [SessionMap.get_set, hk, hget], hc⟩
  | resumeSession k2 =>
    simp only [Action.run, DebateManager.resumeSession]
    cases hget2 : sys.activeSessions.get k2 with
    | none => exact ⟨s, hget, hc⟩
    | some s2 =>
      by_cases hk : k = k2
      · subst hk
        rw [hget] at hget2
        cases hget2
        exact ⟨{ s with isPaused := false }, SessionMap.get_set_self _ _ _, hc⟩
      · exact ⟨s, by simp [SessionMap.get_set, hk, hget], hc⟩
  | forceVote k2 =>
    simp only [Action.run, DebateManager.forceVote]
    cases hget2 : sys.activeSessions.get k2 with
    | none => exact ⟨s, hget, hc⟩
    | some s2 =>
      by_cases hk : k = k2
      · subst hk
        exact ⟨{ s2 with isComplete := true }, SessionMap.get_set_self _ _ _, rfl⟩
      · exact ⟨s, by simp [SessionMap.get_set, hk, hget], hc⟩
  | kickParticipant k2 pid =>
    simp only [Action.run, DebateManager.kickParticipant]
    cases hget2 : sys.activeSessions.get k2 with
    | none => exact ⟨s, hget, hc⟩
    | some s2 =>
      by_cases hk : k = k2
      · subst hk
        rw [hget] at hget2
        cases hget2
        exact ⟨kickFromState s pid, SessionMap.get_set_self _ _ _, hc⟩
      · exact ⟨s, by simp [SessionMap.get_set, hk, hget], hc⟩
  | addParticipant k2 p =>
    simp only [Action.run, DebateManager.addParticipant]
    cases hcreate : participantOps.create sys.db k2 p.name p.personality p.specialty with
    | error e => exact ⟨s, hget, hc⟩
    | ok out =>
      simp only
      cases hget2 : sys.activeSessions.get k2 with
      | none => exact ⟨s, hget, hc⟩
      | some s2 =>
        by_cases hk : k = k2
        · subst hk
          rw [hget] at hget2
          cases hget2
          exact ⟨addToState s (Participant.ofPersonality out.2 p),
            SessionMap.get_set_self _ _ _, hc⟩
        · exact ⟨s, by simp [SessionMap.get_set, hk, hget], hc⟩

/-- Claim C6 on the session that completed after six turns, for a call to resume it. -/
theorem complete_is_monotonic_witness :
    (((runAll demoService sixTurns bootSystem).activeSessions.get 1).map
        (fun s => s.isComplete) = some true ∧
      (Action.resumeSession 1).keepsSessions = true) ∧
    ∃ s1, ((Action.resumeSession 1).run demoService
        (runAll demoService sixTurns bootSystem)).activeSessions.get 1 = some s1 ∧
      s1.isComplete = true :=
  ⟨⟨by decide, by decide⟩,
    complete_is_monotonic demoService (runAll demoService sixTurns bootSystem) 1
      (stateOf (runAll demoService sixTurns bootSystem) 1)
      (by decide) (by decide) (.resumeSession 1) (by decide)⟩


/-! ## Roster edits -/


theorem filter_id_ne_self (l : List Participant) (x : Nat)
    (hx : x ∉ l.map (fun q => q.id)) : l.filter (fun q => q.id != x) = l := by
  rw [List.filter_eq_self]
  intro q hq
  have : q.id ≠ x := fun h => hx (h ▸ List.mem_map_of_mem (fun q => q.id) hq)
  simpa using this

/-- On a roster with distinct ids, dropping the entries with the id of the entry at index `j`
removes that entry and nothing else. -/
theorem filter_id_ne_eq_eraseIdx (l : List Participant) (hn : (l.map (fun q => q.id)).Nodup) :
    ∀ (j : Nat) (hj : j < l.length),
      l.filter (fun q => q.id != (l.get ⟨j, hj⟩).id) = l.eraseIdx j := by
  induction l with
  | nil => intro j hj; cases hj
  | cons a t ih =>
    rw [List.map_cons, List.nodup_cons] at hn
    intro j hj
    cases j with
    | zero =>
      simp only [List.get_cons_zero, List.eraseIdx_cons_zero]
      rw [List.filter_cons_of_neg (by simp)]
      exact filter_id_ne_self t a.id hn.1
    | succ i =>
      have hi : i < t.length := by simpa using hj
      simp only [List.get_cons_succ, List.eraseIdx_cons_succ]
      have hne : a.id ≠ (t.get ⟨i, hi⟩).id := by
        intro h
        apply hn.1
        rw [h]
        exact List.mem_map_of_mem (fun q => q.id) (List.get_mem t i hi)
      rw [List.filter_cons_of_pos (by simpa using hne), ih hn.2 i hi]

/-- Claim C7: in every state the process can be in, for a resident session state with a
roster of length n and a participant id that occurs in the roster, `kickParticipant` returns
true and leaves under the same key a state whose roster is the old one with the entry of
that participant erased at its index (no other entry moved or dropped, length n - 1), whose
ceiling is 2(n - 1), whose pointer is 0 if the old pointer p was at least n - 1 and p
otherwise, and whose round counter, flags and transcript are unchanged. -/
theorem kickParticipant_removes_one (ai : AIService) (sys : System) (hreach : Reachable ai sys)
    (k : Nat) (s : SessionState) (hget : sys.activeSessions.get k = some s) (pid : Nat)
    (hmem : ∃ q ∈ s.participants, q.id = pid) :
    (kickParticipant sys k pid).2 = true ∧
    ∃ (s1 : SessionState) (j : Nat) (hj : j < s.participants.length),
      (kickParticipant sys k pid).1.activeSessions.get k = some s1 ∧
      (s.participants.get ⟨j, hj⟩).id = pid ∧
      s1.participants = s.participants.eraseIdx j ∧
      s1.participants.length = s.participants.length - 1 ∧
      s1.maxRounds = 2 * ((s.participants.length - 1 : Nat) : Int) ∧
      (∀ p, s.currentSpeakerIndex = .num p →
        s1.currentSpeakerIndex = if s.participants.length - 1 ≤ p then .num 0 else .num p) ∧
      (s.currentSpeakerIndex = .nan → s1.currentSpeakerIndex = .nan) ∧
      s1.roundCount = s.roundCount ∧ s1.isPaused = s.isPaused ∧
      s1.isComplete = s.isComplete ∧ s1.debateHistory = s.debateHistory := by
  have hl := (reachable_sound ai sys hreach).2 k s hget
  obtain ⟨q, hq, hqid⟩ := hmem
  obtain ⟨⟨j, hj⟩, hjq⟩ := List.mem_iff_get.mp hq
  have hfilter : s.participants.filter (fun q => q.id != pid) = s.participants.eraseIdx j := by
    rw [← hqid, ← hjq]
    exact filter_id_ne_eq_eraseIdx s.participants hl.roster_ids j hj
  have hlen : (s.participants.filter (fun q => q.id != pid)).length =
      s.participants.length - 1 := by
    rw [hfilter, List.length_eraseIdx, if_pos hj]
  refine ⟨?_, kickFromState s pid, j, hj, ?_, ?_, hfilter, hlen, ?_, ?_, ?_, rfl, rfl, rfl, rfl⟩
  · simp only [DebateManager.kickParticipant, hget]
  · simp only [DebateManager.kickParticipant, hget]
    exact SessionMap.get_set_self _ _ _
  · rw [hjq, hqid]
  · show (((s.participants.filter (fun q => q.id != pid)).length * 2 : Nat) : Int) = _
    rw [hlen]
    push_cast
    ring
  · intro p hp
    show (if s.currentSpeakerIndex.ge (s.participants.filter (fun q => q.id != pid)).length
      then SpeakerIndex.num 0 else s.currentSpeakerIndex) = _
    rw [hlen, hp]
    by_cases h : s.participants.length - 1 ≤ p
    · simp [SpeakerIndex.ge, h]
    · simp [SpeakerIndex.ge, h]
  · intro hp
    show (if s.currentSpeakerIndex.ge (s.participants.filter (fun q => q.id != pid)).length
      then SpeakerIndex.num 0 else s.currentSpeakerIndex) = _
    rw [hp]
    simp [SpeakerIndex.ge]

/-- Claim C7 on a session of three after two turns (pointer 2), kicking the participant with
id 1: the roster becomes the entries with ids 2 and 3, the ceiling 4 and the pointer 0. -/
theorem kickParticipant_removes_one_witness :
    ((runAll demoService twoTurns bootSystem).activeSessions.get 1 =
        some (stateOf (runAll demoService twoTurns bootSystem) 1) ∧
      ∃ q ∈ (stateOf (runAll demoService twoTurns bootSystem) 1).participants, q.id = 1) ∧
    ((kickParticipant (runAll demoService twoTurns bootSystem) 1 1).2 = true ∧
      ∃ (s1 : SessionState) (j : Nat)
        (hj : j < (stateOf (runAll demoService twoTurns bootSystem) 1).participants.length),
        (kickParticipant (runAll demoService twoTurns bootSystem) 1 1).1.activeSessions.get 1 =
          some s1 ∧
        ((stateOf (runAll demoService twoTurns bootSystem) 1).participants.get ⟨j, hj⟩).id = 1 ∧
        s1.participants =
          (stateOf (runAll demoService twoTurns bootSystem) 1).participants.eraseIdx j ∧
        s1.participants.length =
          (stateOf (runAll demoService twoTurns bootSystem) 1).participants.length - 1 ∧
        s1.maxRounds = 2 *
          (((stateOf (runAll demoService twoTurns bootSystem) 1).participants.length - 1 : Nat)
            : Int) ∧
        (∀ p, (stateOf (runAll demoService twoTurns bootSystem) 1).currentSpeakerIndex = .num p →
          s1.currentSpeakerIndex =
            if (stateOf (runAll demoService twoTurns bootSystem) 1).participants.length - 1 ≤ p
            then .num 0 else .num p) ∧
        ((stateOf (runAll demoService twoTurns bootSystem) 1).currentSpeakerIndex = .nan →
          s1.currentSpeakerIndex = .nan) ∧
        s1.roundCount = (stateOf (runAll demoService twoTurns bootSystem) 1).roundCount ∧
        s1.isPaused = (stateOf (runAll demoService twoTurns bootSystem) 1).isPaused ∧
        s1.isComplete = (stateOf (runAll demoService twoTurns bootSystem) 1).isComplete ∧
        s1.debateHistory = (stateOf (runAll demoService twoTurns bootSystem) 1).debateHistory) ∧
    ((stateOf (runAll demoService twoTurns bootSystem) 1).participants.map (fun q => q.id),
      (stateOf (runAll demoService twoTurns bootSystem) 1).currentSpeakerIndex) =
        ([1, 2, 3], SpeakerIndex.num 2) ∧
    ((kickParticipant (runAll demoService twoTurns bootSystem) 1 1).1.activeSessions.get 1).map
        (fun s => (s.participants.map (fun q => q.id), s.currentSpeakerIndex, s.maxRounds,
          s.roundCount)) = some ([2, 3], SpeakerIndex.num 0, 4, 2) :=
  ⟨⟨by decide, ⟨(stateOf (runAll demoService twoTurns bootSystem) 1).participants.headD
        (Participant.ofPersonality 0 professorEuclid), by decide, by decide⟩⟩,
    kickParticipant_removes_one demoService (runAll demoService twoTurns bootSystem)
      (reachable_runAll demoService twoTurns _ Reachable.boot) 1
      (stateOf (runAll demoService twoTurns bootSystem) 1) (by decide) 1
      ⟨(stateOf (runAll demoService twoTurns bootSystem) 1).participants.headD
        (Participant.ofPersonality 0 professorEuclid), by decide, by decide⟩,
    by decide, by decide⟩


/-- Claim C8: in every state the process can be in, for a resident session state with a
roster of length n, `addParticipant` returns the new participant, a copy of the given profile
under a new id, and leaves under the same key a state whose roster is the old one followed
by the new participant, whose ceiling is 2(n + 1), and whose pointer, round counter, flags
and transcript are unchanged. -/
theorem addParticipant_appends (ai : AIService) (sys : System) (hreach : Reachable ai sys)
    (k : Nat) (s : SessionState) (hget : sys.activeSessions.get k = some s)
    (personality : Personality) :
    ∃ (sys1 : System) (q : Participant) (s1 : SessionState),
      addParticipant sys k personality = .ok (sys1, q) ∧
      q = Participant.ofPersonality (freshParticipantId sys.db) personality ∧
      (∀ q0 ∈ s.participants, q0.id ≠ q.id) ∧
      sys1.activeSessions.get k = some s1 ∧
      s1.participants = s.participants ++ [q] ∧
      s1.maxRounds = 2 * ((s.participants.length + 1 : Nat) : Int) ∧
      s1.currentSpeakerIndex = s.currentSpeakerIndex ∧
      s1.roundCount = s.roundCount ∧
      s1.isComplete = s.isComplete ∧
      s1.isPaused = s.isPaused ∧
      s1.debateHistory = s.debateHistory := by
  have hl := (reachable_sound ai sys hreach).2 k s hget
  refine ⟨_, _, _, addParticipant_resident sys k personality s hget hl.session_row, rfl, ?_,
    SessionMap.get_set_self _ _ _, rfl, ?_, rfl, rfl, rfl, rfl, rfl⟩
  · intro q0 hq0
    obtain ⟨p, hp, hid, -⟩ := hl.roster_rows q0 hq0
    have h := freshParticipantId_not_mem sys.db p hp
    show q0.id ≠ freshParticipantId sys.db
    omega
  · simp only [DebateManager.addToState, List.length_append, List.length_singleton]
    push_cast
    ring

/-- Claim C8 on a session of three after two turns (ceiling 6, counter 2, pointer 2): after
adding a participant the ceiling is 8, the session is not complete and the pointer is 2. -/
theorem addParticipant_appends_witness :
    ((runAll demoService twoTurns bootSystem).activeSessions.get 1 =
        some (stateOf (runAll demoService twoTurns bootSystem) 1)) ∧
    (∃ (sys1 : System) (q : Participant) (s1 : SessionState),
      addParticipant (runAll demoService twoTurns bootSystem) 1 professorEuclid = .ok (sys1, q) ∧
      q = Participant.ofPersonality
        (freshParticipantId (runAll demoService twoTurns bootSystem).db) professorEuclid ∧
      (∀ q0 ∈ (stateOf (runAll demoService twoTurns bootSystem) 1).participants, q0.id ≠ q.id) ∧
      sys1.activeSessions.get 1 = some s1 ∧
      s1.participants = (stateOf (runAll demoService twoTurns bootSystem) 1).participants ++ [q] ∧
      s1.maxRounds = 2 *
        (((stateOf (runAll demoService twoTurns bootSystem) 1).participants.length + 1 : Nat)
          : Int) ∧
      s1.currentSpeakerIndex =
        (stateOf (runAll demoService twoTurns bootSystem) 1).currentSpeakerIndex ∧
      s1.roundCount = (stateOf (runAll demoService twoTurns bootSystem) 1).roundCount ∧
      s1.isComplete = (stateOf (runAll demoService twoTurns bootSystem) 1).isComplete ∧
      s1.isPaused = (stateOf (runAll demoService twoTurns bootSystem) 1).isPaused ∧
      s1.debateHistory = (stateOf (runAll demoService twoTurns bootSystem) 1).debateHistory) ∧
    ((stateOf (runAll demoService twoTurns bootSystem) 1).maxRounds,
      (stateOf (runAll demoService twoTurns bootSystem) 1).roundCount,
      (stateOf (runAll demoService twoTurns bootSystem) 1).currentSpeakerIndex) =
        (6, 2, SpeakerIndex.num 2) ∧
    ((addParticipant (runAll demoService twoTurns bootSystem) 1 professorEuclid).toOption.bind
        (fun r => r.1.activeSessions.get 1)).map
        (fun s => (s.participants.length, s.maxRounds, s.isComplete, s.currentSpeakerIndex)) =
      some (4, 8, false, SpeakerIndex.num 2) :=
  ⟨by decide,
    addParticipant_appends demoService (runAll demoService twoTurns bootSystem)
      (reachable_runAll demoService twoTurns _ Reachable.boot) 1
      (stateOf (runAll demoService twoTurns bootSystem) 1) (by decide) professorEuclid,
    by decide, by decide⟩


/-! ## The guard of turn production -/


theorem SpeakerIndex.lookup_nil {α : Type} (i : SpeakerIndex) :
    SpeakerIndex.lookup ([] : List α) i = none := by
  cases i <;> rfl

/-- In a state the process can be in, a resident session that is neither complete nor paused
and has a non-empty roster has a speaker under its pointer, and the store holds the session's
record and the speaker's row. -/
theorem active_session_has_speaker (ai : AIService) (sys : System) (hreach : Reachable ai sys)
    (k : Nat) (s : SessionState) (hget : sys.activeSessions.get k = some s)
    (hc : s.isComplete = false) (hne : s.participants ≠ []) :
    ∃ cp, SpeakerIndex.lookup s.participants s.currentSpeakerIndex = some cp ∧
      (∃ r ∈ sys.db.sessions, r.id = k) ∧ (∃ p ∈ sys.db.participants, p.id = cp.id) := by
  have hl := (reachable_sound ai sys hreach).2 k s hget
  have hv : PointerValid s := by
    rcases hl.pointer with h | ⟨-, h⟩
    · exact h
    · rw [hc] at h; cases h
  obtain ⟨cp, hcp⟩ := pointerValid_lookup_isSome s hv hne
  obtain ⟨p, hp, hid, -⟩ := hl.roster_rows cp (SpeakerIndex.lookup_mem _ _ _ hcp)
  exact ⟨cp, hcp, hl.session_row, p, hp, hid⟩

/-- Claim C9: in every state the process can be in, `generateNextResponse` returns `null` if
and only if no session state is resident under the id, or the resident one is complete, or
paused, or has an empty roster; when it does, it has not thrown, has not called the response
generator and has changed neither the store nor the map; in every other case there is a
speaker under the pointer, and when the generator returns a text the call returns a message
with that text, authored by that speaker, after one generator call (the insert into the store
cannot fail there), while a generator that returns `undefined` makes the call throw. -/
theorem generateNextResponse_null_iff_inactive (ai : AIService) (sys : System)
    (hreach : Reachable ai sys) (o : GeneratorOracle) (now k : Nat) :
    ((∃ r, generateNextResponse ai o now sys k = .ok r ∧ r.message = none) ↔
      (sys.activeSessions.get k = none ∨
        ∃ s, sys.activeSessions.get k = some s ∧
          (s.isComplete = true ∨ s.isPaused = true ∨ s.participants = []))) ∧
    ((sys.activeSessions.get k = none ∨
        ∃ s, sys.activeSessions.get k = some s ∧
          (s.isComplete = true ∨ s.isPaused = true ∨ s.participants = [])) →
      generateNextResponse ai o now sys k =
        .ok { system := sys, message := none, generatorCalls := 0 }) ∧
    (¬ (sys.activeSessions.get k = none ∨
        ∃ s, sys.activeSessions.get k = some s ∧
          (s.isComplete = true ∨ s.isPaused = true ∨ s.participants = [])) →
      ∃ (s : SessionState) (cp : Participant),
        sys.activeSessions.get k = some s ∧
        SpeakerIndex.lookup s.participants s.currentSpeakerIndex = some cp ∧
        (∀ text, AIService.generateResponse ai o cp s.problem s.debateHistory s.difficulty =
            some text →
          ∃ (sys1 : System) (m : Message),
            generateNextResponse ai o now sys k =
              .ok { system := sys1, message := some m, generatorCalls := 1 } ∧
            m.participant_id = cp.id ∧ m.name = cp.name ∧ m.session_id = k ∧
            m.content = text) ∧
        (AIService.generateResponse ai o cp s.problem s.debateHistory s.difficulty = none →
          generateNextResponse ai o now sys k = .error .undefinedContent)) := by
  have hin : (sys.activeSessions.get k = none ∨
        ∃ s, sys.activeSessions.get k = some s ∧
          (s.isComplete = true ∨ s.isPaused = true ∨ s.participants = [])) →
      generateNextResponse ai o now sys k =
        .ok { system := sys, message := none, generatorCalls := 0 } := by
    intro h
    apply generateNextResponse_inactive
    intro s hget
    rcases h with h | ⟨s2, hget2, h⟩
    · rw [h] at hget; cases hget
    · rw [hget] at hget2
      cases hget2
      rcases h with h | h | h
      · exact Or.inl h
      · exact Or.inr (Or.inl h)
      · right; right
        rw [h]
        exact SpeakerIndex.lookup_nil _
  have hact : ¬ (sys.activeSessions.get k = none ∨
        ∃ s, sys.activeSessions.get k = some s ∧
          (s.isComplete = true ∨ s.isPaused = true ∨ s.participants = [])) →
      ∃ (s : SessionState) (cp : Participant),
        sys.activeSessions.get k = some s ∧
        SpeakerIndex.lookup s.participants s.currentSpeakerIndex = some cp ∧
        (∀ text, AIService.generateResponse ai o cp s.problem s.debateHistory s.difficulty =
            some text →
          ∃ (sys1 : System) (m : Message),
            generateNextResponse ai o now sys k =
              .ok { system := sys1, message := some m, generatorCalls := 1 } ∧
            m.participant_id = cp.id ∧ m.name = cp.name ∧ m.session_id = k ∧
            m.content = text) ∧
        (AIService.generateResponse ai o cp s.problem s.debateHistory s.difficulty = none →
          generateNextResponse ai o now sys k = .error .undefinedContent) := by
    intro h
    cases hget : sys.activeSessions.get k with
    | none => exact absurd (Or.inl hget) h
    | some s =>
      have hc : s.isComplete = false := by
        cases hx : s.isComplete
        · rfl
        · exact absurd (Or.inr ⟨s, hget, Or.inl hx⟩) h
      have hp : s.isPaused = false := by
        cases hx : s.isPaused
        · rfl
        · exact absurd (Or.inr ⟨s, hget, Or.inr (Or.inl hx)⟩) h
      have hne : s.participants ≠ [] := fun hx => h (Or.inr ⟨s, hget, Or.inr (Or.inr hx)⟩)
      obtain ⟨cp, hcp, hs, hr⟩ := active_session_has_speaker ai sys hreach k s hget hc hne
      refine ⟨s, cp, rfl, hcp, ?_, ?_⟩
      · intro text htext
        exact ⟨_, _,
          generateNextResponse_active ai o now sys k s cp text hget hc hp hcp htext hs hr,
          rfl, rfl, rfl, rfl⟩
      · intro htext
        exact generateNextResponse_undefined ai o now sys k s cp hget hc hp hcp htext
  refine ⟨⟨?_, ?_⟩, hin, hact⟩
  · rintro ⟨r, hr, hm⟩
    by_contra hcon
    obtain ⟨s, cp, -, -, hsome, hnone⟩ := hact hcon
    cases htext : AIService.generateResponse ai o cp s.problem s.debateHistory s.difficulty with
    | none =>
      rw [hnone htext] at hr
      cases hr
    | some text =>
      obtain ⟨sys1, m, hgen, -⟩ := hsome text htext
      rw [hgen] at hr
      cases hr
      cases hm
  · intro h
    exact ⟨_, hin h, rfl⟩

/-- Claim C9 on the session of four that was paused after five turns: the call returns `null`
and changes nothing; and on the session of three after two turns, which is active, the call
returns a message of the participant with id 3, the roster entry under pointer 2. -/
theorem generateNextResponse_null_iff_inactive_witness :
    Reachable demoService (runAll demoService fourThenFiveTurnsThenPause bootSystem) ∧
    (((∃ r, generateNextResponse demoService demoOracle 9 (runAll demoService fourThenFiveTurnsThenPause bootSystem) 1 = .ok r ∧ r.message = none) ↔
      ((runAll demoService fourThenFiveTurnsThenPause bootSystem).activeSessions.get 1 = none ∨
        ∃ s, (runAll demoService fourThenFiveTurnsThenPause bootSystem).activeSessions.get 1 = some s ∧
          (s.isComplete = true ∨ s.isPaused = true ∨ s.participants = []))) ∧
    (((runAll demoService fourThenFiveTurnsThenPause bootSystem).activeSessions.get 1 = none ∨
        ∃ s, (runAll demoService fourThenFiveTurnsThenPause bootSystem).activeSessions.get 1 = some s ∧
          (s.isComplete = true ∨ s.isPaused = true ∨ s.participants = [])) →
      generateNextResponse demoService demoOracle 9 (runAll demoService fourThenFiveTurnsThenPause bootSystem) 1 =
        .ok { system := (runAll demoService fourThenFiveTurnsThenPause bootSystem), message := none, generatorCalls := 0 }) ∧
    (¬ ((runAll demoService fourThenFiveTurnsThenPause bootSystem).activeSessions.get 1 = none ∨
        ∃ s, (runAll demoService fourThenFiveTurnsThenPause bootSystem).activeSessions.get 1 = some s ∧
          (s.isComplete = true ∨ s.isPaused = true ∨ s.participants = [])) →
      ∃ (s : SessionState) (cp : Participant),
        (runAll demoService fourThenFiveTurnsThenPause bootSystem).activeSessions.get 1 = some s ∧
        SpeakerIndex.lookup s.participants s.currentSpeakerIndex = some cp ∧
        (∀ text, AIService.generateResponse demoService demoOracle cp s.problem s.debateHistory
            s.difficulty = some text →
          ∃ (sys1 : System) (m : Message),
            generateNextResponse demoService demoOracle 9 (runAll demoService fourThenFiveTurnsThenPause bootSystem) 1 =
              .ok { system := sys1, message := some m, generatorCalls := 1 } ∧
            m.participant_id = cp.id ∧ m.name = cp.name ∧ m.session_id = 1 ∧
            m.content = text) ∧
        (AIService.generateResponse demoService demoOracle cp s.problem s.debateHistory
            s.difficulty = none →
          generateNextResponse demoService demoOracle 9 (runAll demoService fourThenFiveTurnsThenPause bootSystem) 1 = .error .undefinedContent))) ∧
    generateNextResponse demoService demoOracle 9 (runAll demoService fourThenFiveTurnsThenPause bootSystem) 1 =
      .ok { system := (runAll demoService fourThenFiveTurnsThenPause bootSystem), message := none, generatorCalls := 0 } ∧
    (generateNextResponse demoService demoOracle 9 (runAll demoService twoTurns bootSystem)
        1).toOption.map (fun r => (r.message.map (fun m => m.participant_id), r.generatorCalls)) =
      some (some 3, 1) :=
  ⟨reachable_runAll demoService fourThenFiveTurnsThenPause _ Reachable.boot,
    generateNextResponse_null_iff_inactive demoService (runAll demoService fourThenFiveTurnsThenPause bootSystem)
      (reachable_runAll demoService fourThenFiveTurnsThenPause _ Reachable.boot) demoOracle 9 1,
    by rfl, by decide⟩

/-! ## Session deletion -/


theorem SessionMap.get_eq_none_iff (m : SessionMap) (k : Nat) :
    SessionMap.get m k = none ↔ ∀ e ∈ m, e.1 ≠ k := by
  unfold SessionMap.get
  rw [Option.map_eq_none', List.find?_eq_none]
  constructor
  · intro h e he hk
    exact h e he (by simpa using hk)
  · intro h e he hk
    exact h e he (by simpa using hk)

/-- Deleting a session that has no entry in the map and no row in any table changes nothing. -/
theorem deleteSession_absent (sys : System) (k : Nat)
    (hmap : sys.activeSessions.get k = none)
    (hs : ∀ r ∈ sys.db.sessions, r.id ≠ k)
    (hp : ∀ p ∈ sys.db.participants, p.session_id ≠ k)
    (hm : ∀ m ∈ sys.db.messages, m.session_id ≠ k) :
    deleteSession sys k = (sys, true) := by
  have h1 : sys.activeSessions.delete k = sys.activeSessions := by
    unfold SessionMap.delete
    rw [List.filter_eq_self]
    intro e he
    have := (SessionMap.get_eq_none_iff _ _).mp hmap e he
    simpa using this
  have h2 : sys.db.sessions.filter (fun r => r.id != k) = sys.db.sessions := by
    rw [List.filter_eq_self]
    intro r hr
    simpa using hs r hr
  have h3 : sys.db.participants.filter (fun p => p.session_id != k) = sys.db.participants := by
    rw [List.filter_eq_self]
    intro p hp1
    simpa using hp p hp1
  have h4 : sys.db.messages.filter (fun m => m.session_id != k) = sys.db.messages := by
    rw [List.filter_eq_self]
    intro m hm1
    simpa using hm m hm1
  have h5 : sys.db.messages.filter (fun m =>
      !(sys.db.participants.any (fun p => p.id == m.participant_id && p.session_id == k))) =
      sys.db.messages := by
    rw [List.filter_eq_self]
    intro m _
    simp only [Bool.not_eq_true', Bool.eq_false_iff]
    intro hc
    obtain ⟨p, hp1, hcond⟩ := List.any_eq_true.mp hc
    simp only [Bool.and_eq_true, beq_iff_eq] at hcond
    exact hp p hp1 hcond.2
  have h6 : sys.db.messages.filter (fun m => m.session_id != k &&
      !(sys.db.participants.any (fun p => p.id == m.participant_id && p.session_id == k))) =
      sys.db.messages := by
    rw [List.filter_eq_self]
    intro m hm1
    have a1 := (List.filter_eq_self.mp h4) m hm1
    have a2 := (List.filter_eq_self.mp h5) m hm1
    simp only [Bool.and_eq_true]
    exact ⟨a1, a2⟩
  unfold deleteSession
  simp only [messageOps.deleteBySessionId, participantOps.deleteBySessionId, sessionOps.delete,
    h1, h2, h3, h4, h5, h6]

theorem filter_other_key {α : Type} (l : List α) (f : α → Nat) (k k2 : Nat) (h : k2 ≠ k) :
    (l.filter (fun x => f x != k)).filter (fun x => f x == k2) =
      l.filter (fun x => f x == k2) := by
  rw [List.filter_filter]
  apply List.filter_congr
  intro x _
  by_cases hx : f x = k2
  · have : f x ≠ k := fun hc => h (hx ▸ hc)
    simp [hx, this, h]
  · simp [hx]

/-- Claim C10: in every state the process can be in and for every session id, `deleteSession`
returns true and leaves no session state under the id, no message row, no participant row
(active or not) and no session record of that id; the session state and the rows of every
other id are as before; a second `deleteSession` of the same id returns true and leaves the
state exactly as the first did; and for an id without session state and without rows the
call returns true and changes nothing. -/
theorem deleteSession_removes_session (ai : AIService) (sys : System)
    (hreach : Reachable ai sys) (k : Nat) :
    (deleteSession sys k).2 = true ∧
    (deleteSession sys k).1.activeSessions.get k = none ∧
    (∀ m ∈ (deleteSession sys k).1.db.messages, m.session_id ≠ k) ∧
    (∀ p ∈ (deleteSession sys k).1.db.participants, p.session_id ≠ k) ∧
    (∀ r ∈ (deleteSession sys k).1.db.sessions, r.id ≠ k) ∧
    (∀ k2, k2 ≠ k →
      (deleteSession sys k).1.activeSessions.get k2 = sys.activeSessions.get k2 ∧
      (deleteSession sys k).1.db.sessions.filter (fun r => r.id == k2) =
        sys.db.sessions.filter (fun r => r.id == k2) ∧
      (deleteSession sys k).1.db.participants.filter (fun p => p.session_id == k2) =
        sys.db.participants.filter (fun p => p.session_id == k2) ∧
      (deleteSession sys k).1.db.messages.filter (fun m => m.session_id == k2) =
        sys.db.messages.filter (fun m => m.session_id == k2)) ∧
    deleteSession (deleteSession sys k).1 k = ((deleteSession sys k).1, true) ∧
    (sys.activeSessions.get k = none → (∀ r ∈ sys.db.sessions, r.id ≠ k) →
      (∀ p ∈ sys.db.participants, p.session_id ≠ k) →
      (∀ m ∈ sys.db.messages, m.session_id ≠ k) → deleteSession sys k = (sys, true)) := by
  obtain ⟨hs, hp, hm, hmap, hret⟩ := deleteSession_db sys k
  have hmsg := deleteSession_messages sys (reachable_sound ai sys hreach).1 k
  have h1 : (deleteSession sys k).1.activeSessions.get k = none := by
    rw [hmap, SessionMap.get_delete]
    simp
  have h2 : ∀ m ∈ (deleteSession sys k).1.db.messages, m.session_id ≠ k :=
    fun m hmem => (hm m hmem).2
  have h3 : ∀ p ∈ (deleteSession sys k).1.db.participants, p.session_id ≠ k := by
    intro p hmem
    rw [hp] at hmem
    simpa using (List.mem_filter.mp hmem).2
  have h4 : ∀ r ∈ (deleteSession sys k).1.db.sessions, r.id ≠ k := by
    intro r hmem
    rw [hs] at hmem
    simpa using (List.mem_filter.mp hmem).2
  refine ⟨hret, h1, h2, h3, h4, ?_, deleteSession_absent _ k h1 h4 h3 h2,
    deleteSession_absent sys k⟩
  intro k2 hk
  refine ⟨?_, ?_, ?_, ?_⟩
  · rw [hmap, SessionMap.get_delete, if_neg hk]
  · rw [hs]
    exact filter_other_key sys.db.sessions (fun r => r.id) k k2 hk
  · rw [hp]
    exact filter_other_key sys.db.participants (fun p => p.session_id) k k2 hk
  · rw [hmsg]
    exact filter_other_key sys.db.messages (fun m => m.session_id) k k2 hk

/-- Claim C10 on a process with two sessions of three, one message each: deleting session 1
leaves one session record, three participant rows and one message row, those of session 2,
and session 2 stays resident. -/
theorem deleteSession_removes_session_witness :
    Reachable demoService (runAll demoService twoSessions bootSystem) ∧
    ((deleteSession (runAll demoService twoSessions bootSystem) 1).2 = true ∧
    (deleteSession (runAll demoService twoSessions bootSystem) 1).1.activeSessions.get 1 = none ∧
    (∀ m ∈ (deleteSession (runAll demoService twoSessions bootSystem) 1).1.db.messages, m.session_id ≠ 1) ∧
    (∀ p ∈ (deleteSession (runAll demoService twoSessions bootSystem) 1).1.db.participants, p.session_id ≠ 1) ∧
    (∀ r ∈ (deleteSession (runAll demoService twoSessions bootSystem) 1).1.db.sessions, r.id ≠ 1) ∧
    (∀ k2, k2 ≠ 1 →
      (deleteSession (runAll demoService twoSessions bootSystem) 1).1.activeSessions.get k2 = (runAll demoService twoSessions bootSystem).activeSessions.get k2 ∧
      (deleteSession (runAll demoService twoSessions bootSystem) 1).1.db.sessions.filter (fun r => r.id == k2) =
        (runAll demoService twoSessions bootSystem).db.sessions.filter (fun r => r.id == k2) ∧
      (deleteSession (runAll demoService twoSessions bootSystem) 1).1.db.participants.filter (fun p => p.session_id == k2) =
        (runAll demoService twoSessions bootSystem).db.participants.filter (fun p => p.session_id == k2) ∧
      (deleteSession (runAll demoService twoSessions bootSystem) 1).1.db.messages.filter (fun m => m.session_id == k2) =
        (runAll demoService twoSessions bootSystem).db.messages.filter (fun m => m.session_id == k2)) ∧
    deleteSession (deleteSession (runAll demoService twoSessions bootSystem) 1).1 1 = ((deleteSession (runAll demoService twoSessions bootSystem) 1).1, true) ∧
    ((runAll demoService twoSessions bootSystem).activeSessions.get 1 = none → (∀ r ∈ (runAll demoService twoSessions bootSystem).db.sessions, r.id ≠ 1) →
      (∀ p ∈ (runAll demoService twoSessions bootSystem).db.participants, p.session_id ≠ 1) →
      (∀ m ∈ (runAll demoService twoSessions bootSystem).db.messages, m.session_id ≠ 1) → deleteSession (runAll demoService twoSessions bootSystem) 1 = ((runAll demoService twoSessions bootSystem), true))) ∧
    ((runAll demoService twoSessions bootSystem).db.sessions.length, (runAll demoService twoSessions bootSystem).db.participants.length, (runAll demoService twoSessions bootSystem).db.messages.length) = (2, 6, 2) ∧
    ((deleteSession (runAll demoService twoSessions bootSystem) 1).1.db.sessions.map (fun r => r.id),
      (deleteSession (runAll demoService twoSessions bootSystem) 1).1.db.participants.map (fun p => p.session_id),
      (deleteSession (runAll demoService twoSessions bootSystem) 1).1.db.messages.map (fun m => m.session_id),
      (deleteSession (runAll demoService twoSessions bootSystem) 1).1.activeSessions.map (fun e => e.1)) = ([2], [2, 2, 2], [2], [2]) :=
  ⟨reachable_runAll demoService twoSessions _ Reachable.boot,
    deleteSession_removes_session demoService (runAll demoService twoSessions bootSystem)
      (reachable_runAll demoService twoSessions _ Reachable.boot) 1,
    by decide, by decide⟩

/-- Why claim C10 is stated on the states the process can be in: on a database that the
program cannot have written, where a message of session 2 names a participant of session 1
as its author, deleting session 1 also deletes that message, through the cascade on
`messages.participant_id`. -/
theorem deleteSession_cascade_on_foreign_author :
    foreignAuthorSystem.db.messages.map (fun m => m.session_id) = [2] ∧
    (deleteSession foreignAuthorSystem 1).1.db.messages = [] ∧
    ¬ foreignAuthorSystem.db.Coherent := by
  refine ⟨by decide, by decide, ?_⟩
  intro h
  obtain ⟨p, hp, -, hsid⟩ := h.authors
    { id := 1, session_id := 2, participant_id := 1, content := "c", created_at := 0 }
    (by decide)
  simp only [foreignAuthorSystem, List.mem_singleton] at hp
  rw [hp] at hsid
  simp at hsid

/-! ## Outcomes of a call -/


/-- The three ways a call of `generateNextResponse` can end, with the state after a recorded
turn written out. -/
theorem generateNextResponse_turn (ai : AIService) (o : GeneratorOracle) (now : Nat)
    (sys : System) (k : Nat) :
    (∃ e, generateNextResponse ai o now sys k = .error e) ∨
    generateNextResponse ai o now sys k =
      .ok { system := sys, message := none, generatorCalls := 0 } ∨
    (∃ (s : SessionState) (cp : Participant) (text : String),
      sys.activeSessions.get k = some s ∧ s.isComplete = false ∧ s.isPaused = false ∧
      SpeakerIndex.lookup s.participants s.currentSpeakerIndex = some cp ∧
      (∃ r ∈ sys.db.sessions, r.id = k) ∧
      generateNextResponse ai o now sys k =
        .ok { system :=
                { db := appendMessage sys.db k cp.id text now,
                  activeSessions := sys.activeSessions.set k
                    (afterTurn s (turnMessage
                      (nextRowid sys.db.seqMessages (sys.db.messages.map (fun r => r.id)))
                      k cp text now)) },
              message := some (turnMessage
                (nextRowid sys.db.seqMessages (sys.db.messages.map (fun r => r.id)))
                k cp text now),
              generatorCalls := 1 }) := by
  rcases generateNextResponse_cases ai o now sys k with he | he | ⟨s, cp, db, m, hget, hc, hp, hcp, -, -, -, he⟩
  · exact Or.inl he
  · exact Or.inr (Or.inl he)
  · cases htext : AIService.generateResponse ai o cp s.problem s.debateHistory s.difficulty with
    | none =>
      rw [generateNextResponse_undefined ai o now sys k s cp hget hc hp hcp htext] at he
      cases he
    | some text =>
      by_cases hrows : (∃ r ∈ sys.db.sessions, r.id = k) ∧
          (∃ p ∈ sys.db.participants, p.id = cp.id)
      · right; right
        exact ⟨s, cp, text, hget, hc, hp, hcp, hrows.1,
          generateNextResponse_active ai o now sys k s cp text hget hc hp hcp htext
            hrows.1 hrows.2⟩
      · exfalso
        have hg : ¬ ((s.isComplete || s.isPaused) = true) := by simp [hc, hp]
        unfold generateNextResponse at he
        rw [hget] at he
        simp only at he
        rw [if_neg hg, hcp] at he
        simp only at he
        rw [htext] at he
        simp only at he
        have : messageOps.create sys.db k cp.id text now = .error .foreignKey := by
          unfold messageOps.create
          have hb : (sys.db.sessions.any (fun r => r.id == k) &&
              sys.db.participants.any (fun p => p.id == cp.id)) = false := by
            rw [Bool.eq_false_iff]
            intro hc2
            simp only [Bool.and_eq_true, List.any_eq_true, beq_iff_eq] at hc2
            exact hrows hc2
          rw [hb]
          rfl
        rw [this] at he
        cases he

/-- The two ways a call of `addParticipant` can end. -/
theorem addParticipant_cases (sys : System) (k : Nat) (personality : Personality) :
    ((¬ ∃ r ∈ sys.db.sessions, r.id = k) ∧
      addParticipant sys k personality = .error .foreignKey) ∨
    ((∃ r ∈ sys.db.sessions, r.id = k) ∧
      addParticipant sys k personality =
        .ok ({ db := appendParticipant sys.db k personality,
               activeSessions :=
                 match sys.activeSessions.get k with
                 | some s => sys.activeSessions.set k
                     (addToState s (Participant.ofPersonality (freshParticipantId sys.db)
                       personality))
                 | none => sys.activeSessions },
             Participant.ofPersonality (freshParticipantId sys.db) personality)) := by
  by_cases hs : ∃ r ∈ sys.db.sessions, r.id = k
  · right
    refine ⟨hs, ?_⟩
    unfold addParticipant
    rw [participant_create_ok _ _ _ _ _ hs]
    cases sys.activeSessions.get k <;> rfl
  · left
    refine ⟨hs, ?_⟩
    unfold addParticipant
    rw [participant_create_error _ _ _ _ _ hs]


/-! ## Retrieval of a resident session -/


/-- Claim C11: when a session state is resident under the id, `getSession` returns that state
and the process state it was called in, unchanged, whatever the database holds (also one
with other messages or participants of the session, or with no record of it); and a
`getSession` that returned is followed by a `getSession` of the same id that returns the same
state and changes nothing. -/
theorem getSession_returns_resident (sys : System) (k : Nat) (s : SessionState)
    (hget : sys.activeSessions.get k = some s) :
    getSession sys k = .ok (sys, s) ∧
    (∀ db : Database,
      getSession { db := db, activeSessions := sys.activeSessions } k =
        .ok ({ db := db, activeSessions := sys.activeSessions }, s)) ∧
    (∀ (sys0 : System) (k0 : Nat) (r : System × SessionState),
      getSession sys0 k0 = .ok r → getSession r.1 k0 = .ok r) := by
  have key : ∀ (sys0 : System) (k0 : Nat) (s0 : SessionState),
      sys0.activeSessions.get k0 = some s0 → getSession sys0 k0 = .ok (sys0, s0) := by
    intro sys0 k0 s0 h0
    unfold getSession
    rw [h0]
  refine ⟨key sys k s hget, fun db => key _ k s hget, ?_⟩
  intro sys0 k0 r hr
  cases h0 : sys0.activeSessions.get k0 with
  | some s0 =>
    rw [key sys0 k0 s0 h0] at hr
    cases hr
    exact key sys0 k0 s0 h0
  | none =>
    unfold getSession at hr
    rw [h0] at hr
    cases hrow : sessionOps.getById sys0.db k0 with
    | none =>
      rw [hrow] at hr
      cases hr
    | some row =>
      rw [hrow] at hr
      cases hr
      exact key _ k0 _ (SessionMap.get_set_self _ _ _)

/-- Claim C11 on a resident session whose record is not in the database. -/
theorem getSession_returns_resident_witness :
    (residentWithoutRecord.activeSessions.get 1 = some (stateOf residentWithoutRecord 1) ∧
      sessionOps.getById residentWithoutRecord.db 1 = none) ∧
    (getSession residentWithoutRecord 1 =
        .ok (residentWithoutRecord, stateOf residentWithoutRecord 1) ∧
    (∀ db : Database,
      getSession { db := db, activeSessions := residentWithoutRecord.activeSessions } 1 =
        .ok ({ db := db, activeSessions := residentWithoutRecord.activeSessions },
          stateOf residentWithoutRecord 1)) ∧
    (∀ (sys0 : System) (k0 : Nat) (r : System × SessionState),
      getSession sys0 k0 = .ok r → getSession r.1 k0 = .ok r)) :=
  ⟨⟨by decide, by decide⟩,
    getSession_returns_resident residentWithoutRecord 1 (stateOf residentWithoutRecord 1)
      (by decide)⟩


/-! ## Fallback of the response generator -/


theorem newRows_name (sid : Nat) (ps : List Personality) :
    ∀ (base : Nat), ∀ r ∈ newRows sid base ps, ∃ p ∈ ps, p.name = r.name := by
  induction ps with
  | nil => intro base r hr; simp [newRows] at hr
  | cons p rest ih =>
    intro base r hr
    simp only [newRows, List.length_cons, List.range'_succ, List.zipWith_cons_cons,
      List.mem_cons] at hr
    rcases hr with hr | hr
    · subst hr
      exact ⟨p, List.mem_cons_self _ _, rfl⟩
    · obtain ⟨q, hq, hn⟩ := ih (base + 1) r hr
      exact ⟨q, List.mem_cons_of_mem _ hq, hn⟩

theorem newRoster_name (base : Nat) (ps : List Personality) :
    ∀ q ∈ newRoster base ps, ∃ p ∈ ps, p.name = q.name := by
  intro q hq
  have h1 : q.name ∈ (newRoster base ps).map (fun q => q.name) := List.mem_map_of_mem _ hq
  rw [newRoster_map_name] at h1
  obtain ⟨p, hp, hn⟩ := List.mem_map.mp h1
  exact ⟨p, hp, hn⟩

theorem getRandomPersonalities_subset (shuffled : List Personality) (count : Int) :
    ∀ p ∈ getRandomPersonalities shuffled count, p ∈ shuffled := by
  intro p hp
  unfold getRandomPersonalities sliceFromZero at hp
  split at hp
  · exact List.mem_of_mem_take hp
  · exact List.mem_of_mem_take hp

theorem catalogNames_after_run (ai : AIService) (a : Action) (ha : a.fromCatalog)
    (sys : System) (h : CatalogNames sys) : CatalogNames (a.run ai sys) := by
  cases a with
  | createSession shuffled problem difficulty memberCount now =>
    have hperm : shuffled.Perm personalities := ha
    have hsub : ∀ p ∈ getRandomPersonalities shuffled memberCount, p ∈ personalities :=
      fun p hp => hperm.subset (getRandomPersonalities_subset shuffled memberCount p hp)
    obtain ⟨db1, hres, -, -, hp⟩ :=
      createSession_ok sys shuffled problem difficulty memberCount now
    simp only [Action.run, hres]
    refine ⟨?_, ?_⟩
    · intro r hr
      have hr2 : r ∈ db1.participants := hr
      rw [hp] at hr2
      rcases List.mem_append.mp hr2 with h1 | h1
      · exact h.rows r h1
      · obtain ⟨p, hp1, hn⟩ := newRows_name _ _ _ r h1
        exact ⟨p, hsub p hp1, hn⟩
    · intro k s hget q hq
      have hget2 : (sys.activeSessions.set (freshSessionId sys.db) _).get k = some s := hget
      rw [SessionMap.get_set] at hget2
      split at hget2
      · have hs := Option.some.inj hget2
        subst hs
        obtain ⟨p, hp1, hn⟩ := newRoster_name _ _ q hq
        exact ⟨p, hsub p hp1, hn⟩
      · exact h.rosters k s hget2 q hq
  | getSession k =>
    simp only [Action.run, DebateManager.getSession]
    cases hres : sys.activeSessions.get k with
    | some s => exact h
    | none =>
      cases hrow : sessionOps.getById sys.db k with
      | none => exact h
      | some row =>
        refine ⟨h.rows, ?_⟩
        intro k2 s hget q hq
        have hget2 : (sys.activeSessions.set k (rehydrate sys.db k row)).get k2 = some s := hget
        rw [SessionMap.get_set] at hget2
        split at hget2
        · have hs := Option.some.inj hget2
          subst hs
          have hq2 : q ∈ (participantOps.getBySessionId sys.db k).map Participant.ofRow := hq
          obtain ⟨r, hr, hqr⟩ := List.mem_map.mp hq2
          have hr2 : r ∈ sys.db.participants := by
            unfold participantOps.getBySessionId at hr
            exact (List.mem_filter.mp hr).1
          obtain ⟨p, hp1, hn⟩ := h.rows r hr2
          refine ⟨p, hp1, ?_⟩
          rw [hn, ← hqr]
          rfl
        · exact h.rosters k2 s hget2 q hq
  | generateNextResponse o now k =>
    simp only [Action.run]
    rcases generateNextResponse_turn ai o now sys k with
      ⟨e, he⟩ | he | ⟨s, cp, text, hget, -, -, -, -, he⟩
    · rw [he]; exact h
    · rw [he]; exact h
    · rw [he]
      refine ⟨h.rows, ?_⟩
      intro k2 s2 hget2 q hq
      have hget3 : (sys.activeSessions.set k _).get k2 = some s2 := hget2
      rw [SessionMap.get_set] at hget3
      split at hget3
      · have hs := Option.some.inj hget3
        subst hs
        exact h.rosters k s hget q hq
      · exact h.rosters k2 s2 hget3 q hq
  | pauseSession k =>
    simp only [Action.run, DebateManager.pauseSession]
    cases hres : sys.activeSessions.get k with
    | none => exact h
    | some s =>
      refine ⟨h.rows, ?_⟩
      intro k2 s2 hget2 q hq
      have hget3 : (sys.activeSessions.set k _).get k2 = some s2 := hget2
      rw [SessionMap.get_set] at hget3
      split at hget3
      · have hs := Option.some.inj hget3
        subst hs
        exact h.rosters k s hres q hq
      · exact h.rosters k2 s2 hget3 q hq
  | resumeSession k =>
    simp only [Action.run, DebateManager.resumeSession]
    cases hres : sys.activeSessions.get k with
    | none => exact h
    | some s =>
      refine ⟨h.rows, ?_⟩
      intro k2 s2 hget2 q hq
      have hget3 : (sys.activeSessions.set k _).get k2 = some s2 := hget2
      rw [SessionMap.get_set] at hget3
      split at hget3
      · have hs := Option.some.inj hget3
        subst hs
        exact h.rosters k s hres q hq
      · exact h.rosters k2 s2 hget3 q hq
  | forceVote k =>
    simp only [Action.run, DebateManager.forceVote]
    cases hres : sys.activeSessions.get k with
    | none => exact h
    | some s =>
      refine ⟨h.rows, ?_⟩
      intro k2 s2 hget2 q hq
      have hget3 : (sys.activeSessions.set k _).get k2 = some s2 := hget2
      rw [SessionMap.get_set] at hget3
      split at hget3
      · have hs := Option.some.inj hget3
        subst hs
        exact h.rosters k s hres q hq
      · exact h.rosters k2 s2 hget3 q hq
  | kickParticipant k pid =>
    have hrows : ∀ r ∈ (participantOps.deactivate sys.db pid).participants,
        ∃ p ∈ personalities, p.name = r.name := by
      intro r hr
      simp only [participantOps.deactivate, List.mem_map] at hr
      obtain ⟨r0, hr0, rfl⟩ := hr
      obtain ⟨p, hp1, hn⟩ := h.rows r0 hr0
      refine ⟨p, hp1, ?_⟩
      rw [hn]
      split <;> rfl
    simp only [Action.run, DebateManager.kickParticipant]
    cases hres : sys.activeSessions.get k with
    | none => exact ⟨hrows, h.rosters⟩
    | some s =>
      refine ⟨hrows, ?_⟩
      intro k2 s2 hget2 q hq
      have hget3 : (sys.activeSessions.set k (kickFromState s pid)).get k2 = some s2 := hget2
      rw [SessionMap.get_set] at hget3
      split at hget3
      · have hs := Option.some.inj hget3
        subst hs
        have hq2 : q ∈ s.participants.filter (fun p => p.id != pid) := hq
        exact h.rosters k s hres q (List.mem_filter.mp hq2).1
      · exact h.rosters k2 s2 hget3 q hq
  | addParticipant k personality =>
    have hin : personality ∈ personalities := ha
    simp only [Action.run]
    rcases addParticipant_cases sys k personality with ⟨-, he⟩ | ⟨-, he⟩
    · rw [he]; exact h
    · rw [he]
      have hrows : ∀ r ∈ (appendParticipant sys.db k personality).participants,
          ∃ p ∈ personalities, p.name = r.name := by
        intro r hr
        simp only [appendParticipant, List.mem_append, List.mem_singleton] at hr
        rcases hr with hr | hr
        · exact h.rows r hr
        · subst hr
          exact ⟨personality, hin, rfl⟩
      cases hres : sys.activeSessions.get k with
      | none => exact ⟨hrows, h.rosters⟩
      | some s =>
        refine ⟨hrows, ?_⟩
        intro k2 s2 hget2 q hq
        have hget3 : (sys.activeSessions.set k (addToState s
            (Participant.ofPersonality (freshParticipantId sys.db) personality))).get k2 =
            some s2 := hget2
        rw [SessionMap.get_set] at hget3
        split at hget3
        · have hs := Option.some.inj hget3
          subst hs
          have hq2 : q ∈ s.participants ++
              [Participant.ofPersonality (freshParticipantId sys.db) personality] := hq
          rcases List.mem_append.mp hq2 with hq3 | hq3
          · exact h.rosters k s hres q hq3
          · rw [List.mem_singleton] at hq3
            subst hq3
            exact ⟨personality, hin, rfl⟩
        · exact h.rosters k2 s2 hget3 q hq
  | deleteSession k =>
    simp only [Action.run]
    obtain ⟨-, hp, -, hmap, -⟩ := deleteSession_db sys k
    refine ⟨?_, ?_⟩
    · intro r hr
      rw [hp] at hr
      exact h.rows r (List.mem_filter.mp hr).1
    · intro k2 s2 hget2 q hq
      rw [hmap, SessionMap.get_delete] at hget2
      split at hget2
      · cases hget2
      · exact h.rosters k2 s2 hget2 q hq

/-- Driven by `server.js`, the process only ever holds participants with catalog names. -/
theorem served_catalogNames (ai : AIService) (sys : System) (h : Served ai sys) :
    CatalogNames sys := by
  induction h with
  | boot =>
    refine ⟨?_, ?_⟩
    · intro r hr
      simp [Database.empty] at hr
    · intro k s hget
      rw [SessionMap.get_nil] at hget
      cases hget
  | restart _ ih =>
    refine ⟨ih.rows, ?_⟩
    intro k s hget
    rw [SessionMap.get_nil] at hget
    cases hget
  | step a ha _ ih => exact catalogNames_after_run ai a ha _ ih

theorem served_reachable (ai : AIService) (sys : System) (h : Served ai sys) :
    Reachable ai sys := by
  induction h with
  | boot => exact Reachable.boot
  | restart _ ih => exact Reachable.restart ih
  | step a _ _ ih => exact Reachable.step a ih

theorem served_runAll (ai : AIService) (actions : List Action) :
    ∀ sys, (∀ a ∈ actions, a.fromCatalog) → Served ai sys →
      Served ai (runAll ai actions sys) := by
  induction actions with
  | nil => intro sys _ h; exact h
  | cons a rest ih =>
    intro sys ha h
    exact ih _ (fun b hb => ha b (List.mem_cons_of_mem _ hb))
      (Served.step a (ha a (List.mem_cons_self _ _)) h)

/-- A catalog name is not the name of an inherited property. -/
theorem catalog_names_not_inherited :
    ∀ p ∈ personalities, p.name ∉ AIService.inheritedKeys := by decide

/-- The fallback where it works: in every state the process can be in, for a resident session
that is neither complete nor paused, with speaker `cp` under the pointer `p`, a speaker whose
name is not the name of an inherited property, and a generator call made without API key or
with a failing request: `generateNextResponse` returns a message authored by the speaker
whose content is one of the texts of the speaker's name in the table, or of Professor Euclid
for a name outside the table; the message row is appended to the store, the round counter
goes up by one and the pointer to `(p + 1) mod` roster length. -/
theorem fallback_turn_for_plain_names (ai : AIService) (sys : System)
    (hreach : Reachable ai sys) (o : GeneratorOracle) (now k : Nat) (s : SessionState)
    (cp : Participant) (p : Nat)
    (hget : sys.activeSessions.get k = some s)
    (hc : s.isComplete = false) (hp : s.isPaused = false)
    (hptr : s.currentSpeakerIndex = .num p)
    (hcp : s.participants.get? p = some cp)
    (hfail : ai.apiKey.getD "" = "" ∨ o.backendReply = none)
    (hname : cp.name ∉ AIService.inheritedKeys) :
    ∃ (sys1 : System) (m : Message) (s1 : SessionState) (row : MessageRow),
      generateNextResponse ai o now sys k =
        .ok { system := sys1, message := some m, generatorCalls := 1 } ∧
      m.participant_id = cp.id ∧ m.name = cp.name ∧ m.session_id = k ∧
      m.content ∈ (match AIService.responses.lookup cp.name with
        | some texts => texts
        | none => (AIService.responses.lookup "Professor Euclid").getD []) ∧
      sys1.db.messages = sys.db.messages ++ [row] ∧
      row.id = m.id ∧ row.session_id = k ∧ row.participant_id = cp.id ∧
      row.content = m.content ∧
      sys1.activeSessions.get k = some s1 ∧
      s1.roundCount = s.roundCount + 1 ∧
      s1.currentSpeakerIndex = .num ((p + 1) % s.participants.length) ∧
      s1.participants = s.participants := by
  have hlook : SpeakerIndex.lookup s.participants s.currentSpeakerIndex = some cp := by
    rw [hptr]; exact hcp
  have hlen : p < s.participants.length := (List.get?_eq_some.mp hcp).1
  have hl := (reachable_sound ai sys hreach).2 k s hget
  obtain ⟨r, hr, hid, -⟩ := hl.roster_rows cp (List.get?_mem hcp)
  have hfb := generateResponse_fallback ai o cp s.problem s.debateHistory s.difficulty hfail
  obtain ⟨text, htext, hmem⟩ : ∃ text,
      AIService.generateSimulatedResponse o.randomBits cp = some text ∧
      text ∈ (match AIService.responses.lookup cp.name with
        | some texts => texts
        | none => (AIService.responses.lookup "Professor Euclid").getD []) := by
    cases hlk : AIService.responses.lookup cp.name with
    | some texts => exact generateSimulatedResponse_of_table o.randomBits cp texts hlk
    | none => exact generateSimulatedResponse_of_unknown o.randomBits cp hlk hname
  refine ⟨_, _, _, _,
    generateNextResponse_active ai o now sys k s cp text hget hc hp hlook (hfb.trans htext)
      hl.session_row ⟨r, hr, hid⟩,
    rfl, rfl, rfl, hmem, rfl, rfl, rfl, rfl, rfl, SessionMap.get_set_self _ _ _, rfl, ?_, rfl⟩
  show s.currentSpeakerIndex.advance s.participants.length = _
  rw [hptr]
  have hne : s.participants.length ≠ 0 := by omega
  simp only [SpeakerIndex.advance, SpeakerIndex.ofMod, hne, if_false]

theorem threeTurnsThenAdd_fromCatalog : ∀ a ∈ threeTurnsThenAdd, a.fromCatalog := by
  intro a ha
  simp only [threeTurnsThenAdd, List.mem_cons, List.mem_singleton, List.not_mem_nil,
    or_false] at ha
  rcases ha with rfl | rfl | rfl | rfl | rfl
  · exact List.Perm.refl _
  · trivial
  · trivial
  · trivial
  · show professorEuclid ∈ personalities
    decide

/-- Claim C12: for a resident session that is neither complete nor paused and has a
non-empty roster, in every state the process is in when it is driven by `server.js`, and
also in every state a direct caller of the orchestrator can bring it to as long as no roster
name is the name of an inherited property, a generator call made without API key or with a
failing request does not fail the turn: the pointer is an index `p` of the roster with speaker
`cp`, `generateNextResponse` returns a message authored by `cp` whose content is one of the
texts of the speaker's name in the table, or of Professor Euclid for a name outside the table,
the message row is appended to the store, the round counter goes up by one and the pointer
to `(p + 1) mod` roster length. Driven by `server.js` the speaker's name is always in the
table. -/
theorem fallback_turn_on_backend_failure (ai : AIService) (sys : System)
    (o : GeneratorOracle) (now k : Nat) (s : SessionState)
    (hstate : Served ai sys ∨
      (Reachable ai sys ∧ ∀ q ∈ s.participants, q.name ∉ AIService.inheritedKeys))
    (hget : sys.activeSessions.get k = some s)
    (hc : s.isComplete = false) (hp : s.isPaused = false) (hne : s.participants ≠ [])
    (hfail : ai.apiKey.getD "" = "" ∨ o.backendReply = none) :
    ∃ (p : Nat) (cp : Participant) (sys1 : System) (m : Message) (s1 : SessionState)
        (row : MessageRow),
      s.currentSpeakerIndex = .num p ∧ s.participants.get? p = some cp ∧
      generateNextResponse ai o now sys k =
        .ok { system := sys1, message := some m, generatorCalls := 1 } ∧
      m.participant_id = cp.id ∧ m.name = cp.name ∧ m.session_id = k ∧
      m.content ∈ (match AIService.responses.lookup cp.name with
        | some texts => texts
        | none => (AIService.responses.lookup "Professor Euclid").getD []) ∧
      (Served ai sys → (AIService.responses.lookup cp.name).isSome = true) ∧
      sys1.db.messages = sys.db.messages ++ [row] ∧
      row.id = m.id ∧ row.session_id = k ∧ row.participant_id = cp.id ∧
      row.content = m.content ∧
      sys1.activeSessions.get k = some s1 ∧
      s1.roundCount = s.roundCount + 1 ∧
      s1.currentSpeakerIndex = .num ((p + 1) % s.participants.length) ∧
      s1.participants = s.participants := by
  have hreach : Reachable ai sys := by
    rcases hstate with hs | ⟨hr, -⟩
    · exact served_reachable ai sys hs
    · exact hr
  obtain ⟨cp, hlook, -, -⟩ := active_session_has_speaker ai sys hreach k s hget hc hne
  obtain ⟨p, hptr, -, hcp⟩ := SpeakerIndex.lookup_eq_some _ _ _ hlook
  have hmem : cp ∈ s.participants := List.get?_mem hcp
  have hname : cp.name ∉ AIService.inheritedKeys := by
    rcases hstate with hs | ⟨-, hn⟩
    · obtain ⟨q, hq, hqn⟩ := (served_catalogNames ai sys hs).rosters k s hget cp hmem
      rw [← hqn]
      exact catalog_names_not_inherited q hq
    · exact hn cp hmem
  obtain ⟨sys1, m, s1, row, h1, h2, h3, h4, h5, h6, h7, h8, h9, h10, h11, h12, h13, h14⟩ :=
    fallback_turn_for_plain_names ai sys hreach o now k s cp p hget hc hp hptr hcp hfail hname
  refine ⟨p, cp, sys1, m, s1, row, hptr, hcp, h1, h2, h3, h4, h5, ?_, h6, h7, h8, h9, h10,
    h11, h12, h13, h14⟩
  intro hs
  obtain ⟨q, hq, hqn⟩ := (served_catalogNames ai sys hs).rosters k s hget cp hmem
  rw [← hqn]
  exact catalog_names_in_table q hq

/-- Claim C12 on a session of three after three turns and the addition of a fourth
participant from the catalog (counter 3, pointer 0), with the backend down: the turn returns
Professor Euclid's first text, authored by participant 1, the counter goes to 4 and the
pointer to 1. -/
theorem fallback_turn_on_backend_failure_witness :
    ((Served demoService (runAll demoService threeTurnsThenAdd bootSystem) ∨
        (Reachable demoService (runAll demoService threeTurnsThenAdd bootSystem) ∧
          ∀ q ∈ (stateOf (runAll demoService threeTurnsThenAdd bootSystem) 1).participants,
            q.name ∉ AIService.inheritedKeys)) ∧
      (runAll demoService threeTurnsThenAdd bootSystem).activeSessions.get 1 =
        some (stateOf (runAll demoService threeTurnsThenAdd bootSystem) 1) ∧
      (stateOf (runAll demoService threeTurnsThenAdd bootSystem) 1).isComplete = false ∧
      (stateOf (runAll demoService threeTurnsThenAdd bootSystem) 1).isPaused = false ∧
      (stateOf (runAll demoService threeTurnsThenAdd bootSystem) 1).participants ≠ [] ∧
      (demoService.apiKey.getD "" = "" ∨ demoOracle.backendReply = none)) ∧
    (∃ (p : Nat) (cp : Participant) (sys1 : System) (m : Message) (s1 : SessionState)
        (row : MessageRow),
      (stateOf (runAll demoService threeTurnsThenAdd bootSystem) 1).currentSpeakerIndex =
        .num p ∧
      (stateOf (runAll demoService threeTurnsThenAdd bootSystem) 1).participants.get? p =
        some cp ∧
      generateNextResponse demoService demoOracle 4
          (runAll demoService threeTurnsThenAdd bootSystem) 1 =
        .ok { system := sys1, message := some m, generatorCalls := 1 } ∧
      m.participant_id = cp.id ∧ m.name = cp.name ∧ m.session_id = 1 ∧
      m.content ∈ (match AIService.responses.lookup cp.name with
        | some texts => texts
        | none => (AIService.responses.lookup "Professor Euclid").getD []) ∧
      (Served demoService (runAll demoService threeTurnsThenAdd bootSystem) →
        (AIService.responses.lookup cp.name).isSome = true) ∧
      sys1.db.messages = (runAll demoService threeTurnsThenAdd bootSystem).db.messages ++ [row] ∧
      row.id = m.id ∧ row.session_id = 1 ∧ row.participant_id = cp.id ∧
      row.content = m.content ∧
      sys1.activeSessions.get 1 = some s1 ∧
      s1.roundCount =
        (stateOf (runAll demoService threeTurnsThenAdd bootSystem) 1).roundCount + 1 ∧
      s1.currentSpeakerIndex = .num ((p + 1) %
        (stateOf (runAll demoService threeTurnsThenAdd bootSystem) 1).participants.length) ∧
      s1.participants =
        (stateOf (runAll demoService threeTurnsThenAdd bootSystem) 1).participants) ∧
    (generateNextResponse demoService demoOracle 4
        (runAll demoService threeTurnsThenAdd bootSystem) 1).toOption.map
      (fun r => (r.message.map (fun m => (m.participant_id, m.name, m.content)),
        (r.system.activeSessions.get 1).map
          (fun s => (s.participants.length, s.roundCount, s.currentSpeakerIndex)))) =
      some (some (1, "Professor Euclid",
          "From a geometric perspective, I believe we should approach this systematically with rigorous proof."),
        some (4, 4, SpeakerIndex.num 1)) :=
  ⟨⟨Or.inl (served_runAll demoService threeTurnsThenAdd _ threeTurnsThenAdd_fromCatalog
        Served.boot),
      by decide, by decide, by decide, by decide, Or.inr rfl⟩,
    fallback_turn_on_backend_failure demoService
      (runAll demoService threeTurnsThenAdd bootSystem) demoOracle 4 1
      (stateOf (runAll demoService threeTurnsThenAdd bootSystem) 1)
      (Or.inl (served_runAll demoService threeTurnsThenAdd _ threeTurnsThenAdd_fromCatalog
        Served.boot))
      (by decide) (by decide) (by decide) (by decide) (Or.inr rfl),
    by decide⟩

/-- The edge of the fallback, outside what `server.js` can ask for: a direct caller adds to a
session of three a profile named "constructor", a name outside the table, and after three
turns the pointer is on that participant; the session is neither complete nor paused, and
without API key the generator returns `undefined` for that speaker, so `generateNextResponse`
throws: no message is returned or stored, and the round counter and the pointer stay where
they were. -/
theorem inherited_name_yields_undefined :
    ((runAll demoService inheritedNameRun bootSystem).activeSessions.get 1).map
        (fun s => (s.isComplete, s.isPaused, s.roundCount, s.currentSpeakerIndex,
          (SpeakerIndex.lookup s.participants s.currentSpeakerIndex).map (fun q => q.name))) =
      some (false, false, 3, SpeakerIndex.num 3, some "constructor") ∧
    AIService.responses.lookup "constructor" = none ∧
    AIService.generateResponse demoService demoOracle
        (Participant.ofPersonality 4 constructorProfile) "Is 0.999...=1?" [] "medium" = none ∧
    generateNextResponse demoService demoOracle 4
        (runAll demoService inheritedNameRun bootSystem) 1 = .error .undefinedContent ∧
    Action.run demoService (.generateNextResponse demoOracle 4 1)
        (runAll demoService inheritedNameRun bootSystem) =
      runAll demoService inheritedNameRun bootSystem := by
  refine ⟨by decide, by decide, by decide, by rfl, by rfl⟩


/-! ## Sampling from the catalog -/


theorem personalities_nodup : personalities.Nodup := by decide

theorem getRandomPersonalities_eq_take (shuffled : List Personality) (n : Nat) :
    getRandomPersonalities shuffled (n : Int) = shuffled.take (min n 7) := by
  unfold getRandomPersonalities sliceFromZero
  rw [personalities_length]
  have h1 : min (n : Int) ((7 : Nat) : Int) = ((min n 7 : Nat) : Int) := by
    rcases Nat.le_total n 7 with h | h
    · rw [min_eq_left (by exact_mod_cast h), Nat.min_eq_left h]
    · rw [min_eq_right (by exact_mod_cast h), Nat.min_eq_right h]
  rw [h1]
  have h2 : ¬ (((min n 7 : Nat) : Int) < 0) := by omega
  rw [if_neg h2, Int.toNat_ofNat]

/-- Claim C13: for every natural number n and every outcome of the shuffle, that is every
rearrangement of the catalog, `getRandomPersonalities(n)` returns min(n, 7) profiles, pairwise
distinct, with pairwise distinct names, all of them catalog profiles, namely the first
min(n, 7) of the shuffled copy; for n at least 7 the result is a rearrangement of the whole
catalog. The function is total, so no error is raised, and the catalog is a constant: the
code sorts a copy of it. -/
theorem getRandomPersonalities_sample (shuffled : List Personality)
    (hperm : shuffled.Perm personalities) (n : Nat) :
    (getRandomPersonalities shuffled (n : Int)).length = min n 7 ∧
    (getRandomPersonalities shuffled (n : Int)).Nodup ∧
    ((getRandomPersonalities shuffled (n : Int)).map (fun p => p.name)).Nodup ∧
    (∀ p ∈ getRandomPersonalities shuffled (n : Int), p ∈ personalities) ∧
    getRandomPersonalities shuffled (n : Int) = shuffled.take (min n 7) ∧
    (7 ≤ n → (getRandomPersonalities shuffled (n : Int)).Perm personalities) := by
  have hlen : shuffled.length = 7 := by rw [hperm.length_eq, personalities_length]
  have heq := getRandomPersonalities_eq_take shuffled n
  refine ⟨?_, ?_, ?_, ?_, heq, ?_⟩
  · rw [heq, List.length_take, hlen]
    omega
  · rw [heq]
    exact List.Nodup.sublist (List.take_sublist _ _) (hperm.nodup_iff.mpr personalities_nodup)
  · rw [heq]
    have h1 : (shuffled.map (fun p => p.name)).Nodup :=
      ((hperm.map _).nodup_iff).mpr personalities_names_nodup
    exact List.Nodup.sublist (List.Sublist.map _ (List.take_sublist _ shuffled)) h1
  · rw [heq]
    intro p hp
    exact hperm.subset (List.mem_of_mem_take hp)
  · intro h7
    rw [heq, Nat.min_eq_right h7, List.take_of_length_le (by omega)]
    exact hperm

/-- Claim C13 at n = 9 with the catalog reversed by the shuffle: the whole catalog comes
back, in the reversed order. -/
theorem getRandomPersonalities_sample_witness :
    personalities.reverse.Perm personalities ∧
    ((getRandomPersonalities personalities.reverse ((9 : Nat) : Int)).length = min 9 7 ∧
    (getRandomPersonalities personalities.reverse ((9 : Nat) : Int)).Nodup ∧
    ((getRandomPersonalities personalities.reverse ((9 : Nat) : Int)).map
      (fun p => p.name)).Nodup ∧
    (∀ p ∈ getRandomPersonalities personalities.reverse ((9 : Nat) : Int), p ∈ personalities) ∧
    getRandomPersonalities personalities.reverse ((9 : Nat) : Int) =
      personalities.reverse.take (min 9 7) ∧
    (7 ≤ 9 → (getRandomPersonalities personalities.reverse ((9 : Nat) : Int)).Perm
      personalities)) ∧
    (getRandomPersonalities personalities.reverse 2).map (fun p => p.name) =
      ["Professor Infinity", "Dr. Algorithm"] :=
  ⟨List.reverse_perm _,
    getRandomPersonalities_sample personalities.reverse (List.reverse_perm _) 9,
    by decide⟩


/-! ## Restart consistency -/


theorem foreignKeys_after_run (ai : AIService) (a : Action) (sys : System)
    (h : sys.db.ForeignKeys) : (a.run ai sys).db.ForeignKeys := by
  cases a with
  | createSession shuffled problem difficulty memberCount now =>
    obtain ⟨db1, hres, hs, hm, hp⟩ :=
      createSession_ok sys shuffled problem difficulty memberCount now
    simp only [Action.run, hres]
    refine ⟨?_, ?_⟩
    · intro p hp1
      have hp2 : p ∈ db1.participants := hp1
      rw [hp] at hp2
      show ∃ r ∈ db1.sessions, r.id = p.session_id
      rw [hs]
      rcases List.mem_append.mp hp2 with h1 | h1
      · obtain ⟨r, hr, hid⟩ := h.participants p h1
        exact ⟨r, List.mem_append_left _ hr, hid⟩
      · refine ⟨_, List.mem_append_right _ (List.mem_singleton_self _), ?_⟩
        exact (newRows_session_id _ _ _ p h1).symm
    · intro m hm1
      have hm2 : m ∈ db1.messages := hm1
      rw [hm] at hm2
      show ∃ r ∈ db1.sessions, r.id = m.session_id
      rw [hs]
      obtain ⟨r, hr, hid⟩ := h.messages m hm2
      exact ⟨r, List.mem_append_left _ hr, hid⟩
  | getSession k =>
    simp only [Action.run, DebateManager.getSession]
    cases sys.activeSessions.get k with
    | some s => exact h
    | none =>
      cases sessionOps.getById sys.db k with
      | none => exact h
      | some row => exact h
  | generateNextResponse o now k =>
    simp only [Action.run]
    rcases generateNextResponse_turn ai o now sys k with
      ⟨e, he⟩ | he | ⟨s, cp, text, -, -, -, -, hrow, he⟩
    · rw [he]; exact h
    · rw [he]; exact h
    · rw [he]
      refine ⟨h.participants, ?_⟩
      intro m hm
      simp only [appendMessage, List.mem_append, List.mem_singleton] at hm
      rcases hm with hm | hm
      · exact h.messages m hm
      · subst hm
        exact hrow
  | pauseSession k =>
    simp only [Action.run, DebateManager.pauseSession]
    cases sys.activeSessions.get k <;> exact h
  | resumeSession k =>
    simp only [Action.run, DebateManager.resumeSession]
    cases sys.activeSessions.get k <;> exact h
  | forceVote k =>
    simp only [Action.run, DebateManager.forceVote]
    cases sys.activeSessions.get k <;> exact h
  | kickParticipant k pid =>
    have hdb : (Action.run ai (.kickParticipant k pid) sys).db =
        participantOps.deactivate sys.db pid := by
      simp only [Action.run, DebateManager.kickParticipant]
      cases sys.activeSessions.get k <;> rfl
    rw [hdb]
    refine ⟨?_, h.messages⟩
    intro p hp
    simp only [participantOps.deactivate, List.mem_map] at hp
    obtain ⟨p0, hp0, rfl⟩ := hp
    obtain ⟨r, hr, hid⟩ := h.participants p0 hp0
    refine ⟨r, hr, ?_⟩
    rw [hid]
    split <;> rfl
  | addParticipant k personality =>
    simp only [Action.run]
    rcases addParticipant_cases sys k personality with ⟨-, he⟩ | ⟨hrow, he⟩
    · rw [he]; exact h
    · rw [he]
      refine ⟨?_, h.messages⟩
      intro p hp
      simp only [appendParticipant, List.mem_append, List.mem_singleton] at hp
      rcases hp with hp | hp
      · exact h.participants p hp
      · subst hp
        exact hrow
  | deleteSession k =>
    simp only [Action.run]
    obtain ⟨hs, hp, hm, -, -⟩ := deleteSession_db sys k
    refine ⟨?_, ?_⟩
    · intro p hp1
      rw [hp] at hp1
      obtain ⟨hp2, hcond⟩ := List.mem_filter.mp hp1
      obtain ⟨r, hr, hid⟩ := h.participants p hp2
      refine ⟨r, ?_, hid⟩
      rw [hs]
      refine List.mem_filter.mpr ⟨hr, ?_⟩
      rw [hid]
      exact hcond
    · intro m hm1
      obtain ⟨hm2, hne⟩ := hm m hm1
      obtain ⟨r, hr, hid⟩ := h.messages m hm2
      refine ⟨r, ?_, hid⟩
      rw [hs]
      refine List.mem_filter.mpr ⟨hr, ?_⟩
      rw [hid]
      simpa using hne

/-- In every state the process can be in the foreign keys on `session_id` hold. -/
theorem reachable_foreignKeys (ai : AIService) (sys : System) (h : Reachable ai sys) :
    sys.db.ForeignKeys := by
  induction h with
  | boot =>
    refine ⟨?_, ?_⟩
    · intro p hp
      simp [Database.empty] at hp
    · intro m hm
      simp [Database.empty] at hm
  | restart _ ih => exact ih
  | step a _ ih => exact foreignKeys_after_run ai a _ ih


theorem newRows_is_active (sid base : Nat) (ps : List Personality) :
    ∀ r ∈ newRows sid base ps, r.is_active = true := by
  induction ps generalizing base with
  | nil => simp [newRows]
  | cons p ps ih =>
    intro r hr
    simp only [newRows, List.length_cons, List.range'_succ, List.zipWith_cons_cons,
      List.mem_cons] at hr
    rcases hr with hr | hr
    · rw [hr]
    · exact ih (base + 1) r hr

/-- The state `createSession` registers agrees with the store. -/
theorem synced_createSession (ai : AIService) (sys : System) (hfk : sys.db.ForeignKeys)
    (shuffled : List Personality) (hperm : shuffled.Perm personalities)
    (problem difficulty : String) (n : Nat) (h7 : n ≤ 7) (now : Nat) :
    ∃ s, Synced (Action.run ai (.createSession shuffled problem difficulty (n : Int) now) sys)
        (freshSessionId sys.db) s ∧
      s = initialState (freshSessionId sys.db) problem difficulty
        (newRoster (freshParticipantId sys.db) (getRandomPersonalities shuffled (n : Int)))
        (n : Int) ∧
      s.participants.length = n := by
  obtain ⟨db1, hres, hs, hm, hp⟩ := createSession_ok sys shuffled problem difficulty (n : Int) now
  have hlen : (newRoster (freshParticipantId sys.db)
      (getRandomPersonalities shuffled (n : Int))).length = n := by
    rw [newRoster_length, sample_length shuffled hperm n h7]
  refine ⟨_, ?_, rfl, hlen⟩
  simp only [Action.run, hres]
  refine ⟨SessionMap.get_set_self _ _ _, ?_, ?_, ?_⟩
  · show (newRoster _ _).map _ = (participantOps.getBySessionId db1 _).map _
    unfold participantOps.getBySessionId
    rw [hp, List.filter_append]
    have h1 : sys.db.participants.filter
        (fun p => p.session_id == freshSessionId sys.db && p.is_active) = [] := by
      rw [List.filter_eq_nil_iff]
      intro p hp1 hc
      simp only [Bool.and_eq_true, beq_iff_eq] at hc
      obtain ⟨r, hr, hid⟩ := hfk.participants p hp1
      exact freshSessionId_not_mem sys.db r hr (hid.trans hc.1)
    have h2 : (newRows (freshSessionId sys.db) (freshParticipantId sys.db)
        (getRandomPersonalities shuffled (n : Int))).filter
        (fun p => p.session_id == freshSessionId sys.db && p.is_active) =
        newRows (freshSessionId sys.db) (freshParticipantId sys.db)
          (getRandomPersonalities shuffled (n : Int)) := by
      rw [List.filter_eq_self]
      intro r hr
      simp only [Bool.and_eq_true, beq_iff_eq]
      exact ⟨newRows_session_id _ _ _ r hr, newRows_is_active _ _ _ r hr⟩
    rw [h1, h2, List.nil_append, newRoster_map_id, newRows_map_id]
  · show 0 = messageOps.getCountBySessionId db1 _
    unfold messageOps.getCountBySessionId
    rw [hm]
    have h1 : sys.db.messages.filter (fun m => m.session_id == freshSessionId sys.db) = [] := by
      rw [List.filter_eq_nil_iff]
      intro m hm1 hc
      simp only [beq_iff_eq] at hc
      obtain ⟨r, hr, hid⟩ := hfk.messages m hm1
      exact freshSessionId_not_mem sys.db r hr (hid.trans hc)
    rw [h1]
    rfl
  · show (n : Int) * 2 = 2 * ((newRoster _ _).length : Int)
    rw [hlen]
    ring

theorem getBySessionId_deactivate (db : Database) (k pid : Nat) :
    (participantOps.getBySessionId (participantOps.deactivate db pid) k).map (fun r => r.id) =
      ((participantOps.getBySessionId db k).map (fun r => r.id)).filter (fun i => i != pid) := by
  unfold participantOps.getBySessionId participantOps.deactivate
  simp only
  induction db.participants with
  | nil => rfl
  | cons a t ih =>
    simp only [List.map_cons, List.filter_cons]
    by_cases ha : a.id = pid
    · by_cases hk : (a.session_id == k && a.is_active) = true
      · simp only [ha, if_true, Bool.and_false, Bool.false_eq_true, if_false, hk, List.map_cons,
          List.filter_cons, bne_self_eq_false]
        exact ih
      · simp only [ha, if_true, Bool.and_false, Bool.false_eq_true, if_false, hk]
        exact ih
    · by_cases hk : (a.session_id == k && a.is_active) = true
      · have hne : (a.id != pid) = true := by simpa using ha
        simp only [ha, if_false, hk, if_true, List.map_cons, List.filter_cons, hne]
        rw [ih]
      · simp only [ha, if_false, hk, Bool.false_eq_true]
        exact ih

theorem roster_ids_filter (l : List Participant) (pid : Nat) :
    (l.filter (fun q => q.id != pid)).map (fun q => q.id) =
      (l.map (fun q => q.id)).filter (fun i => i != pid) := by
  rw [List.filter_map]
  rfl

theorem getCount_appendMessage (db : Database) (k pid : Nat) (text : String) (now : Nat) :
    messageOps.getCountBySessionId (appendMessage db k pid text now) k =
      messageOps.getCountBySessionId db k + 1 := by
  unfold messageOps.getCountBySessionId appendMessage
  simp only [List.filter_append, List.length_append]
  rw [List.filter_cons_of_pos (by simp)]
  rfl

theorem getBySessionId_appendParticipant (db : Database) (k : Nat) (personality : Personality) :
    (participantOps.getBySessionId (appendParticipant db k personality) k).map (fun r => r.id) =
      (participantOps.getBySessionId db k).map (fun r => r.id) ++ [freshParticipantId db] := by
  unfold participantOps.getBySessionId appendParticipant
  simp only [List.filter_append, List.map_append]
  rw [List.filter_cons_of_pos (by simp)]
  rfl

/-- A turn, an add or a kick on session `k` keeps its resident state in agreement with the
store. -/
theorem synced_after_run (ai : AIService) (k : Nat) (a : Action)
    (ha : a.isTurnOrEditOf k = true) (sys : System) (s : SessionState) (h : Synced sys k s) :
    ∃ s1, Synced (a.run ai sys) k s1 := by
  cases a with
  | generateNextResponse o now k2 =>
    have hk : k2 = k := by simpa [Action.isTurnOrEditOf] using ha
    subst hk
    simp only [Action.run]
    rcases generateNextResponse_turn ai o now sys k2 with
      ⟨e, he⟩ | he | ⟨s0, cp, text, hget, -, -, -, -, he⟩
    · rw [he]; exact ⟨s, h⟩
    · rw [he]; exact ⟨s, h⟩
    · rw [he]
      have hs : s0 = s := by
        have := h.resident
        rw [hget] at this
        exact Option.some.inj this
      subst hs
      refine ⟨_, SessionMap.get_set_self _ _ _, ?_, ?_, ?_⟩
      · exact h.roster
      · show s0.roundCount + 1 = _
        rw [getCount_appendMessage, h.counter]
      · exact h.ceiling
  | addParticipant k2 personality =>
    have hk : k2 = k := by simpa [Action.isTurnOrEditOf] using ha
    subst hk
    simp only [Action.run]
    rcases addParticipant_cases sys k2 personality with ⟨-, he⟩ | ⟨-, he⟩
    · rw [he]; exact ⟨s, h⟩
    · rw [he]
      simp only [h.resident]
      refine ⟨_, SessionMap.get_set_self _ _ _, ?_, ?_, ?_⟩
      · show (s.participants ++ [_]).map _ = _
        rw [getBySessionId_appendParticipant, List.map_append, h.roster]
        rfl
      · exact h.counter
      · simp only [DebateManager.addToState, List.length_append, List.length_singleton]
        push_cast
        ring
  | kickParticipant k2 pid =>
    have hk : k2 = k := by simpa [Action.isTurnOrEditOf] using ha
    subst hk
    simp only [Action.run, DebateManager.kickParticipant, h.resident]
    refine ⟨_, SessionMap.get_set_self _ _ _, ?_, ?_, ?_⟩
    · show (s.participants.filter (fun q => q.id != pid)).map _ = _
      rw [getBySessionId_deactivate, roster_ids_filter, h.roster]
    · exact h.counter
    · simp only [DebateManager.kickFromState]
      push_cast
      ring
  | createSession _ _ _ _ _ => simp [Action.isTurnOrEditOf] at ha
  | getSession _ => simp [Action.isTurnOrEditOf] at ha
  | pauseSession _ => simp [Action.isTurnOrEditOf] at ha
  | resumeSession _ => simp [Action.isTurnOrEditOf] at ha
  | forceVote _ => simp [Action.isTurnOrEditOf] at ha
  | deleteSession _ => simp [Action.isTurnOrEditOf] at ha

theorem synced_after_runAll (ai : AIService) (k : Nat) (actions : List Action) :
    ∀ (sys : System) (s : SessionState), (∀ a ∈ actions, a.isTurnOrEditOf k = true) →
      Synced sys k s → ∃ s1, Synced (runAll ai actions sys) k s1 := by
  induction actions with
  | nil => intro sys s _ h; exact ⟨s, h⟩
  | cons a rest ih =>
    intro sys s ha h
    obtain ⟨s1, h1⟩ := synced_after_run ai k a (ha a (List.mem_cons_self _ _)) sys s h
    exact ih (a.run ai sys) s1 (fun b hb => ha b (List.mem_cons_of_mem _ hb)) h1

/-- A turn on session `k` keeps the pointer at the round counter modulo the roster length. -/
theorem tracks_after_run (ai : AIService) (k : Nat) (a : Action) (ha : a.isTurnOf k = true)
    (sys : System)
    (h : ∃ s, sys.activeSessions.get k = some s ∧
      s.currentSpeakerIndex = SpeakerIndex.ofMod s.roundCount s.participants.length) :
    ∃ s, (a.run ai sys).activeSessions.get k = some s ∧
      s.currentSpeakerIndex = SpeakerIndex.ofMod s.roundCount s.participants.length := by
  obtain ⟨s, hget, ht⟩ := h
  cases a with
  | generateNextResponse o now k2 =>
    have hk : k2 = k := by simpa [Action.isTurnOf] using ha
    subst hk
    simp only [Action.run]
    rcases generateNextResponse_turn ai o now sys k2 with
      ⟨e, he⟩ | he | ⟨s0, cp, text, hget0, -, -, hcp, -, he⟩
    · rw [he]; exact ⟨s, hget, ht⟩
    · rw [he]; exact ⟨s, hget, ht⟩
    · rw [he]
      have hs : s0 = s := by
        rw [hget0] at hget
        exact Option.some.inj hget
      subst hs
      refine ⟨_, SessionMap.get_set_self _ _ _, ?_⟩
      obtain ⟨i, hi, hlt, -⟩ := SpeakerIndex.lookup_eq_some _ _ _ hcp
      have hne : s0.participants.length ≠ 0 := by omega
      show s0.currentSpeakerIndex.advance s0.participants.length =
        SpeakerIndex.ofMod (s0.roundCount + 1) s0.participants.length
      rw [ht]
      simp only [SpeakerIndex.ofMod, hne, if_false, SpeakerIndex.advance, Nat.mod_add_mod]
  | createSession _ _ _ _ _ => simp [Action.isTurnOf] at ha
  | getSession _ => simp [Action.isTurnOf] at ha
  | pauseSession _ => simp [Action.isTurnOf] at ha
  | resumeSession _ => simp [Action.isTurnOf] at ha
  | forceVote _ => simp [Action.isTurnOf] at ha
  | deleteSession _ => simp [Action.isTurnOf] at ha
  | kickParticipant _ _ => simp [Action.isTurnOf] at ha
  | addParticipant _ _ => simp [Action.isTurnOf] at ha

theorem tracks_after_runAll (ai : AIService) (k : Nat) (actions : List Action) :
    ∀ (sys : System), (∀ a ∈ actions, a.isTurnOf k = true) →
      (∃ s, sys.activeSessions.get k = some s ∧
        s.currentSpeakerIndex = SpeakerIndex.ofMod s.roundCount s.participants.length) →
      ∃ s, (runAll ai actions sys).activeSessions.get k = some s ∧
        s.currentSpeakerIndex = SpeakerIndex.ofMod s.roundCount s.participants.length := by
  induction actions with
  | nil => intro sys _ h; exact h
  | cons a rest ih =>
    intro sys ha h
    exact ih (a.run ai sys) (fun b hb => ha b (List.mem_cons_of_mem _ hb))
      (tracks_after_run ai k a (ha a (List.mem_cons_self _ _)) sys h)


/-- Claim C14 as stated fails on the pointer. After three turns of a session of three the
pointer is back at 0; a fourth participant is added; the live state has pointer 0 and the
state rebuilt after a restart has pointer 3 mod 4 = 3. After four turns of a session of three
the pointer is 1; the participant with id 3 is kicked; the live state has pointer 1 and the
state rebuilt after a restart has pointer 4 mod 2 = 0. Roster, round counter and ceiling agree
in both. -/
theorem restart_changes_pointer_after_roster_edit :
    (((runAll demoService threeTurnsThenAdd bootSystem).activeSessions.get 1).map
        (fun s => (s.participants.map (fun q => q.id), s.currentSpeakerIndex, s.roundCount,
          s.maxRounds)) = some ([1, 2, 3, 4], SpeakerIndex.num 0, 3, 8) ∧
      (getSession (restartedAfter threeTurnsThenAdd) 1).toOption.map
        (fun r => (r.2.participants.map (fun q => q.id), r.2.currentSpeakerIndex, r.2.roundCount,
          r.2.maxRounds)) = some ([1, 2, 3, 4], SpeakerIndex.num 3, 3, 8)) ∧
    (((runAll demoService fourTurnsThenKick bootSystem).activeSessions.get 1).map
        (fun s => (s.participants.map (fun q => q.id), s.currentSpeakerIndex, s.roundCount,
          s.maxRounds)) = some ([1, 2], SpeakerIndex.num 1, 4, 4) ∧
      (getSession (restartedAfter fourTurnsThenKick) 1).toOption.map
        (fun r => (r.2.participants.map (fun q => q.id), r.2.currentSpeakerIndex, r.2.roundCount,
          r.2.maxRounds)) = some ([1, 2], SpeakerIndex.num 0, 4, 4)) := by
  refine ⟨⟨by decide, by decide⟩, ⟨by decide, by decide⟩⟩

theorem sessionOps.getById_of_mem (db : Database) (k : Nat)
    (h : ∃ r ∈ db.sessions, r.id = k) : ∃ row, sessionOps.getById db k = some row := by
  cases hrow : sessionOps.getById db k with
  | some row => exact ⟨row, rfl⟩
  | none => exact absurd h (sessionOps.getById_none db k hrow)

/-- What `getSession` rebuilds after a restart from a store that agrees with the state that
was resident. -/
theorem rehydrate_of_synced (ai : AIService) (sys : System) (hreach : Reachable ai sys)
    (k : Nat) (live : SessionState) (h : Synced sys k live) :
    ∃ (rehydrated : SessionState) (sys3 : System),
      getSession { db := sys.db, activeSessions := [] } k = .ok (sys3, rehydrated) ∧
      rehydrated.participants.map (fun q => q.id) = live.participants.map (fun q => q.id) ∧
      rehydrated.roundCount = live.roundCount ∧
      rehydrated.maxRounds = live.maxRounds ∧
      rehydrated.isPaused = false ∧
      rehydrated.currentSpeakerIndex =
        SpeakerIndex.ofMod live.roundCount live.participants.length := by
  have hsound := reachable_sound ai sys hreach
  obtain ⟨row, hrow⟩ := sessionOps.getById_of_mem sys.db k (hsound.2 k live h.resident).session_row
  have hcount := messageOps.getBySessionId_length sys.db hsound.1 k
  have hids : ((participantOps.getBySessionId sys.db k).map Participant.ofRow).map
      (fun q => q.id) = live.participants.map (fun q => q.id) := by
    rw [h.roster, List.map_map]
    rfl
  have hlen : ((participantOps.getBySessionId sys.db k).map Participant.ofRow).length =
      live.participants.length := by
    have := congrArg List.length hids
    simpa using this
  refine ⟨rehydrate sys.db k row,
    { db := sys.db
      activeSessions := SessionMap.set [] k (rehydrate sys.db k row) },
    ?_, hids, ?_, ?_, rfl, ?_⟩
  · unfold getSession
    rw [SessionMap.get_nil]
    simp only [hrow]
  · show (messageOps.getBySessionId sys.db k).length = _
    rw [hcount, h.counter]
  · show ((((participantOps.getBySessionId sys.db k).map Participant.ofRow).length * 2 : Nat)
      : Int) = _
    rw [hlen, h.ceiling]
    push_cast
    ring
  · show SpeakerIndex.ofMod (messageOps.getBySessionId sys.db k).length
      ((participantOps.getBySessionId sys.db k).map Participant.ofRow).length = _
    rw [hlen, hcount, h.counter]

/-- Claim C14, amended: for a session created with n participants, n from 3 to 7, in a state
the process can be in, and after any sequence of `generateNextResponse`, `addParticipant`
and `kickParticipant` calls on that session, dropping the map and calling `getSession` gives
a state with the same participant ids in the same order, the same round counter and the same
ceiling as the live state had, and not paused; when the roster is not empty its pointer is
the round counter modulo the roster length, and that is the live pointer when the sequence
holds only `generateNextResponse` calls. -/
theorem restart_keeps_roster_and_counters (ai : AIService) (sys : System)
    (hreach : Reachable ai sys) (shuffled : List Personality)
    (hperm : shuffled.Perm personalities) (problem difficulty : String) (n : Nat)
    (h3 : 3 ≤ n) (h7 : n ≤ 7) (now : Nat) (actions : List Action)
    (hacts : ∀ a ∈ actions, a.isTurnOrEditOf (freshSessionId sys.db) = true) :
    ∃ (live rehydrated : SessionState) (sys3 : System),
      (runAll ai actions
        (Action.run ai (.createSession shuffled problem difficulty (n : Int) now)
          sys)).activeSessions.get (freshSessionId sys.db) = some live ∧
      getSession
        { db := (runAll ai actions
            (Action.run ai (.createSession shuffled problem difficulty (n : Int) now) sys)).db,
          activeSessions := [] } (freshSessionId sys.db) = .ok (sys3, rehydrated) ∧
      rehydrated.participants.map (fun q => q.id) = live.participants.map (fun q => q.id) ∧
      rehydrated.roundCount = live.roundCount ∧
      rehydrated.maxRounds = live.maxRounds ∧
      rehydrated.isPaused = false ∧
      (live.participants ≠ [] →
        rehydrated.currentSpeakerIndex =
          .num (live.roundCount % live.participants.length)) ∧
      ((∀ a ∈ actions, a.isTurnOf (freshSessionId sys.db) = true) →
        rehydrated.currentSpeakerIndex = live.currentSpeakerIndex) := by
  obtain ⟨s0, hs0, hinit, hlen0⟩ := synced_createSession ai sys (reachable_foreignKeys ai sys hreach)
    shuffled hperm problem difficulty n h7 now
  obtain ⟨live, hlive⟩ := synced_after_runAll ai (freshSessionId sys.db) actions _ s0 hacts hs0
  have hreach2 : Reachable ai (runAll ai actions
      (Action.run ai (.createSession shuffled problem difficulty (n : Int) now) sys)) :=
    reachable_runAll ai actions _ (Reachable.step _ hreach)
  obtain ⟨rehydrated, sys3, hget, hids, hcount, hceil, hpaused, hptr⟩ :=
    rehydrate_of_synced ai _ hreach2 (freshSessionId sys.db) live hlive
  refine ⟨live, rehydrated, sys3, hlive.resident, hget, hids, hcount, hceil, hpaused, ?_, ?_⟩
  · intro hne
    have hlen : live.participants.length ≠ 0 := fun h0 => hne (List.length_eq_zero.mp h0)
    rw [hptr]
    simp only [SpeakerIndex.ofMod, hlen, if_false]
  intro hturns
  have htrack0 : ∃ s, (Action.run ai (.createSession shuffled problem difficulty (n : Int) now)
      sys).activeSessions.get (freshSessionId sys.db) = some s ∧
      s.currentSpeakerIndex = SpeakerIndex.ofMod s.roundCount s.participants.length := by
    refine ⟨s0, hs0.resident, ?_⟩
    rw [hlen0, hinit]
    have hne : n ≠ 0 := by omega
    simp [initialState, SpeakerIndex.ofMod, hne]
  obtain ⟨s2, hget2, htrack⟩ :=
    tracks_after_runAll ai (freshSessionId sys.db) actions _ hturns htrack0
  have hs2 : s2 = live := by
    rw [hlive.resident] at hget2
    exact (Option.some.inj hget2).symm
  subst hs2
  rw [hptr, htrack]

/-- Claim C14, amended, on a session of three with a turn, an add, a turn and a kick. -/
theorem restart_keeps_roster_and_counters_witness :
    (Reachable demoService bootSystem ∧ personalities.Perm personalities ∧ 3 ≤ 3 ∧ 3 ≤ 7 ∧
      ∀ a ∈ turnAddTurnKick, a.isTurnOrEditOf (freshSessionId bootSystem.db) = true) ∧
    (∃ (live rehydrated : SessionState) (sys3 : System),
      (runAll demoService turnAddTurnKick
        (Action.run demoService
          (.createSession personalities "Is 0.999...=1?" "medium" ((3 : Nat) : Int) 0)
          bootSystem)).activeSessions.get (freshSessionId bootSystem.db) = some live ∧
      getSession
        { db := (runAll demoService turnAddTurnKick
            (Action.run demoService
              (.createSession personalities "Is 0.999...=1?" "medium" ((3 : Nat) : Int) 0)
              bootSystem)).db,
          activeSessions := [] } (freshSessionId bootSystem.db) = .ok (sys3, rehydrated) ∧
      rehydrated.participants.map (fun q => q.id) = live.participants.map (fun q => q.id) ∧
      rehydrated.roundCount = live.roundCount ∧
      rehydrated.maxRounds = live.maxRounds ∧
      rehydrated.isPaused = false ∧
      (live.participants ≠ [] →
        rehydrated.currentSpeakerIndex =
          .num (live.roundCount % live.participants.length)) ∧
      ((∀ a ∈ turnAddTurnKick, a.isTurnOf (freshSessionId bootSystem.db) = true) →
        rehydrated.currentSpeakerIndex = live.currentSpeakerIndex)) ∧
    ((runAll demoService turnAddTurnKick
        (Action.run demoService
          (.createSession personalities "Is 0.999...=1?" "medium" ((3 : Nat) : Int) 0)
          bootSystem)).activeSessions.get 1).map
        (fun s => (s.participants.map (fun q => q.id), s.roundCount, s.maxRounds)) =
      some ([1, 3, 4], 2, 6) :=
  ⟨⟨Reachable.boot, List.Perm.refl _, by decide, by decide, by decide⟩,
    restart_keeps_roster_and_counters demoService bootSystem Reachable.boot personalities
      (List.Perm.refl _) "Is 0.999...=1?" "medium" 3 (by decide) (by decide) 0 turnAddTurnKick
      (by decide),
    by decide⟩


/-! ## A kick of an absent participant -/


/-- Claim C15 as stated fails: `kickParticipant` returns true for a participant id that is not
in the roster of the resident session, and for a session id with neither a resident state nor
a record in the store; and with two sessions resident, kicking from session 1 the participant
with id 4, who is in the roster of session 2, returns true, marks that row inactive in the
store and leaves the roster of session 2 as it was. -/
theorem kickParticipant_returns_true_when_absent :
    (((runAll demoService twoTurns bootSystem).activeSessions.get 1).map
        (fun s => s.participants.map (fun q => q.id)) = some [1, 2, 3] ∧
      (kickParticipant (runAll demoService twoTurns bootSystem) 1 99).2 = true) ∧
    (bootSystem.activeSessions.get 5 = none ∧ sessionOps.getById bootSystem.db 5 = none ∧
      (kickParticipant bootSystem 5 1).2 = true) ∧
    (((runAll demoService twoSessions bootSystem).activeSessions.get 1).map
        (fun s => s.participants.map (fun q => q.id)) = some [1, 2, 3] ∧
      (kickParticipant (runAll demoService twoSessions bootSystem) 1 4).2 = true ∧
      ((participantOps.getById (runAll demoService twoSessions bootSystem).db 4).map
          (fun r => (r.session_id, r.is_active)),
        (participantOps.getById
          (kickParticipant (runAll demoService twoSessions bootSystem) 1 4).1.db 4).map
          (fun r => (r.session_id, r.is_active))) = (some (2, true), some (2, false)) ∧
      ((kickParticipant (runAll demoService twoSessions bootSystem) 1 4).1.activeSessions.get
          2).map (fun s => s.participants.map (fun q => q.id)) = some [4, 5, 6]) := by
  refine ⟨⟨by decide, by decide⟩, ⟨by decide, by decide, by decide⟩,
    ⟨by decide, by decide, by decide, by decide⟩⟩

theorem kickFromState_absent (s : SessionState) (pid : Nat) (hptr : PointerSafe s)
    (habs : ∀ q ∈ s.participants, q.id ≠ pid) :
    (kickFromState s pid).participants = s.participants ∧
    (kickFromState s pid).currentSpeakerIndex = s.currentSpeakerIndex := by
  have hf : s.participants.filter (fun q => q.id != pid) = s.participants :=
    filter_id_ne_self s.participants pid (by
      intro hc
      obtain ⟨q, hq, hid⟩ := List.mem_map.mp hc
      exact habs q hq hid)
  refine ⟨hf, ?_⟩
  show (if s.currentSpeakerIndex.ge (s.participants.filter (fun q => q.id != pid)).length
    then SpeakerIndex.num 0 else s.currentSpeakerIndex) = _
  rw [hf]
  rcases hptr with h | ⟨h, -⟩
  · unfold PointerValid at h
    cases hi : s.currentSpeakerIndex with
    | nan => rw [hi] at h; cases h
    | num i =>
      rw [hi] at h
      simp only at h
      by_cases hne : s.participants = []
      · rw [if_pos hne] at h
        rw [h, hne]
        simp [SpeakerIndex.ge]
      · rw [if_neg hne] at h
        have : ¬ s.participants.length ≤ i := by omega
        simp [SpeakerIndex.ge, this]
  · rw [h]
    simp [SpeakerIndex.ge]

theorem deactivate_absent (db : Database) (pid : Nat)
    (habs : ∀ r ∈ db.participants, r.id ≠ pid) : participantOps.deactivate db pid = db := by
  have h : db.participants.map
      (fun p => if p.id = pid then { p with is_active := false } else p) = db.participants := by
    conv_rhs => rw [← List.map_id db.participants]
    apply List.map_congr_left
    intro r hr
    rw [if_neg (habs r hr)]
    rfl
  unfold participantOps.deactivate
  rw [h]

/-- Claim C15, amended: `kickParticipant` never signals NotFound. In every state the process can
be in and for every session id and participant id it returns true. For a resident session
state whose roster does not hold the participant id, the state after has the same roster,
pointer, round counter, flags and transcript, and the ceiling set to twice the roster length;
without a resident state the map stays as it was; states under other ids stay as they were.
In the store nothing changes but the `is_active` flag of the participant row with that id,
whatever session the row belongs to, and nothing at all when no participant row has that
id. -/
theorem kickParticipant_never_signals_notFound (ai : AIService) (sys : System)
    (hreach : Reachable ai sys) (k pid : Nat) :
    (kickParticipant sys k pid).2 = true ∧
    (∀ s, sys.activeSessions.get k = some s → (∀ q ∈ s.participants, q.id ≠ pid) →
      ∃ s1, (kickParticipant sys k pid).1.activeSessions.get k = some s1 ∧
        s1.participants = s.participants ∧
        s1.currentSpeakerIndex = s.currentSpeakerIndex ∧
        s1.roundCount = s.roundCount ∧ s1.isPaused = s.isPaused ∧
        s1.isComplete = s.isComplete ∧ s1.debateHistory = s.debateHistory ∧
        s1.maxRounds = 2 * (s.participants.length : Int)) ∧
    (sys.activeSessions.get k = none →
      (kickParticipant sys k pid).1.activeSessions = sys.activeSessions) ∧
    (∀ k2, k2 ≠ k →
      (kickParticipant sys k pid).1.activeSessions.get k2 = sys.activeSessions.get k2) ∧
    (kickParticipant sys k pid).1.db.sessions = sys.db.sessions ∧
    (kickParticipant sys k pid).1.db.messages = sys.db.messages ∧
    (kickParticipant sys k pid).1.db.participants =
      sys.db.participants.map
        (fun r => if r.id = pid then { r with is_active := false } else r) ∧
    ((∀ r ∈ sys.db.participants, r.id ≠ pid) → (kickParticipant sys k pid).1.db = sys.db) := by
  have hdb : (kickParticipant sys k pid).1.db = participantOps.deactivate sys.db pid := by
    unfold DebateManager.kickParticipant
    cases sys.activeSessions.get k <;> rfl
  refine ⟨?_, ?_, ?_, ?_, ?_, ?_, ?_, ?_⟩
  · unfold DebateManager.kickParticipant
    cases sys.activeSessions.get k <;> rfl
  · intro s hget habs
    have hl := (reachable_sound ai sys hreach).2 k s hget
    obtain ⟨h1, h2⟩ := kickFromState_absent s pid hl.pointer habs
    refine ⟨kickFromState s pid, ?_, h1, h2, rfl, rfl, rfl, rfl, ?_⟩
    · simp only [DebateManager.kickParticipant, hget]
      exact SessionMap.get_set_self _ _ _
    · show (((s.participants.filter (fun q => q.id != pid)).length * 2 : Nat) : Int) = _
      have hf : s.participants.filter (fun q => q.id != pid) = s.participants := h1
      rw [hf]
      push_cast
      ring
  · intro hnone
    simp only [DebateManager.kickParticipant, hnone]
  · intro k2 hk
    unfold DebateManager.kickParticipant
    cases hget : sys.activeSessions.get k with
    | none => rfl
    | some s => exact SessionMap.get_set_ne _ _ _ _ hk
  · rw [hdb]; rfl
  · rw [hdb]; rfl
  · rw [hdb]; rfl
  · intro habs
    rw [hdb]
    exact deactivate_absent sys.db pid habs

/-- Claim C15, amended, on the session of three after two turns and the participant id 99,
which no roster and no row holds: the call returns true and nothing changes. -/
theorem kickParticipant_never_signals_notFound_witness :
    Reachable demoService (runAll demoService twoTurns bootSystem) ∧
    ((kickParticipant (runAll demoService twoTurns bootSystem) 1 99).2 = true ∧
    (∀ s, (runAll demoService twoTurns bootSystem).activeSessions.get 1 = some s → (∀ q ∈ s.participants, q.id ≠ 99) →
      ∃ s1, (kickParticipant (runAll demoService twoTurns bootSystem) 1 99).1.activeSessions.get 1 = some s1 ∧
        s1.participants = s.participants ∧
        s1.currentSpeakerIndex = s.currentSpeakerIndex ∧
        s1.roundCount = s.roundCount ∧ s1.isPaused = s.isPaused ∧
        s1.isComplete = s.isComplete ∧ s1.debateHistory = s.debateHistory ∧
        s1.maxRounds = 2 * (s.participants.length : Int)) ∧
    ((runAll demoService twoTurns bootSystem).activeSessions.get 1 = none →
      (kickParticipant (runAll demoService twoTurns bootSystem) 1 99).1.activeSessions = (runAll demoService twoTurns bootSystem).activeSessions) ∧
    (∀ k2, k2 ≠ 1 →
      (kickParticipant (runAll demoService twoTurns bootSystem) 1 99).1.activeSessions.get k2 = (runAll demoService twoTurns bootSystem).activeSessions.get k2) ∧
    (kickParticipant (runAll demoService twoTurns bootSystem) 1 99).1.db.sessions = (runAll demoService twoTurns bootSystem).db.sessions ∧
    (kickParticipant (runAll demoService twoTurns bootSystem) 1 99).1.db.messages = (runAll demoService twoTurns bootSystem).db.messages ∧
    (kickParticipant (runAll demoService twoTurns bootSystem) 1 99).1.db.participants =
      (runAll demoService twoTurns bootSystem).db.participants.map
        (fun r => if r.id = 99 then { r with is_active := false } else r) ∧
    ((∀ r ∈ (runAll demoService twoTurns bootSystem).db.participants, r.id ≠ 99) → (kickParticipant (runAll demoService twoTurns bootSystem) 1 99).1.db = (runAll demoService twoTurns bootSystem).db)) ∧
    kickParticipant (runAll demoService twoTurns bootSystem) 1 99 = ((runAll demoService twoTurns bootSystem), true) :=
  ⟨reachable_runAll demoService twoTurns _ Reachable.boot,
    kickParticipant_never_signals_notFound demoService (runAll demoService twoTurns bootSystem)
      (reachable_runAll demoService twoTurns _ Reachable.boot) 1 99,
    by decide⟩


/-! ## A kick before the pointer -/


theorem get?_ne_of_nodup_ids (l : List Participant) (hn : (l.map (fun q => q.id)).Nodup)
    (i j : Nat) (hij : i ≠ j) (hi : i < l.length) : l.get? i ≠ l.get? j := by
  intro h
  have hj : j < l.length := by
    by_contra hc
    rw [List.get?_eq_get hi, List.get?_eq_none.mpr (by omega)] at h
    cases h
  rw [List.get?_eq_get hi, List.get?_eq_get hj, Option.some.injEq] at h
  have h1 : (l.map (fun q => q.id)).get ⟨i, by simpa using hi⟩ =
      (l.map (fun q => q.id)).get ⟨j, by simpa using hj⟩ := by
    simp only [List.get_eq_getElem, List.getElem_map]
    simp only [List.get_eq_getElem] at h
    rw [h]
  have h2 := (List.Nodup.get_inj_iff hn).mp h1
  exact hij (Fin.mk.inj_iff.mp h2)

/-- Claim C16: for a resident session state with a roster of length n at least 3 with distinct
participant ids and pointer p at most n - 2, kicking the participant at roster index j leaves
the pointer at p; when j is before p (so p is at least 1) the speaker under the pointer is
then the participant that was at index p + 1, who is not the participant that was scheduled
at index p; when j is after p the speaker under the pointer is the one that was scheduled. -/
theorem kick_before_pointer_skips_speaker (sys : System) (k : Nat) (s : SessionState)
    (hget : sys.activeSessions.get k = some s)
    (hnd : (s.participants.map (fun q => q.id)).Nodup)
    (hlen : 3 ≤ s.participants.length) (p : Nat)
    (hptr : s.currentSpeakerIndex = .num p) (hp : p ≤ s.participants.length - 2)
    (j : Nat) (hj : j < s.participants.length) :
    ∃ s1, (kickParticipant sys k (s.participants.get ⟨j, hj⟩).id).1.activeSessions.get k =
        some s1 ∧
      s1.currentSpeakerIndex = .num p ∧
      s1.participants = s.participants.eraseIdx j ∧
      (j < p →
        SpeakerIndex.lookup s1.participants s1.currentSpeakerIndex =
          s.participants.get? (p + 1) ∧
        (∃ q, s.participants.get? (p + 1) = some q) ∧
        SpeakerIndex.lookup s1.participants s1.currentSpeakerIndex ≠ s.participants.get? p) ∧
      (p < j →
        SpeakerIndex.lookup s1.participants s1.currentSpeakerIndex =
          s.participants.get? p ∧
        (∃ q, s.participants.get? p = some q)) := by
  have hfilter := filter_id_ne_eq_eraseIdx s.participants hnd j hj
  have hp2 : p + 1 < s.participants.length := by omega
  have hidx : (kickFromState s (s.participants.get ⟨j, hj⟩).id).currentSpeakerIndex =
      .num p := by
    show (if s.currentSpeakerIndex.ge (s.participants.filter
      (fun q => q.id != (s.participants.get ⟨j, hj⟩).id)).length
      then SpeakerIndex.num 0 else s.currentSpeakerIndex) = _
    rw [hfilter, List.length_eraseIdx, if_pos hj, hptr]
    have : ¬ s.participants.length - 1 ≤ p := by omega
    simp [SpeakerIndex.ge, this]
  have hroster : (kickFromState s (s.participants.get ⟨j, hj⟩).id).participants =
      s.participants.eraseIdx j := hfilter
  refine ⟨kickFromState s (s.participants.get ⟨j, hj⟩).id, ?_, hidx, hroster, ?_, ?_⟩
  · simp only [DebateManager.kickParticipant, hget]
    exact SessionMap.get_set_self _ _ _
  · intro hjp
    have h1 : SpeakerIndex.lookup (kickFromState s (s.participants.get ⟨j, hj⟩).id).participants
        (kickFromState s (s.participants.get ⟨j, hj⟩).id).currentSpeakerIndex =
        s.participants.get? (p + 1) := by
      rw [hidx, hroster]
      show (s.participants.eraseIdx j).get? p = _
      rw [List.get?_eq_getElem?, List.get?_eq_getElem?,
        List.getElem?_eraseIdx_of_ge _ _ _ (by omega)]
    refine ⟨h1, ⟨s.participants.get ⟨p + 1, hp2⟩, List.get?_eq_get hp2⟩, ?_⟩
    rw [h1]
    exact get?_ne_of_nodup_ids s.participants hnd (p + 1) p (by omega) hp2
  · intro hpj
    refine ⟨?_, ⟨s.participants.get ⟨p, by omega⟩, List.get?_eq_get (by omega)⟩⟩
    rw [hidx, hroster]
    show (s.participants.eraseIdx j).get? p = _
    rw [List.get?_eq_getElem?, List.get?_eq_getElem?,
      List.getElem?_eraseIdx_of_lt _ _ _ hpj]

/-- Claim C16 on a session of four after two turns (pointer 2, scheduled speaker the
participant with id 3): kicking the participant at index 0 leaves the pointer at 2, and the
speaker under it is then the participant with id 4. -/
theorem kick_before_pointer_skips_speaker_witness :
    ((runAll demoService fourTwoTurns bootSystem).activeSessions.get 1 = some (stateOf (runAll demoService fourTwoTurns bootSystem) 1) ∧
      ((stateOf (runAll demoService fourTwoTurns bootSystem) 1).participants.map (fun q => q.id)).Nodup ∧
      3 ≤ (stateOf (runAll demoService fourTwoTurns bootSystem) 1).participants.length ∧
      (stateOf (runAll demoService fourTwoTurns bootSystem) 1).currentSpeakerIndex = .num 2 ∧ 2 ≤ (stateOf (runAll demoService fourTwoTurns bootSystem) 1).participants.length - 2) ∧
    (∃ s1, (kickParticipant (runAll demoService fourTwoTurns bootSystem) 1
          ((stateOf (runAll demoService fourTwoTurns bootSystem) 1).participants.get ⟨0, by decide⟩).id).1.activeSessions.get 1 = some s1 ∧
      s1.currentSpeakerIndex = .num 2 ∧
      s1.participants = (stateOf (runAll demoService fourTwoTurns bootSystem) 1).participants.eraseIdx 0 ∧
      (0 < 2 →
        SpeakerIndex.lookup s1.participants s1.currentSpeakerIndex =
          (stateOf (runAll demoService fourTwoTurns bootSystem) 1).participants.get? (2 + 1) ∧
        (∃ q, (stateOf (runAll demoService fourTwoTurns bootSystem) 1).participants.get? (2 + 1) = some q) ∧
        SpeakerIndex.lookup s1.participants s1.currentSpeakerIndex ≠ (stateOf (runAll demoService fourTwoTurns bootSystem) 1).participants.get? 2) ∧
      (2 < 0 →
        SpeakerIndex.lookup s1.participants s1.currentSpeakerIndex =
          (stateOf (runAll demoService fourTwoTurns bootSystem) 1).participants.get? 2 ∧
        (∃ q, (stateOf (runAll demoService fourTwoTurns bootSystem) 1).participants.get? 2 = some q))) ∧
    ((SpeakerIndex.lookup (stateOf (runAll demoService fourTwoTurns bootSystem) 1).participants (stateOf (runAll demoService fourTwoTurns bootSystem) 1).currentSpeakerIndex).map (fun q => q.id) = some 3 ∧
      ((kickParticipant (runAll demoService fourTwoTurns bootSystem) 1 1).1.activeSessions.get 1).map
        (fun s => (s.currentSpeakerIndex,
          (SpeakerIndex.lookup s.participants s.currentSpeakerIndex).map (fun q => q.id))) =
        some (SpeakerIndex.num 2, some 4) ∧
      ((kickParticipant (runAll demoService fourTwoTurns bootSystem) 1 4).1.activeSessions.get 1).map
        (fun s => (s.currentSpeakerIndex,
          (SpeakerIndex.lookup s.participants s.currentSpeakerIndex).map (fun q => q.id))) =
        some (SpeakerIndex.num 2, some 3)) :=
  ⟨⟨by decide, by decide, by decide, by decide, by decide⟩,
    kick_before_pointer_skips_speaker (runAll demoService fourTwoTurns bootSystem) 1 (stateOf (runAll demoService fourTwoTurns bootSystem) 1) (by decide) (by decide) (by decide) 2
      (by decide) (by decide) 0 (by decide),
    by decide, by decide, by decide⟩

end MathCouncil
